import Mathlib

/-!
# libsimdpp: stores, element moves, permutations and lane-wise operations

A shallow embedding of `simdpp/core/store.h`, `simdpp/core/store_packed2.h`,
`simdpp/core/store_packed3.h`, `simdpp/core/move_r.h`,
`simdpp/functions/permute2.h`, `simdpp/core/f_add.h`, `simdpp/core/f_sub.h`,
`simdpp/core/f_isnan2.h` and `simdpp/core/bit_xor.h`.

Data model.  A vector is its object representation: the list of its bytes, in
memory order.  Lane `i` of a vector of `e`-byte elements is the `e` bytes
starting at byte `i * e`, so the conversions between `gint8<N*e>` and the
wider element types (which keep the bits) are the identity on this model.
Memory is a function from byte addresses to bytes.  The capability profile is
a value of `Arch`; each `#if` of the source is an `if` on its flags.
-/

namespace simdpp

/-! ## Capability model -/

/-- The instruction-set family selected at build time. -/
inductive Arch where
  | NULL
  | SSE2
  | AVX
  | AVX2
  | NEON
  | NEON_FLT_SP
  | ALTIVEC
  deriving DecidableEq, Repr

/-- Flag `SIMDPP_USE_NULL`: no hardware capability is active. -/
def SIMDPP_USE_NULL : Arch → Bool
  | .NULL => true
  | _ => false

/-- Flag `SIMDPP_USE_SSE2`, also set by the AVX and AVX2 profiles. -/
def SIMDPP_USE_SSE2 : Arch → Bool
  | .SSE2 | .AVX | .AVX2 => true
  | _ => false

/-- Flag `SIMDPP_USE_AVX`, also set by the AVX2 profile. -/
def SIMDPP_USE_AVX : Arch → Bool
  | .AVX | .AVX2 => true
  | _ => false

/-- Flag `SIMDPP_USE_AVX2`. -/
def SIMDPP_USE_AVX2 : Arch → Bool
  | .AVX2 => true
  | _ => false

/-- Flag `SIMDPP_USE_NEON`, also set by the NEON profile with single-precision floats. -/
def SIMDPP_USE_NEON : Arch → Bool
  | .NEON | .NEON_FLT_SP => true
  | _ => false

/-- Flag `SIMDPP_USE_NEON_FLT_SP`. -/
def SIMDPP_USE_NEON_FLT_SP : Arch → Bool
  | .NEON_FLT_SP => true
  | _ => false

/-- Flag `SIMDPP_USE_ALTIVEC`. -/
def SIMDPP_USE_ALTIVEC : Arch → Bool
  | .ALTIVEC => true
  | _ => false

/-! ## Vector type model -/

/-- The element types of the operation catalogue. -/
inductive Elem where
  | i8
  | i16
  | i32
  | i64
  | f32
  | f64
  deriving DecidableEq, Repr

/-- The size of an element in bytes. -/
def Elem.size : Elem → Nat
  | .i8 => 1
  | .i16 => 2
  | .i32 => 4
  | .i64 => 8
  | .f32 => 4
  | .f64 => 8

/-- Whether the element type is a floating-point type. -/
def Elem.isFloat : Elem → Bool
  | .f32 | .f64 => true
  | _ => false

/-- A vector, as the bytes of its object representation. -/
abbrev Vec := List Nat

/-- Lane `i` of a vector of `e`-byte elements (`a.el(i)`): `e` bytes from byte `i * e`. -/
def el (e : Nat) (v : Vec) (i : Nat) : List Nat :=
  (v.drop (i * e)).take e

/-- Modelled from the spec: the vector types of `simdpp/types.h` are not part of
the sources at hand.  `sizeof(typename V::base_vector_type)`: a base vector has
256 bits for integer elements under AVX2 and for floating-point elements under
AVX, and 128 bits otherwise. -/
def sizeof_base_vector (arch : Arch) (T : Elem) : Nat :=
  if T.isFloat then (if SIMDPP_USE_AVX arch then 32 else 16)
  else (if SIMDPP_USE_AVX2 arch then 32 else 16)

/-- Modelled from the spec: `V::vec_length` of `simdpp/types.h`, the number of
base vectors a vector is made of. -/
def vec_length (veclen : Nat) (a : Vec) : Nat :=
  a.length / veclen

/-- Modelled from the spec: `a[i]` of `simdpp/types.h`; base vector `i` holds
logical lanes `[i*base_lanes, (i+1)*base_lanes)`, that is the bytes
`[i*veclen, (i+1)*veclen)`. -/
def base (veclen : Nat) (a : Vec) (i : Nat) : Vec :=
  (a.drop (i * veclen)).take veclen

/-- Modelled from the spec: `V::zero()` of `simdpp/types.h`, the all-zero vector
of `n` bytes. -/
def zero (n : Nat) : Vec :=
  List.replicate n 0

/-! ## Memory -/

/-- Memory: a byte at every address. -/
abbrev Mem := Nat → Nat

/-- The memory after the bytes `bs` are written to the addresses `p, p+1, ...`. -/
def write (m : Mem) (p : Nat) (bs : List Nat) : Mem :=
  fun x => if p ≤ x ∧ x < p + bs.length then bs.getD (x - p) 0 else m x

/-- The `n` bytes of memory starting at address `p`. -/
def readBytes (m : Mem) (p n : Nat) : List Nat :=
  (List.range n).map (fun t => m (p + t))

/-- Modelled from the spec: `detail::assume_aligned` of `simdpp/detail/align.h`
is not part of the sources at hand; it tells the compiler that `p` is aligned
and returns `p`. -/
def detail.assume_aligned (p : Nat) (_align : Nat) : Nat := p

/-! ## `simdpp/core/store.h`: stores of one native vector -/

/-- Modelled from the spec: `null::store` of `simdpp/null/memory.h` is not part of
the sources at hand; the fallback copies the lanes of `a` to `p` in lane order. -/
def null.store (m : Mem) (p : Nat) (a : Vec) : Mem := write m p a

/-- Intrinsic `_mm_store_si128`: stores the 16 bytes of the register at `p`. -/
def _mm_store_si128 (m : Mem) (p : Nat) (a : Vec) : Mem := write m p a

/-- Intrinsic `_mm_store_ps`: stores the 16 bytes of the register at `p`. -/
def _mm_store_ps (m : Mem) (p : Nat) (a : Vec) : Mem := write m p a

/-- Intrinsic `_mm_store_pd`: stores the 16 bytes of the register at `p`. -/
def _mm_store_pd (m : Mem) (p : Nat) (a : Vec) : Mem := write m p a

/-- Intrinsic `_mm256_store_si256`: stores the 32 bytes of the register at `p`. -/
def _mm256_store_si256 (m : Mem) (p : Nat) (a : Vec) : Mem := write m p a

/-- Intrinsic `_mm256_store_ps`: stores the 32 bytes of the register at `p`. -/
def _mm256_store_ps (m : Mem) (p : Nat) (a : Vec) : Mem := write m p a

/-- Intrinsic `_mm256_store_pd`: stores the 32 bytes of the register at `p`. -/
def _mm256_store_pd (m : Mem) (p : Nat) (a : Vec) : Mem := write m p a

/-- Intrinsics `vst1q_u64` and `vst1q_f32`: store the 16 bytes of the register at `p`. -/
def vst1q (m : Mem) (p : Nat) (a : Vec) : Mem := write m p a

/-- Intrinsic `vec_stl(a, 0, p)`: stores the register at the address `p` with
its low four bits cleared. -/
def vec_stl (m : Mem) (p : Nat) (a : Vec) : Mem := write m (p / 16 * 16) a

/-- Source `store(void* p, gint8x16 a)`. -/
def store_gint8x16 (arch : Arch) (m : Mem) (p : Nat) (a : Vec) : Mem :=
  let p := detail.assume_aligned p 16
  if SIMDPP_USE_NULL arch then null.store m p a
  else if SIMDPP_USE_SSE2 arch then _mm_store_si128 m p a
  else if SIMDPP_USE_NEON arch then vst1q m p a
  else if SIMDPP_USE_ALTIVEC arch then vec_stl m p a
  else m

/-- Source `store(void* p, gint8x32 a)`, declared under `SIMDPP_USE_AVX2`. -/
def store_gint8x32 (m : Mem) (p : Nat) (a : Vec) : Mem :=
  let p := detail.assume_aligned p 32
  _mm256_store_si256 m p a

/-- Source `store(float* p, float32x4 a)`. -/
def store_float32x4 (arch : Arch) (m : Mem) (p : Nat) (a : Vec) : Mem :=
  let p := detail.assume_aligned p 16
  if SIMDPP_USE_NULL arch then null.store m p a
  else if SIMDPP_USE_SSE2 arch then _mm_store_ps m p a
  else if SIMDPP_USE_NEON arch then vst1q m p a
  else if SIMDPP_USE_ALTIVEC arch then vec_stl m p a
  else m

/-- Source `store(float* p, float32x8 a)`, declared under `SIMDPP_USE_AVX`. -/
def store_float32x8 (m : Mem) (p : Nat) (a : Vec) : Mem :=
  let p := detail.assume_aligned p 32
  _mm256_store_ps m p a

/-- Source `store(double* p, float64x2 a)`. -/
def store_float64x2 (arch : Arch) (m : Mem) (p : Nat) (a : Vec) : Mem :=
  let p := detail.assume_aligned p 16
  if SIMDPP_USE_NULL arch || SIMDPP_USE_NEON arch || SIMDPP_USE_ALTIVEC arch then null.store m p a
  else if SIMDPP_USE_SSE2 arch then _mm_store_pd m p a
  else m

/-- Source `store(double* p, float64x4 a)`, declared under `SIMDPP_USE_AVX`. -/
def store_float64x4 (m : Mem) (p : Nat) (a : Vec) : Mem :=
  let p := detail.assume_aligned p 32
  _mm256_store_pd m p a

/-- The overload of `store(p, a)` that a call on one vector of `veclen` bytes and
element type `T` resolves to (`veclen` is 16, or 32 where the 256-bit types
exist).  The stores of 16-, 32- and 64-bit integer vectors are
`store(p, gint8<N*e>(a))`, the store of the same bytes. -/
def store_base (arch : Arch) (T : Elem) (veclen : Nat) (m : Mem) (p : Nat) (a : Vec) : Mem :=
  match T with
  | .f32 => if veclen = 32 then store_float32x8 m p a else store_float32x4 arch m p a
  | .f64 => if veclen = 32 then store_float64x4 m p a else store_float64x2 arch m p a
  | _ => if veclen = 32 then store_gint8x32 m p a else store_gint8x16 arch m p a

/-! ## Interleaving helpers -/

/-- The array-of-structures layout of two vectors of `n` lanes of `e` bytes:
lane 0 of `a`, lane 0 of `b`, lane 1 of `a`, lane 1 of `b`, ... -/
def interleave2 (e : Nat) (a b : Vec) (n : Nat) : List Nat :=
  (List.range n).flatMap (fun i => el e a i ++ el e b i)

/-- The array-of-structures layout of three vectors of `n` lanes of `e` bytes. -/
def interleave3 (e : Nat) (a b c : Vec) (n : Nat) : List Nat :=
  (List.range n).flatMap (fun i => el e a i ++ (el e b i ++ el e c i))

/-- Modelled from the spec: `null::store_packed2` of `simdpp/null/memory.h` is not
part of the sources at hand.  The fallback interleaves by explicit index
remapping: for each lane `i` in order it stores `a.el(i)` and then `b.el(i)`
through a pointer that advances by one element per store. -/
def null.store_packed2 (e : Nat) (m : Mem) (p : Nat) (a b : Vec) : Mem :=
  ((List.range (a.length / e)).foldl
    (fun (s : Mem × Nat) i =>
      let s1 : Mem × Nat := (write s.1 s.2 (el e a i), s.2 + e)
      (write s1.1 s1.2 (el e b i), s1.2 + e))
    (m, p)).1

/-- Modelled from the spec: `null::store_packed3` of `simdpp/null/memory.h` is not
part of the sources at hand.  For each lane `i` in order it stores `a.el(i)`,
`b.el(i)` and `c.el(i)` through a pointer that advances by one element per
store. -/
def null.store_packed3 (e : Nat) (m : Mem) (p : Nat) (a b c : Vec) : Mem :=
  ((List.range (a.length / e)).foldl
    (fun (s : Mem × Nat) i =>
      let s1 : Mem × Nat := (write s.1 s.2 (el e a i), s.2 + e)
      let s2 : Mem × Nat := (write s1.1 s1.2 (el e b i), s1.2 + e)
      (write s2.1 s2.2 (el e c i), s2.2 + e))
    (m, p)).1

/-- Modelled from the spec: `detail::mem_pack2` of `simdpp/core/detail/mem_pack.h`
is not part of the sources at hand.  The in-register transpose (interleave):
afterwards `a` followed by `b` holds the lanes of the two inputs interleaved. -/
def detail.mem_pack2 (e : Nat) (a b : Vec) : Vec × Vec :=
  let r := interleave2 e a b (a.length / e)
  (r.take a.length, r.drop a.length)

/-- Modelled from the spec: `detail::mem_pack3` of `simdpp/core/detail/mem_pack.h`
is not part of the sources at hand.  The in-register transpose (interleave):
afterwards `a`, `b`, `c` in a row hold the lanes of the three inputs
interleaved. -/
def detail.mem_pack3 (e : Nat) (a b c : Vec) : Vec × Vec × Vec :=
  let r := interleave3 e a b c (a.length / e)
  (r.take a.length, (r.drop a.length).take a.length, r.drop (a.length + a.length))

/-- Modelled from the spec: `transpose2` on two vectors of two 64-bit lanes is not
part of the sources at hand; it turns `([a0,a1],[b0,b1])` into
`([a0,b0],[a1,b1])`. -/
def transpose2 (a b : Vec) : Vec × Vec :=
  (el 8 a 0 ++ el 8 b 0, el 8 a 1 ++ el 8 b 1)

/-- Intrinsics `vst2q_u8`, `vst2q_u16`, `vst2q_u32`, `vst2q_f32` (`e` = 1, 2, 4, 4):
store the 2-element structures `(a[i], b[i])` of the register pair in a row. -/
def vst2q (e : Nat) (m : Mem) (p : Nat) (a b : Vec) : Mem :=
  write m p (interleave2 e a b (16 / e))

/-- Intrinsics `vst3q_u8`, `vst3q_u16`, `vst3q_u32`, `vst3q_f32`: store the
3-element structures `(a[i], b[i], c[i])` of the register triple in a row. -/
def vst3q (e : Nat) (m : Mem) (p : Nat) (a b c : Vec) : Mem :=
  write m p (interleave3 e a b c (16 / e))

/-- Intrinsic `vst2_u64` on a pair of one-lane 64-bit vectors: stores `t0` and
then `t1`. -/
def vst2_u64 (m : Mem) (p : Nat) (t0 t1 : Vec) : Mem :=
  write m p (t0 ++ t1)

/-- Intrinsic `vget_low_u64`: the low 64-bit half of a 128-bit register. -/
def vget_low_u64 (a : Vec) : Vec := a.take 8

/-- Intrinsic `vget_high_u64`: the high 64-bit half of a 128-bit register. -/
def vget_high_u64 (a : Vec) : Vec := (a.drop 8).take 8

/-! ## `simdpp/core/store_packed2.h` -/

/-- The size of `char`, the pointer element type of the integer overloads
(`reinterpret_cast<char*>(p)`). -/
def sizeof_char : Nat := 1

/-- The size of `float`. -/
def sizeof_float : Nat := 4

/-- The size of `double`. -/
def sizeof_double : Nat := 8

/-- Source `detail::v256_store_pack2(P* p, V a, V b)`; `p + n` on a `P*` is the
byte address `p + n * sizeof(P)`. -/
def detail.v256_store_pack2 (arch : Arch) (T : Elem) (sizeofP : Nat) (m : Mem) (p : Nat)
    (a b : Vec) : Mem :=
  let p := detail.assume_aligned p 32
  let ab := detail.mem_pack2 T.size a b
  let m1 := store_base arch T 32 m p ab.1
  store_base arch T 32 m1 (p + 32 / sizeofP * sizeofP) ab.2

/-- Source `store_packed2(void* p, gint8x16 a, gint8x16 b)`. -/
def store_packed2_gint8x16 (arch : Arch) (m : Mem) (p : Nat) (a b : Vec) : Mem :=
  let p := detail.assume_aligned p 16
  if SIMDPP_USE_NULL arch then null.store_packed2 1 m p a b
  else if SIMDPP_USE_SSE2 arch || SIMDPP_USE_ALTIVEC arch then
    let q := p
    let ab := detail.mem_pack2 1 a b
    let m1 := store_base arch .i8 16 m q ab.1
    store_base arch .i8 16 m1 (q + 16 * sizeof_char) ab.2
  else if SIMDPP_USE_NEON arch then vst2q 1 m p a b
  else m

/-- Source `store_packed2(void* p, gint16x8 a, gint16x8 b)`. -/
def store_packed2_gint16x8 (arch : Arch) (m : Mem) (p : Nat) (a b : Vec) : Mem :=
  let p := detail.assume_aligned p 16
  if SIMDPP_USE_NULL arch then null.store_packed2 2 m p a b
  else if SIMDPP_USE_SSE2 arch || SIMDPP_USE_ALTIVEC arch then
    let q := p
    let ab := detail.mem_pack2 2 a b
    let m1 := store_base arch .i16 16 m q ab.1
    store_base arch .i16 16 m1 (q + 16 * sizeof_char) ab.2
  else if SIMDPP_USE_NEON arch then vst2q 2 m p a b
  else m

/-- Source `store_packed2(void* p, gint32x4 a, gint32x4 b)`. -/
def store_packed2_gint32x4 (arch : Arch) (m : Mem) (p : Nat) (a b : Vec) : Mem :=
  let p := detail.assume_aligned p 16
  if SIMDPP_USE_NULL arch then null.store_packed2 4 m p a b
  else if SIMDPP_USE_SSE2 arch || SIMDPP_USE_ALTIVEC arch then
    let q := p
    let ab := detail.mem_pack2 4 a b
    let m1 := store_base arch .i32 16 m q ab.1
    store_base arch .i32 16 m1 (q + 16 * sizeof_char) ab.2
  else if SIMDPP_USE_NEON arch then vst2q 4 m p a b
  else m

/-- Source `store_packed2(void* p, gint64x2 a, gint64x2 b)`. -/
def store_packed2_gint64x2 (arch : Arch) (m : Mem) (p : Nat) (a b : Vec) : Mem :=
  let p := detail.assume_aligned p 16
  let q := p
  let ab := transpose2 a b
  let m1 := store_base arch .i64 16 m q ab.1
  store_base arch .i64 16 m1 (q + 16 * sizeof_char) ab.2

/-- Source `store_packed2(float* p, float32x4 a, float32x4 b)`. -/
def store_packed2_float32x4 (arch : Arch) (m : Mem) (p : Nat) (a b : Vec) : Mem :=
  let p := detail.assume_aligned p 16
  if SIMDPP_USE_NULL arch then null.store_packed2 4 m p a b
  else if SIMDPP_USE_SSE2 arch || SIMDPP_USE_ALTIVEC arch then
    let ab := detail.mem_pack2 4 a b
    let m1 := store_float32x4 arch m p ab.1
    store_float32x4 arch m1 (p + 4 * sizeof_float) ab.2
  else if SIMDPP_USE_NEON arch then vst2q 4 m p a b
  else m

/-- Source `store_packed2(double* p, float64x2 a, float64x2 b)`. -/
def store_packed2_float64x2 (arch : Arch) (m : Mem) (p : Nat) (a b : Vec) : Mem :=
  let p := detail.assume_aligned p 16
  let ab := transpose2 a b
  let m1 := store_float64x2 arch m p ab.1
  store_float64x2 arch m1 (p + 2 * sizeof_double) ab.2

/-- Source `store_packed2(void* p, gint8x32 a, gint8x32 b)`, declared under
`SIMDPP_USE_AVX2`. -/
def store_packed2_gint8x32 (arch : Arch) (m : Mem) (p : Nat) (a b : Vec) : Mem :=
  detail.v256_store_pack2 arch .i8 sizeof_char m p a b

/-- Source `store_packed2(void* p, gint16x16 a, gint16x16 b)`, declared under
`SIMDPP_USE_AVX2`. -/
def store_packed2_gint16x16 (arch : Arch) (m : Mem) (p : Nat) (a b : Vec) : Mem :=
  detail.v256_store_pack2 arch .i16 sizeof_char m p a b

/-- Source `store_packed2(void* p, gint32x8 a, gint32x8 b)`, declared under
`SIMDPP_USE_AVX2`. -/
def store_packed2_gint32x8 (arch : Arch) (m : Mem) (p : Nat) (a b : Vec) : Mem :=
  detail.v256_store_pack2 arch .i32 sizeof_char m p a b

/-- Source `store_packed2(void* p, gint64x4 a, gint64x4 b)`, declared under
`SIMDPP_USE_AVX2`. -/
def store_packed2_gint64x4 (arch : Arch) (m : Mem) (p : Nat) (a b : Vec) : Mem :=
  detail.v256_store_pack2 arch .i64 sizeof_char m p a b

/-- Source `store_packed2(float* p, float32x8 a, float32x8 b)`, declared under
`SIMDPP_USE_AVX`. -/
def store_packed2_float32x8 (arch : Arch) (m : Mem) (p : Nat) (a b : Vec) : Mem :=
  detail.v256_store_pack2 arch .f32 sizeof_float m p a b

/-- Source `store_packed2(double* p, float64x4 a, float64x4 b)`, declared under
`SIMDPP_USE_AVX`. -/
def store_packed2_float64x4 (arch : Arch) (m : Mem) (p : Nat) (a b : Vec) : Mem :=
  detail.v256_store_pack2 arch .f64 sizeof_double m p a b

/-- The overload of `store_packed2(p, a[i], b[i])` that a call on base vectors of
element type `T` resolves to: the 256-bit overload where the base vector has
256 bits, the 128-bit overload otherwise. -/
def store_packed2_base (arch : Arch) (T : Elem) (m : Mem) (p : Nat) (a b : Vec) : Mem :=
  match T with
  | .i8 => if SIMDPP_USE_AVX2 arch then store_packed2_gint8x32 arch m p a b
      else store_packed2_gint8x16 arch m p a b
  | .i16 => if SIMDPP_USE_AVX2 arch then store_packed2_gint16x16 arch m p a b
      else store_packed2_gint16x8 arch m p a b
  | .i32 => if SIMDPP_USE_AVX2 arch then store_packed2_gint32x8 arch m p a b
      else store_packed2_gint32x4 arch m p a b
  | .i64 => if SIMDPP_USE_AVX2 arch then store_packed2_gint64x4 arch m p a b
      else store_packed2_gint64x2 arch m p a b
  | .f32 => if SIMDPP_USE_AVX arch then store_packed2_float32x8 arch m p a b
      else store_packed2_float32x4 arch m p a b
  | .f64 => if SIMDPP_USE_AVX arch then store_packed2_float64x4 arch m p a b
      else store_packed2_float64x2 arch m p a b

/-- Source `detail::v_store_pack2(P* p, V a, V b)`: the loop over the base
vectors; `p += n` on a `P*` advances the byte address by `n * sizeof(P)`. -/
def detail.v_store_pack2 (arch : Arch) (T : Elem) (sizeofP : Nat) (m : Mem) (p : Nat)
    (a b : Vec) : Mem :=
  let veclen := sizeof_base_vector arch T
  let p := detail.assume_aligned p veclen
  ((List.range (vec_length veclen a)).foldl
    (fun (s : Mem × Nat) i =>
      (store_packed2_base arch T s.1 s.2 (base veclen a i) (base veclen b i),
        s.2 + veclen * 2 / sizeofP * sizeofP))
    (m, p)).1

/-- Source `store_packed2` on vectors of element type `T` and any width: the
128-bit overload for 128-bit vectors, the 256-bit overload where it is declared,
and otherwise the template over `N`, which calls `detail::v_store_pack2` with a
`char*` (integer elements), `float*` or `double*`. -/
def store_packed2 (arch : Arch) (T : Elem) (m : Mem) (p : Nat) (a b : Vec) : Mem :=
  match T with
  | .i8 =>
    if a.length = 16 then store_packed2_gint8x16 arch m p a b
    else if SIMDPP_USE_AVX2 arch = true ∧ a.length = 32 then store_packed2_gint8x32 arch m p a b
    else detail.v_store_pack2 arch .i8 sizeof_char m p a b
  | .i16 =>
    if a.length = 16 then store_packed2_gint16x8 arch m p a b
    else if SIMDPP_USE_AVX2 arch = true ∧ a.length = 32 then store_packed2_gint16x16 arch m p a b
    else detail.v_store_pack2 arch .i16 sizeof_char m p a b
  | .i32 =>
    if a.length = 16 then store_packed2_gint32x4 arch m p a b
    else if SIMDPP_USE_AVX2 arch = true ∧ a.length = 32 then store_packed2_gint32x8 arch m p a b
    else detail.v_store_pack2 arch .i32 sizeof_char m p a b
  | .i64 =>
    if a.length = 16 then store_packed2_gint64x2 arch m p a b
    else if SIMDPP_USE_AVX2 arch = true ∧ a.length = 32 then store_packed2_gint64x4 arch m p a b
    else detail.v_store_pack2 arch .i64 sizeof_char m p a b
  | .f32 =>
    if a.length = 16 then store_packed2_float32x4 arch m p a b
    else if SIMDPP_USE_AVX arch = true ∧ a.length = 32 then store_packed2_float32x8 arch m p a b
    else detail.v_store_pack2 arch .f32 sizeof_float m p a b
  | .f64 =>
    if a.length = 16 then store_packed2_float64x2 arch m p a b
    else if SIMDPP_USE_AVX arch = true ∧ a.length = 32 then store_packed2_float64x4 arch m p a b
    else detail.v_store_pack2 arch .f64 sizeof_double m p a b

/-! ## `simdpp/core/store_packed3.h` -/

/-- Source `detail::v256_store_pack3(P* p, V a, V b, V c)`. -/
def detail.v256_store_pack3 (arch : Arch) (T : Elem) (sizeofP : Nat) (m : Mem) (p : Nat)
    (a b c : Vec) : Mem :=
  let p := detail.assume_aligned p 32
  let abc := detail.mem_pack3 T.size a b c
  let m1 := store_base arch T 32 m p abc.1
  let m2 := store_base arch T 32 m1 (p + 32 / sizeofP * sizeofP) abc.2.1
  store_base arch T 32 m2 (p + 64 / sizeofP * sizeofP) abc.2.2

/-- Source `store_packed3(void* p, gint8x16 a, gint8x16 b, gint8x16 c)`. -/
def store_packed3_gint8x16 (arch : Arch) (m : Mem) (p : Nat) (a b c : Vec) : Mem :=
  let p := detail.assume_aligned p 16
  if SIMDPP_USE_NULL arch then null.store_packed3 1 m p a b c
  else if SIMDPP_USE_SSE2 arch || SIMDPP_USE_ALTIVEC arch then
    let q := p
    let abc := detail.mem_pack3 1 a b c
    let m1 := store_base arch .i8 16 m q abc.1
    let m2 := store_base arch .i8 16 m1 (q + 16 * sizeof_char) abc.2.1
    store_base arch .i8 16 m2 (q + 32 * sizeof_char) abc.2.2
  else if SIMDPP_USE_NEON arch then vst3q 1 m p a b c
  else m

/-- Source `store_packed3(void* p, gint16x8 a, gint16x8 b, gint16x8 c)`. -/
def store_packed3_gint16x8 (arch : Arch) (m : Mem) (p : Nat) (a b c : Vec) : Mem :=
  let p := detail.assume_aligned p 16
  if SIMDPP_USE_NULL arch then null.store_packed3 2 m p a b c
  else if SIMDPP_USE_SSE2 arch || SIMDPP_USE_ALTIVEC arch then
    let q := p
    let abc := detail.mem_pack3 2 a b c
    let m1 := store_base arch .i16 16 m q abc.1
    let m2 := store_base arch .i16 16 m1 (q + 16 * sizeof_char) abc.2.1
    store_base arch .i16 16 m2 (q + 32 * sizeof_char) abc.2.2
  else if SIMDPP_USE_NEON arch then vst3q 2 m p a b c
  else m

/-- Source `store_packed3(void* p, gint32x4 a, gint32x4 b, gint32x4 c)`. -/
def store_packed3_gint32x4 (arch : Arch) (m : Mem) (p : Nat) (a b c : Vec) : Mem :=
  let p := detail.assume_aligned p 16
  if SIMDPP_USE_NULL arch then null.store_packed3 4 m p a b c
  else if SIMDPP_USE_SSE2 arch || SIMDPP_USE_ALTIVEC arch then
    let q := p
    let abc := detail.mem_pack3 4 a b c
    let m1 := store_base arch .i32 16 m q abc.1
    let m2 := store_base arch .i32 16 m1 (q + 16 * sizeof_char) abc.2.1
    store_base arch .i32 16 m2 (q + 32 * sizeof_char) abc.2.2
  else if SIMDPP_USE_NEON arch then vst3q 4 m p a b c
  else m

/-- Source `store_packed3(void* p, gint64x2 a, gint64x2 b, gint64x2 c)`; under
NEON `q` is a `uint64_t*`, so `q + n` is the byte address `q + n * 8`. -/
def store_packed3_gint64x2 (arch : Arch) (m : Mem) (p : Nat) (a b c : Vec) : Mem :=
  let p := detail.assume_aligned p 16
  if SIMDPP_USE_NULL arch then null.store_packed3 8 m p a b c
  else if SIMDPP_USE_SSE2 arch || SIMDPP_USE_ALTIVEC arch then
    let q := p
    let abc := detail.mem_pack3 8 a b c
    let m1 := store_base arch .i64 16 m q abc.1
    let m2 := store_base arch .i64 16 m1 (q + 16 * sizeof_char) abc.2.1
    store_base arch .i64 16 m2 (q + 32 * sizeof_char) abc.2.2
  else if SIMDPP_USE_NEON arch then
    let q := p
    let t1 : Vec × Vec := (vget_low_u64 a, vget_low_u64 b)
    let t2 : Vec × Vec := (vget_low_u64 c, vget_high_u64 a)
    let t3 : Vec × Vec := (vget_high_u64 b, vget_high_u64 c)
    let m1 := vst2_u64 m q t1.1 t1.2
    let m2 := vst2_u64 m1 (q + 2 * 8) t2.1 t2.2
    vst2_u64 m2 (q + 4 * 8) t3.1 t3.2
  else m

/-- Source `store_packed3(float* p, float32x4 a, float32x4 b, float32x4 c)`. -/
def store_packed3_float32x4 (arch : Arch) (m : Mem) (p : Nat) (a b c : Vec) : Mem :=
  let p := detail.assume_aligned p 16
  if SIMDPP_USE_NULL arch then null.store_packed3 4 m p a b c
  else if SIMDPP_USE_SSE2 arch || SIMDPP_USE_ALTIVEC arch then
    let abc := detail.mem_pack3 4 a b c
    let m1 := store_float32x4 arch m p abc.1
    let m2 := store_float32x4 arch m1 (p + 4 * sizeof_float) abc.2.1
    store_float32x4 arch m2 (p + 8 * sizeof_float) abc.2.2
  else if SIMDPP_USE_NEON arch then vst3q 4 m p a b c
  else m

/-- Source `store_packed3(double* p, float64x2 a, float64x2 b, float64x2 c)`. -/
def store_packed3_float64x2 (arch : Arch) (m : Mem) (p : Nat) (a b c : Vec) : Mem :=
  let p := detail.assume_aligned p 16
  if SIMDPP_USE_NULL arch || SIMDPP_USE_ALTIVEC arch || SIMDPP_USE_NEON arch then
    null.store_packed3 8 m p a b c
  else if SIMDPP_USE_SSE2 arch then
    let abc := detail.mem_pack3 8 a b c
    let m1 := store_float64x2 arch m p abc.1
    let m2 := store_float64x2 arch m1 (p + 2 * sizeof_double) abc.2.1
    store_float64x2 arch m2 (p + 4 * sizeof_double) abc.2.2
  else m

/-- Source `store_packed3(void* p, gint8x32 a, gint8x32 b, gint8x32 c)`, declared under
`SIMDPP_USE_AVX2`. -/
def store_packed3_gint8x32 (arch : Arch) (m : Mem) (p : Nat) (a b c : Vec) : Mem :=
  detail.v256_store_pack3 arch .i8 sizeof_char m p a b c

/-- Source `store_packed3(void* p, gint16x16 a, gint16x16 b, gint16x16 c)`, declared under
`SIMDPP_USE_AVX2`. -/
def store_packed3_gint16x16 (arch : Arch) (m : Mem) (p : Nat) (a b c : Vec) : Mem :=
  detail.v256_store_pack3 arch .i16 sizeof_char m p a b c

/-- Source `store_packed3(void* p, gint32x8 a, gint32x8 b, gint32x8 c)`, declared under
`SIMDPP_USE_AVX2`. -/
def store_packed3_gint32x8 (arch : Arch) (m : Mem) (p : Nat) (a b c : Vec) : Mem :=
  detail.v256_store_pack3 arch .i32 sizeof_char m p a b c

/-- Source `store_packed3(void* p, gint64x4 a, gint64x4 b, gint64x4 c)`, declared under
`SIMDPP_USE_AVX2`. -/
def store_packed3_gint64x4 (arch : Arch) (m : Mem) (p : Nat) (a b c : Vec) : Mem :=
  detail.v256_store_pack3 arch .i64 sizeof_char m p a b c

/-- Source `store_packed3(float* p, float32x8 a, float32x8 b, float32x8 c)`, declared under
`SIMDPP_USE_AVX`. -/
def store_packed3_float32x8 (arch : Arch) (m : Mem) (p : Nat) (a b c : Vec) : Mem :=
  detail.v256_store_pack3 arch .f32 sizeof_float m p a b c

/-- Source `store_packed3(double* p, float64x4 a, float64x4 b, float64x4 c)`, declared under
`SIMDPP_USE_AVX`. -/
def store_packed3_float64x4 (arch : Arch) (m : Mem) (p : Nat) (a b c : Vec) : Mem :=
  detail.v256_store_pack3 arch .f64 sizeof_double m p a b c

/-- The overload of `store_packed3(p, a[i], b[i], c[i])` that a call on base
vectors of element type `T` resolves to. -/
def store_packed3_base (arch : Arch) (T : Elem) (m : Mem) (p : Nat) (a b c : Vec) : Mem :=
  match T with
  | .i8 => if SIMDPP_USE_AVX2 arch then store_packed3_gint8x32 arch m p a b c
      else store_packed3_gint8x16 arch m p a b c
  | .i16 => if SIMDPP_USE_AVX2 arch then store_packed3_gint16x16 arch m p a b c
      else store_packed3_gint16x8 arch m p a b c
  | .i32 => if SIMDPP_USE_AVX2 arch then store_packed3_gint32x8 arch m p a b c
      else store_packed3_gint32x4 arch m p a b c
  | .i64 => if SIMDPP_USE_AVX2 arch then store_packed3_gint64x4 arch m p a b c
      else store_packed3_gint64x2 arch m p a b c
  | .f32 => if SIMDPP_USE_AVX arch then store_packed3_float32x8 arch m p a b c
      else store_packed3_float32x4 arch m p a b c
  | .f64 => if SIMDPP_USE_AVX arch then store_packed3_float64x4 arch m p a b c
      else store_packed3_float64x2 arch m p a b c

/-- Source `detail::v_store_pack3(P* p, V a, V b, V c)`: the loop over the base
vectors. -/
def detail.v_store_pack3 (arch : Arch) (T : Elem) (sizeofP : Nat) (m : Mem) (p : Nat)
    (a b c : Vec) : Mem :=
  let veclen := sizeof_base_vector arch T
  let p := detail.assume_aligned p veclen
  ((List.range (vec_length veclen a)).foldl
    (fun (s : Mem × Nat) i =>
      (store_packed3_base arch T s.1 s.2 (base veclen a i) (base veclen b i) (base veclen c i),
        s.2 + veclen * 3 / sizeofP * sizeofP))
    (m, p)).1

/-- Source `store_packed3` on vectors of element type `T` and any width: the
128-bit overload for 128-bit vectors, the 256-bit overload where it is declared,
and otherwise the template over `N`, which calls `detail::v_store_pack3`. -/
def store_packed3 (arch : Arch) (T : Elem) (m : Mem) (p : Nat) (a b c : Vec) : Mem :=
  match T with
  | .i8 =>
    if a.length = 16 then store_packed3_gint8x16 arch m p a b c
    else if SIMDPP_USE_AVX2 arch = true ∧ a.length = 32 then store_packed3_gint8x32 arch m p a b c
    else detail.v_store_pack3 arch .i8 sizeof_char m p a b c
  | .i16 =>
    if a.length = 16 then store_packed3_gint16x8 arch m p a b c
    else if SIMDPP_USE_AVX2 arch = true ∧ a.length = 32 then store_packed3_gint16x16 arch m p a b c
    else detail.v_store_pack3 arch .i16 sizeof_char m p a b c
  | .i32 =>
    if a.length = 16 then store_packed3_gint32x4 arch m p a b c
    else if SIMDPP_USE_AVX2 arch = true ∧ a.length = 32 then store_packed3_gint32x8 arch m p a b c
    else detail.v_store_pack3 arch .i32 sizeof_char m p a b c
  | .i64 =>
    if a.length = 16 then store_packed3_gint64x2 arch m p a b c
    else if SIMDPP_USE_AVX2 arch = true ∧ a.length = 32 then store_packed3_gint64x4 arch m p a b c
    else detail.v_store_pack3 arch .i64 sizeof_char m p a b c
  | .f32 =>
    if a.length = 16 then store_packed3_float32x4 arch m p a b c
    else if SIMDPP_USE_AVX arch = true ∧ a.length = 32 then store_packed3_float32x8 arch m p a b c
    else detail.v_store_pack3 arch .f32 sizeof_float m p a b c
  | .f64 =>
    if a.length = 16 then store_packed3_float64x2 arch m p a b c
    else if SIMDPP_USE_AVX arch = true ∧ a.length = 32 then store_packed3_float64x4 arch m p a b c
    else detail.v_store_pack3 arch .f64 sizeof_double m p a b c

/-- The size of the pointer element type `P` that the overloads of element type
`T` pass to `detail::v_store_pack2` and `detail::v_store_pack3`: `char` for the
integer overloads (`reinterpret_cast<char*>(p)`), `float`, `double`. -/
def sizeof_P (T : Elem) : Nat :=
  match T with
  | .f32 => sizeof_float
  | .f64 => sizeof_double
  | _ => sizeof_char

/-! ## De-interleaving loads -/

/-- Modelled from the spec: `load_packed2` is not part of the sources at hand.
The inverse of `store_packed2` on the array-of-structures format: lane `i` of
vector `j` is read from byte offset `(i*2 + j) * element_size`, for `n` lanes of
`e` bytes. -/
def load_packed2 (e n : Nat) (m : Mem) (p : Nat) : Vec × Vec :=
  ((List.range n).flatMap (fun i => readBytes m (p + (i * 2 + 0) * e) e),
   (List.range n).flatMap (fun i => readBytes m (p + (i * 2 + 1) * e) e))

/-- Modelled from the spec: `load_packed3` is not part of the sources at hand.
The inverse of `store_packed3`: lane `i` of vector `j` is read from byte offset
`(i*3 + j) * element_size`, for `n` lanes of `e` bytes. -/
def load_packed3 (e n : Nat) (m : Mem) (p : Nat) : Vec × Vec × Vec :=
  ((List.range n).flatMap (fun i => readBytes m (p + (i * 3 + 0) * e) e),
   (List.range n).flatMap (fun i => readBytes m (p + (i * 3 + 1) * e) e),
   (List.range n).flatMap (fun i => readBytes m (p + (i * 3 + 2) * e) e))

/-! ## `simdpp/core/move_r.h` -/

/-- Arithmetic on template arguments of type `unsigned`: the product modulo `2^32`. -/
def unsigned_mul (x y : Nat) : Nat := x * y % 2 ^ 32

/-- Intrinsic `_mm_slli_si128(a, n)`: shifts the 16 bytes of the register by `n`
bytes toward the higher byte positions and fills the vacated bytes with zero. -/
def _mm_slli_si128 (a : Vec) (n : Nat) : Vec :=
  (List.replicate n 0 ++ a).take 16

/-- Intrinsic `_mm256_slli_si256(a, n)`: the byte shift of `_mm_slli_si128` applied
to each 128-bit half of the register. -/
def _mm256_slli_si256 (a : Vec) (n : Nat) : Vec :=
  _mm_slli_si128 (a.take 16) n ++ _mm_slli_si128 ((a.drop 16).take 16) n

/-- Modelled from the spec: `neon::detail::align` of `simdpp/neon/detail/shuffle.h`
is not part of the sources at hand.  `align<k>(lower, upper)` is the 16 bytes
starting at byte `k` of `lower` followed by `upper`. -/
def neon.detail.align (k : Nat) (lower upper : Vec) : Vec :=
  ((lower ++ upper).drop k).take 16

/-- Intrinsic `vec_sld(a, b, k)`: the 16 bytes starting at byte `k` of `a` followed
by `b`. -/
def vec_sld (a b : Vec) (k : Nat) : Vec :=
  ((a ++ b).drop k).take 16

/-- The two loops of the fallback path of `move_r(gint8x16)`.  `r0` is the
indeterminate content of the local `gint8x16 r` before the loops; the first
loop runs over `i = 0 .. shift-1`, the second over `i = shift .. 15`. -/
def move_r_null_loops (shift : Nat) (r0 a : Vec) : Vec :=
  let r1 := (List.range shift).foldl (fun r i => r.set i 0) r0
  ((List.range 16).filter (fun i => decide (shift ≤ i))).foldl
    (fun r i => r.set i (a.getD (i - shift) 0)) r1

/-- The lane indices that the two loops of the fallback path of
`move_r(gint8x16)` assign, in execution order: `i = 0 .. shift-1` by the first
loop, `i = shift .. 15` by the second. -/
def move_r_null_assigned (shift : Nat) : List Nat :=
  List.range shift ++ (List.range 16).filter (fun i => decide (shift ≤ i))

/-- Source `template<unsigned shift> gint8x16 move_r(gint8x16 a)`.  A failed
`static_assert` is `none`: the call does not compile. -/
def move_r_gint8x16 (arch : Arch) (shift : Nat) (r0 a : Vec) : Option Vec :=
  if ¬ shift ≤ 16 then none
  else if shift = 0 then some a
  else if shift = 16 then some (zero 16)
  else if SIMDPP_USE_NULL arch then some (move_r_null_loops shift r0 a)
  else if SIMDPP_USE_SSE2 arch then some (_mm_slli_si128 a shift)
  else if SIMDPP_USE_NEON arch then
    let z := zero 16
    some (neon.detail.align (16 - shift) z a)
  else if SIMDPP_USE_ALTIVEC arch then some (vec_sld (zero 16) a (16 - shift))
  else none

/-- Source `template<unsigned shift> gint8x32 move_r(gint8x32 a)`, declared under
`SIMDPP_USE_AVX2`. -/
def move_r_gint8x32 (shift : Nat) (a : Vec) : Option Vec :=
  if ¬ shift ≤ 16 then none
  else if shift = 0 then some a
  else if shift = 16 then some (zero 32)
  else some (_mm256_slli_si256 a shift)

/-- The overload of `move_r<shift>(a[i])` that a call on one base vector of 8-bit
elements resolves to. -/
def move_r_base (arch : Arch) (shift : Nat) (r0 a : Vec) : Option Vec :=
  if SIMDPP_USE_AVX2 arch then move_r_gint8x32 shift a
  else move_r_gint8x16 arch shift r0 a

/-- Modelled from the spec: the macro `SIMDPP_VEC_ARRAY_IMPL1(R, OP, a)` is not
part of the sources at hand.  It applies `OP` to each base vector of `a` in
order and returns the results in the same order, `r[i] = OP(a[i])`. -/
def SIMDPP_VEC_ARRAY_IMPL1 (veclen : Nat) (op : Vec → Option Vec) (a : Vec) : Option Vec :=
  (List.range (vec_length veclen a)).foldl
    (fun r i => r.bind (fun rs => (op (base veclen a i)).map (fun x => rs ++ x)))
    (some [])

/-- Source `template<unsigned shift, unsigned N> gint8<N> move_r(gint8<N> a)`. -/
def move_r_gint8 (arch : Arch) (shift : Nat) (r0 a : Vec) : Option Vec :=
  if ¬ shift ≤ 16 then none
  else if shift = 0 then some a
  else if shift = 16 then some (zero a.length)
  else SIMDPP_VEC_ARRAY_IMPL1 (sizeof_base_vector arch .i8) (move_r_base arch shift r0) a

/-- Overload resolution of `move_r<shift>(a)` on a vector of 8-bit elements: the
128-bit overload, the 256-bit overload where it is declared, otherwise the
template over `N`. -/
def move_r_8 (arch : Arch) (shift : Nat) (r0 a : Vec) : Option Vec :=
  if a.length = 16 then move_r_gint8x16 arch shift r0 a
  else if SIMDPP_USE_AVX2 arch = true ∧ a.length = 32 then move_r_gint8x32 shift a
  else move_r_gint8 arch shift r0 a

/-- Source `template<unsigned shift, unsigned N> gint16<N> move_r(gint16<N> a)`:
`move_r<shift*2>(gint8<N*2>(a))`. -/
def move_r_gint16 (arch : Arch) (shift : Nat) (r0 a : Vec) : Option Vec :=
  move_r_8 arch (unsigned_mul shift 2) r0 a

/-- Source `template<unsigned shift, unsigned N> gint32<N> move_r(gint32<N> a)`:
`move_r<shift*4>(gint8<N*4>(a))`. -/
def move_r_gint32 (arch : Arch) (shift : Nat) (r0 a : Vec) : Option Vec :=
  move_r_8 arch (unsigned_mul shift 4) r0 a

/-- Source `template<unsigned shift, unsigned N> gint64<N> move_r(gint64<N> a)`:
`move_r<shift*8>(gint8<N*8>(a))`. -/
def move_r_gint64 (arch : Arch) (shift : Nat) (r0 a : Vec) : Option Vec :=
  move_r_8 arch (unsigned_mul shift 8) r0 a

/-- Source `template<unsigned shift, unsigned N> float32<N> move_r(float32<N> a)`:
`float32<N>(move_r<shift>(gint32<N>(a)))`. -/
def move_r_float32 (arch : Arch) (shift : Nat) (r0 a : Vec) : Option Vec :=
  move_r_gint32 arch shift r0 a

/-- Source `template<unsigned shift, unsigned N> float64<N> move_r(float64<N> a)`:
`float64<N>(move_r<shift>(gint64<N>(a)))`. -/
def move_r_float64 (arch : Arch) (shift : Nat) (r0 a : Vec) : Option Vec :=
  move_r_gint64 arch shift r0 a

/-- The overloads of `move_r<shift>(a)` by element type. -/
def move_r (arch : Arch) (T : Elem) (shift : Nat) (r0 a : Vec) : Option Vec :=
  match T with
  | .i8 => move_r_8 arch shift r0 a
  | .i16 => move_r_gint16 arch shift r0 a
  | .i32 => move_r_gint32 arch shift r0 a
  | .i64 => move_r_gint64 arch shift r0 a
  | .f32 => move_r_float32 arch shift r0 a
  | .f64 => move_r_float64 arch shift r0 a

/-! ## `simdpp/core/store.h`: stores of wide vectors -/

/-- Modelled from the spec: `V::vec_length` of `simdpp/types.h` for the vector type
of `N` lanes of element type `T`: `N = k * base_lanes(T)` is made of `k` base
vectors. -/
def vec_length_of (arch : Arch) (T : Elem) (N : Nat) : Nat :=
  N * T.size / sizeof_base_vector arch T

/-- Source `template<unsigned N> void store(void* p, gint8<N> a)`; `q` is a
`char*`. -/
def store_gint8_N (arch : Arch) (m : Mem) (p : Nat) (a : Vec) : Mem :=
  let veclen := sizeof_base_vector arch .i8
  let p := detail.assume_aligned p veclen
  let q := p
  ((List.range (vec_length veclen a)).foldl
    (fun (s : Mem × Nat) i =>
      (store_base arch .i8 veclen s.1 s.2 (base veclen a i), s.2 + veclen * sizeof_char))
    (m, q)).1

/-- Overload resolution of `store(p, a)` on a vector of 8-bit elements: the
128-bit overload, the 256-bit overload where it is declared, otherwise the
template over `N`. -/
def store_gint8 (arch : Arch) (m : Mem) (p : Nat) (a : Vec) : Mem :=
  if a.length = 16 then store_gint8x16 arch m p a
  else if SIMDPP_USE_AVX2 arch = true ∧ a.length = 32 then store_gint8x32 m p a
  else store_gint8_N arch m p a

/-- Source `template<unsigned N> void store(void* p, gint16<N> a)`:
`store(p, gint8<N*2>(a))`. -/
def store_gint16 (arch : Arch) (m : Mem) (p : Nat) (a : Vec) : Mem :=
  store_gint8 arch m p a

/-- Source `template<unsigned N> void store(void* p, gint32<N> a)`:
`store(p, gint8<N*4>(a))`. -/
def store_gint32 (arch : Arch) (m : Mem) (p : Nat) (a : Vec) : Mem :=
  store_gint8 arch m p a

/-- Source `template<unsigned N> void store(void* p, gint64<N> a)`:
`store(p, gint8<N*8>(a))`. -/
def store_gint64 (arch : Arch) (m : Mem) (p : Nat) (a : Vec) : Mem :=
  store_gint8 arch m p a

/-- Source `template<unsigned N> void store(float* p, float32<N> a)`.  The loop
bound is `gint8<N>::vec_length`, the number of base vectors of a vector of `N`
8-bit lanes, where `N` is the number of float lanes of `a`. -/
def store_float32_N (arch : Arch) (m : Mem) (p : Nat) (a : Vec) : Mem :=
  let veclen := sizeof_base_vector arch .f32
  let p := detail.assume_aligned p veclen
  ((List.range (vec_length_of arch .i8 (a.length / sizeof_float))).foldl
    (fun (s : Mem × Nat) i =>
      (store_base arch .f32 veclen s.1 s.2 (base veclen a i),
        s.2 + veclen / sizeof_float * sizeof_float))
    (m, p)).1

/-- Source `template<unsigned N> void store(double* p, float64<N> a)`. -/
def store_float64_N (arch : Arch) (m : Mem) (p : Nat) (a : Vec) : Mem :=
  let veclen := sizeof_base_vector arch .f64
  let p := detail.assume_aligned p veclen
  ((List.range (vec_length veclen a)).foldl
    (fun (s : Mem × Nat) i =>
      (store_base arch .f64 veclen s.1 s.2 (base veclen a i),
        s.2 + veclen / sizeof_double * sizeof_double))
    (m, p)).1

/-- Source `store(p, a)` on a vector of element type `T` and any width. -/
def store (arch : Arch) (T : Elem) (m : Mem) (p : Nat) (a : Vec) : Mem :=
  match T with
  | .i8 => store_gint8 arch m p a
  | .i16 => store_gint16 arch m p a
  | .i32 => store_gint32 arch m p a
  | .i64 => store_gint64 arch m p a
  | .f32 =>
    if a.length = 16 then store_float32x4 arch m p a
    else if SIMDPP_USE_AVX arch = true ∧ a.length = 32 then store_float32x8 m p a
    else store_float32_N arch m p a
  | .f64 =>
    if a.length = 16 then store_float64x2 arch m p a
    else if SIMDPP_USE_AVX arch = true ∧ a.length = 32 then store_float64x4 m p a
    else store_float64_N arch m p a

/-! ## `simdpp/functions/permute2.h` -/

/-- Modelled from the spec: the four-selector `permute<s0,s1,s2,s3>(a)` is not part
of the sources at hand.  Each selector is constrained to `[0, 4)` by a static
assertion; within each group of four consecutive lanes, output lane `i` is
input lane `s_i` of the same group. -/
def permute4 (e : Nat) (s0 s1 s2 s3 : Nat) (a : Vec) : Option Vec :=
  if ¬ (s0 < 4 ∧ s1 < 4 ∧ s2 < 4 ∧ s3 < 4) then none
  else some ((List.range (a.length / (4 * e))).flatMap (fun q =>
    el e a (q * 4 + s0) ++ (el e a (q * 4 + s1) ++ (el e a (q * 4 + s2) ++ el e a (q * 4 + s3)))))

/-- Modelled from the spec: `null::permute<s0,s1>` of `simdpp/null/shuffle.h` is not
part of the sources at hand.  The fallback permutes by explicit index
remapping: within each pair of consecutive lanes, output lane `i` is input lane
`s_i` of the same pair. -/
def null.permute2 (e : Nat) (s0 s1 : Nat) (a : Vec) : Vec :=
  (List.range (a.length / (2 * e))).flatMap (fun g => el e a (g * 2 + s0) ++ el e a (g * 2 + s1))

/-- Modelled from the spec: `neon::detail::shuffle_int64x2::permute2<s0,s1>` of
`simdpp/neon/detail/shuffle_int64x2.h` is not part of the sources at hand; on
two 64-bit lanes it returns `[a[s0], a[s1]]`. -/
def neon.detail.shuffle_int64x2.permute2 (s0 s1 : Nat) (a : Vec) : Vec :=
  el 8 a s0 ++ el 8 a s1

/-- Modelled from the spec: `make_shuffle_bytes16_mask<s0,s1>` of
`simdpp/simd/make_shuffle_bytes_mask.h` for a vector of two 64-bit elements is
not part of the sources at hand: byte `j` of element `i` of the mask selects
byte `s_i*8 + j`. -/
def make_shuffle_bytes16_mask (s0 s1 : Nat) : Vec :=
  (List.range 8).map (fun j => s0 * 8 + j) ++ (List.range 8).map (fun j => s1 * 8 + j)

/-- Modelled from the spec: `permute_bytes16(a, mask)` is not part of the sources
at hand: byte `i` of the result is byte `mask[i]` of `a`. -/
def permute_bytes16 (a mask : Vec) : Vec :=
  mask.map (fun k => a.getD k 0)

/-- Intrinsics `_mm256_permute4x64_epi64(a, imm)` and `_mm256_permute4x64_pd(a, imm)`:
output lane `j` of four 64-bit lanes is input lane `(imm >> 2*j) & 3`. -/
def _mm256_permute4x64 (a : Vec) (imm : Nat) : Vec :=
  el 8 a (imm &&& 3) ++ (el 8 a ((imm >>> 2) &&& 3) ++
    (el 8 a ((imm >>> 4) &&& 3) ++ el 8 a ((imm >>> 6) &&& 3)))

/-- Macro `_MM_SHUFFLE2(x, y)`: `(x << 1) | y`. -/
def _MM_SHUFFLE2 (x y : Nat) : Nat := (x <<< 1) ||| y

/-- Intrinsic `_mm_shuffle_pd(a, b, imm)`: lane 0 is lane `imm & 1` of `a`, lane 1
is lane `(imm >> 1) & 1` of `b`. -/
def _mm_shuffle_pd (a b : Vec) (imm : Nat) : Vec :=
  el 8 a (imm &&& 1) ++ el 8 b ((imm >>> 1) &&& 1)

/-- Intrinsic `_mm256_permute_pd(a, imm)`: one selector bit per output lane, which
selects within the lane's own 128-bit half. -/
def _mm256_permute_pd (a : Vec) (imm : Nat) : Vec :=
  el 8 a (imm &&& 1) ++ (el 8 a ((imm >>> 1) &&& 1) ++
    (el 8 a (2 + ((imm >>> 2) &&& 1)) ++ el 8 a (2 + ((imm >>> 3) &&& 1))))

/-- Source `template<unsigned s0, unsigned s1> basic_int16x8 permute(basic_int16x8 a)`. -/
def permute_basic_int16x8 (s0 s1 : Nat) (a : Vec) : Option Vec :=
  if ¬ (s0 < 2 ∧ s1 < 2) then none
  else permute4 2 s0 s1 (s0 + 2) (s1 + 2) a

/-- Source `template<unsigned s0, unsigned s1> basic_int16x16 permute(basic_int16x16 a)`. -/
def permute_basic_int16x16 (s0 s1 : Nat) (a : Vec) : Option Vec :=
  if ¬ (s0 < 2 ∧ s1 < 2) then none
  else permute4 2 s0 s1 (s0 + 2) (s1 + 2) a

/-- Source `template<unsigned s0, unsigned s1> basic_int32x4 permute(basic_int32x4 a)`. -/
def permute_basic_int32x4 (s0 s1 : Nat) (a : Vec) : Option Vec :=
  if ¬ (s0 < 2 ∧ s1 < 2) then none
  else permute4 4 s0 s1 (s0 + 2) (s1 + 2) a

/-- Source `template<unsigned s0, unsigned s1> basic_int32x8 permute(basic_int32x8 a)`. -/
def permute_basic_int32x8 (s0 s1 : Nat) (a : Vec) : Option Vec :=
  if ¬ (s0 < 2 ∧ s1 < 2) then none
  else permute4 4 s0 s1 (s0 + 2) (s1 + 2) a

/-- Source `template<unsigned s0, unsigned s1> float32x4 permute(float32x4 a)`. -/
def permute_float32x4 (s0 s1 : Nat) (a : Vec) : Option Vec :=
  if ¬ (s0 < 2 ∧ s1 < 2) then none
  else permute4 4 s0 s1 (s0 + 2) (s1 + 2) a

/-- Source `template<unsigned s0, unsigned s1> float32x8 permute(float32x8 a)`. -/
def permute_float32x8 (s0 s1 : Nat) (a : Vec) : Option Vec :=
  if ¬ (s0 < 2 ∧ s1 < 2) then none
  else permute4 4 s0 s1 (s0 + 2) (s1 + 2) a

/-- Source `template<unsigned s0, unsigned s1> basic_int64x2 permute(basic_int64x2 a)`;
`int32x4(a)` keeps the bytes. -/
def permute_basic_int64x2 (arch : Arch) (s0 s1 : Nat) (a : Vec) : Option Vec :=
  if ¬ (s0 < 2 ∧ s1 < 2) then none
  else if SIMDPP_USE_NULL arch then some (null.permute2 8 s0 s1 a)
  else if SIMDPP_USE_SSE2 arch then permute4 4 (s0 * 2) (s0 * 2 + 1) (s1 * 2) (s1 * 2 + 1) a
  else if SIMDPP_USE_NEON arch then some (neon.detail.shuffle_int64x2.permute2 s0 s1 a)
  else if SIMDPP_USE_ALTIVEC arch then
    let mask := make_shuffle_bytes16_mask s0 s1
    some (permute_bytes16 a mask)
  else none

/-- Source `template<unsigned s0, unsigned s1> basic_int64x4 permute(basic_int64x4 a)`. -/
def permute_basic_int64x4 (arch : Arch) (s0 s1 : Nat) (a : Vec) : Option Vec :=
  if ¬ (s0 < 2 ∧ s1 < 2) then none
  else if SIMDPP_USE_AVX2 arch then
    some (_mm256_permute4x64 a (((s0 ||| (s1 <<< 2)) ||| ((s0 + 2) <<< 4)) ||| ((s1 + 2) <<< 6)))
  else permute4 8 s0 s1 (s0 + 2) (s1 + 2) a

/-- Source `template<unsigned s0, unsigned s1> float64x2 permute(float64x2 a)`. -/
def permute_float64x2 (arch : Arch) (s0 s1 : Nat) (a : Vec) : Option Vec :=
  if ¬ (s0 < 2 ∧ s1 < 2) then none
  else if SIMDPP_USE_SSE2 arch then some (_mm_shuffle_pd a a (_MM_SHUFFLE2 s1 s0))
  else permute_basic_int64x2 arch s0 s1 a

/-- Source `template<unsigned s0, unsigned s1> float64x4 permute(float64x4 a)`. -/
def permute_float64x4 (arch : Arch) (s0 s1 : Nat) (a : Vec) : Option Vec :=
  if ¬ (s0 < 2 ∧ s1 < 2) then none
  else if SIMDPP_USE_AVX2 arch then
    some (_mm256_permute4x64 a (((s0 ||| (s1 <<< 2)) ||| ((s0 + 2) <<< 4)) ||| ((s1 + 2) <<< 6)))
  else if SIMDPP_USE_AVX arch then
    some (_mm256_permute_pd a (((s0 ||| (s1 <<< 1)) ||| (s0 <<< 2)) ||| (s1 <<< 3)))
  else permute4 8 s0 s1 (s0 + 2) (s1 + 2) a

/-- The overloads of the two-selector `permute<s0,s1>(a)` by element type and
vector size (128 or 256 bits); the header has none for 8-bit elements. -/
def permute (arch : Arch) (T : Elem) (s0 s1 : Nat) (a : Vec) : Option Vec :=
  match T with
  | .i8 => none
  | .i16 => if a.length = 32 then permute_basic_int16x16 s0 s1 a
      else permute_basic_int16x8 s0 s1 a
  | .i32 => if a.length = 32 then permute_basic_int32x8 s0 s1 a
      else permute_basic_int32x4 s0 s1 a
  | .i64 => if a.length = 32 then permute_basic_int64x4 arch s0 s1 a
      else permute_basic_int64x2 arch s0 s1 a
  | .f32 => if a.length = 32 then permute_float32x8 s0 s1 a
      else permute_float32x4 s0 s1 a
  | .f64 => if a.length = 32 then permute_float64x4 arch s0 s1 a
      else permute_float64x2 arch s0 s1 a

/-! ## Floating-point operations: `f_add.h`, `f_sub.h`, `f_isnan2.h` -/

/-- The scalar floating-point operations, taken as given, as functions on the
bytes of a lane: the host operators `+` and `-` that the fallback applies, the
lane operations of the SSE/AVX, NEON and ALTIVEC instructions, and the IEEE754
NaN test on a 32-bit and on a 64-bit pattern. -/
structure FloatOps where
  host_add32 : List Nat → List Nat → List Nat
  host_sub32 : List Nat → List Nat → List Nat
  host_add64 : List Nat → List Nat → List Nat
  host_sub64 : List Nat → List Nat → List Nat
  sse_add32 : List Nat → List Nat → List Nat
  sse_sub32 : List Nat → List Nat → List Nat
  sse_add64 : List Nat → List Nat → List Nat
  sse_sub64 : List Nat → List Nat → List Nat
  neon_add32 : List Nat → List Nat → List Nat
  neon_sub32 : List Nat → List Nat → List Nat
  altivec_add32 : List Nat → List Nat → List Nat
  altivec_sub32 : List Nat → List Nat → List Nat
  isnan32 : List Nat → Bool
  isnan64 : List Nat → Bool

/-- Every scalar operation returns a lane of the size of its operands' type. -/
def FloatOps.sized (F : FloatOps) : Prop :=
  (∀ x y, (F.host_add32 x y).length = 4) ∧ (∀ x y, (F.host_sub32 x y).length = 4) ∧
  (∀ x y, (F.host_add64 x y).length = 8) ∧ (∀ x y, (F.host_sub64 x y).length = 8) ∧
  (∀ x y, (F.sse_add32 x y).length = 4) ∧ (∀ x y, (F.sse_sub32 x y).length = 4) ∧
  (∀ x y, (F.sse_add64 x y).length = 8) ∧ (∀ x y, (F.sse_sub64 x y).length = 8) ∧
  (∀ x y, (F.neon_add32 x y).length = 4) ∧ (∀ x y, (F.neon_sub32 x y).length = 4) ∧
  (∀ x y, (F.altivec_add32 x y).length = 4) ∧ (∀ x y, (F.altivec_sub32 x y).length = 4)

/-- A sample of scalar operations in which every implementation leaves its own
mark in each lane (1 for the host operators, 2 for SSE/AVX, 3 for NEON, 4 for
ALTIVEC) and the lanes whose first byte is 255 count as NaN. -/
def FloatOps.marked : FloatOps :=
  ⟨fun _ _ => List.replicate 4 1, fun _ _ => List.replicate 4 1,
   fun _ _ => List.replicate 8 1, fun _ _ => List.replicate 8 1,
   fun _ _ => List.replicate 4 2, fun _ _ => List.replicate 4 2,
   fun _ _ => List.replicate 8 2, fun _ _ => List.replicate 8 2,
   fun _ _ => List.replicate 4 3, fun _ _ => List.replicate 4 3,
   fun _ _ => List.replicate 4 4, fun _ _ => List.replicate 4 4,
   fun x => x.head? == some 255, fun x => x.head? == some 255⟩

/-- Applies the binary scalar operation `f` to each pair of corresponding lanes of
`e` bytes, in lane order. -/
def map_lanes2 (e : Nat) (f : List Nat → List Nat → List Nat) (a b : Vec) : Vec :=
  (List.range (a.length / e)).flatMap (fun i => f (el e a i) (el e b i))

/-- Applies the unary scalar operation `f` to each lane of `e` bytes, in lane order. -/
def map_lanes1 (e : Nat) (f : List Nat → List Nat) (a : Vec) : Vec :=
  (List.range (a.length / e)).flatMap (fun i => f (el e a i))

/-- A mask lane of `e` bytes: the all-ones pattern if `c` holds, zero otherwise. -/
def mask_lane (e : Nat) (c : Bool) : List Nat :=
  List.replicate e (if c then 255 else 0)

/-- Modelled from the spec: `null::add` of `simdpp/null/math.h` is not part of the
sources at hand; the fallback iterates the lanes and applies the host `+`. -/
def null.add (e : Nat) (host_add : List Nat → List Nat → List Nat) (a b : Vec) : Vec :=
  map_lanes2 e host_add a b

/-- Modelled from the spec: `null::sub` of `simdpp/null/math.h` is not part of the
sources at hand; the fallback iterates the lanes and applies the host `-`. -/
def null.sub (e : Nat) (host_sub : List Nat → List Nat → List Nat) (a b : Vec) : Vec :=
  map_lanes2 e host_sub a b

/-- Modelled from the spec: `null::isnan2` of `simdpp/null/math.h` is not part of
the sources at hand; per lane, `isnan(a) || isnan(b) ? all-ones : 0`. -/
def null.isnan2 (e : Nat) (isnan : List Nat → Bool) (a b : Vec) : Vec :=
  map_lanes2 e (fun x y => mask_lane e (isnan x || isnan y)) a b

/-- Modelled from the spec: `isnan` of `simdpp/core/f_isnan.h` is not part of the
sources at hand; per lane, `isnan(a) ? all-ones : 0`. -/
def isnan (e : Nat) (isnan_scalar : List Nat → Bool) (a : Vec) : Vec :=
  map_lanes1 e (fun x => mask_lane e (isnan_scalar x)) a

/-- Modelled from the spec: `bit_or` of `simdpp/core/bit_or.h` is not part of the
sources at hand; the bitwise OR of the two vectors. -/
def bit_or (a b : Vec) : Vec :=
  List.zipWith (fun x y => x ||| y) a b

/-- Modelled from the spec: the macro `SIMDPP_VEC_ARRAY_IMPL2(R, OP, a, b)` is not
part of the sources at hand.  It applies `OP` to each pair of corresponding
base vectors in order and returns the results in the same order,
`r[i] = OP(a[i], b[i])`. -/
def SIMDPP_VEC_ARRAY_IMPL2 (veclen : Nat) (op : Vec → Vec → Vec) (a b : Vec) : Vec :=
  (List.range (vec_length veclen a)).flatMap (fun i => op (base veclen a i) (base veclen b i))

/-- The comparison predicate `_CMP_UNORD_Q` of `_mm_cmp_ps` and `_mm_cmp_pd`. -/
def _CMP_UNORD_Q : Nat := 3

/-- Intrinsics `_mm_cmp_ps`, `_mm256_cmp_ps`, `_mm_cmp_pd`, `_mm256_cmp_pd` (lanes
of `e` bytes) with the predicate `_CMP_UNORD_Q`, and `_mm_cmpunord_ps`,
`_mm_cmpunord_pd`: a lane is all-ones if the operands are unordered, that is if
either is NaN, and zero otherwise.  Other predicates are not modelled. -/
def _mm_cmp (e : Nat) (isnan_scalar : List Nat → Bool) (a b : Vec) (imm : Nat) : Vec :=
  map_lanes2 e (fun x y => mask_lane e (imm == _CMP_UNORD_Q && (isnan_scalar x || isnan_scalar y)))
    a b

/-- Intrinsics `_mm_cmpunord_ps` and `_mm_cmpunord_pd` (lanes of `e` bytes). -/
def _mm_cmpunord (e : Nat) (isnan_scalar : List Nat → Bool) (a b : Vec) : Vec :=
  map_lanes2 e (fun x y => mask_lane e (isnan_scalar x || isnan_scalar y)) a b

/-- Intrinsics `_mm_add_ps` and `_mm256_add_ps`: the SSE/AVX lane operation on
each 32-bit lane. -/
def _mm_add_ps (F : FloatOps) (a b : Vec) : Vec := map_lanes2 4 F.sse_add32 a b

/-- Intrinsics `_mm_add_pd` and `_mm256_add_pd`: the SSE/AVX lane operation on
each 64-bit lane. -/
def _mm_add_pd (F : FloatOps) (a b : Vec) : Vec := map_lanes2 8 F.sse_add64 a b

/-- Intrinsic `vaddq_f32`: the NEON lane operation on each 32-bit lane. -/
def vaddq_f32 (F : FloatOps) (a b : Vec) : Vec := map_lanes2 4 F.neon_add32 a b

/-- Intrinsic `vec_add` on `__vector float`: the ALTIVEC lane operation on each
32-bit lane. -/
def vec_add (F : FloatOps) (a b : Vec) : Vec := map_lanes2 4 F.altivec_add32 a b

/-- Source `add(float32x4 a, float32x4 b)`. -/
def add_float32x4 (F : FloatOps) (arch : Arch) (a b : Vec) : Vec :=
  if SIMDPP_USE_NULL arch || (SIMDPP_USE_NEON arch && !SIMDPP_USE_NEON_FLT_SP arch) then
    null.add 4 F.host_add32 a b
  else if SIMDPP_USE_SSE2 arch then _mm_add_ps F a b
  else if SIMDPP_USE_NEON_FLT_SP arch then vaddq_f32 F a b
  else if SIMDPP_USE_ALTIVEC arch then vec_add F a b
  else []

/-- Source `add(float32x8 a, float32x8 b)`, declared under `SIMDPP_USE_AVX`. -/
def add_float32x8 (F : FloatOps) (a b : Vec) : Vec :=
  _mm_add_ps F a b

/-- The overload of `add(a[i], b[i])` on base vectors of float32 elements. -/
def add_float32_base (F : FloatOps) (arch : Arch) (a b : Vec) : Vec :=
  if SIMDPP_USE_AVX arch then add_float32x8 F a b else add_float32x4 F arch a b

/-- Source `template<unsigned N> float32<N> add(float32<N> a, float32<N> b)`. -/
def add_float32_N (F : FloatOps) (arch : Arch) (a b : Vec) : Vec :=
  SIMDPP_VEC_ARRAY_IMPL2 (sizeof_base_vector arch .f32) (add_float32_base F arch) a b

/-- Overload resolution of `add(a, b)` on float32 vectors of any width. -/
def add_float32 (F : FloatOps) (arch : Arch) (a b : Vec) : Vec :=
  if a.length = 16 then add_float32x4 F arch a b
  else if SIMDPP_USE_AVX arch = true ∧ a.length = 32 then add_float32x8 F a b
  else add_float32_N F arch a b

/-- Source `add(float64x2 a, float64x2 b)`. -/
def add_float64x2 (F : FloatOps) (arch : Arch) (a b : Vec) : Vec :=
  if SIMDPP_USE_NULL arch || SIMDPP_USE_NEON arch || SIMDPP_USE_ALTIVEC arch then
    null.add 8 F.host_add64 a b
  else if SIMDPP_USE_SSE2 arch then _mm_add_pd F a b
  else []

/-- Source `add(float64x4 a, float64x4 b)`, declared under `SIMDPP_USE_AVX`. -/
def add_float64x4 (F : FloatOps) (a b : Vec) : Vec :=
  _mm_add_pd F a b

/-- The overload of `add(a[i], b[i])` on base vectors of float64 elements. -/
def add_float64_base (F : FloatOps) (arch : Arch) (a b : Vec) : Vec :=
  if SIMDPP_USE_AVX arch then add_float64x4 F a b else add_float64x2 F arch a b

/-- Source `template<unsigned N> float64<N> add(float64<N> a, float64<N> b)`. -/
def add_float64_N (F : FloatOps) (arch : Arch) (a b : Vec) : Vec :=
  SIMDPP_VEC_ARRAY_IMPL2 (sizeof_base_vector arch .f64) (add_float64_base F arch) a b

/-- Overload resolution of `add(a, b)` on float64 vectors of any width. -/
def add_float64 (F : FloatOps) (arch : Arch) (a b : Vec) : Vec :=
  if a.length = 16 then add_float64x2 F arch a b
  else if SIMDPP_USE_AVX arch = true ∧ a.length = 32 then add_float64x4 F a b
  else add_float64_N F arch a b

/-- Intrinsics `_mm_sub_ps` and `_mm256_sub_ps`: the SSE/AVX lane operation on
each 32-bit lane. -/
def _mm_sub_ps (F : FloatOps) (a b : Vec) : Vec := map_lanes2 4 F.sse_sub32 a b

/-- Intrinsics `_mm_sub_pd` and `_mm256_sub_pd`: the SSE/AVX lane operation on
each 64-bit lane. -/
def _mm_sub_pd (F : FloatOps) (a b : Vec) : Vec := map_lanes2 8 F.sse_sub64 a b

/-- Intrinsic `vsubq_f32`: the NEON lane operation on each 32-bit lane. -/
def vsubq_f32 (F : FloatOps) (a b : Vec) : Vec := map_lanes2 4 F.neon_sub32 a b

/-- Intrinsic `vec_sub` on `__vector float`: the ALTIVEC lane operation on each
32-bit lane. -/
def vec_sub (F : FloatOps) (a b : Vec) : Vec := map_lanes2 4 F.altivec_sub32 a b

/-- Source `sub(float32x4 a, float32x4 b)`. -/
def sub_float32x4 (F : FloatOps) (arch : Arch) (a b : Vec) : Vec :=
  if SIMDPP_USE_NULL arch || (SIMDPP_USE_NEON arch && !SIMDPP_USE_NEON_FLT_SP arch) then
    null.sub 4 F.host_sub32 a b
  else if SIMDPP_USE_SSE2 arch then _mm_sub_ps F a b
  else if SIMDPP_USE_NEON_FLT_SP arch then vsubq_f32 F a b
  else if SIMDPP_USE_ALTIVEC arch then vec_sub F a b
  else []

/-- Source `sub(float32x8 a, float32x8 b)`, declared under `SIMDPP_USE_AVX`. -/
def sub_float32x8 (F : FloatOps) (a b : Vec) : Vec :=
  _mm_sub_ps F a b

/-- The overload of `sub(a[i], b[i])` on base vectors of float32 elements. -/
def sub_float32_base (F : FloatOps) (arch : Arch) (a b : Vec) : Vec :=
  if SIMDPP_USE_AVX arch then sub_float32x8 F a b else sub_float32x4 F arch a b

/-- Source `template<unsigned N> float32<N> sub(float32<N> a, float32<N> b)`. -/
def sub_float32_N (F : FloatOps) (arch : Arch) (a b : Vec) : Vec :=
  SIMDPP_VEC_ARRAY_IMPL2 (sizeof_base_vector arch .f32) (sub_float32_base F arch) a b

/-- Overload resolution of `sub(a, b)` on float32 vectors of any width. -/
def sub_float32 (F : FloatOps) (arch : Arch) (a b : Vec) : Vec :=
  if a.length = 16 then sub_float32x4 F arch a b
  else if SIMDPP_USE_AVX arch = true ∧ a.length = 32 then sub_float32x8 F a b
  else sub_float32_N F arch a b

/-- Source `sub(float64x2 a, float64x2 b)`. -/
def sub_float64x2 (F : FloatOps) (arch : Arch) (a b : Vec) : Vec :=
  if SIMDPP_USE_NULL arch || SIMDPP_USE_NEON arch || SIMDPP_USE_ALTIVEC arch then
    null.sub 8 F.host_sub64 a b
  else if SIMDPP_USE_SSE2 arch then _mm_sub_pd F a b
  else []

/-- Source `sub(float64x4 a, float64x4 b)`, declared under `SIMDPP_USE_AVX`. -/
def sub_float64x4 (F : FloatOps) (a b : Vec) : Vec :=
  _mm_sub_pd F a b

/-- The overload of `sub(a[i], b[i])` on base vectors of float64 elements. -/
def sub_float64_base (F : FloatOps) (arch : Arch) (a b : Vec) : Vec :=
  if SIMDPP_USE_AVX arch then sub_float64x4 F a b else sub_float64x2 F arch a b

/-- Source `template<unsigned N> float64<N> sub(float64<N> a, float64<N> b)`. -/
def sub_float64_N (F : FloatOps) (arch : Arch) (a b : Vec) : Vec :=
  SIMDPP_VEC_ARRAY_IMPL2 (sizeof_base_vector arch .f64) (sub_float64_base F arch) a b

/-- Overload resolution of `sub(a, b)` on float64 vectors of any width. -/
def sub_float64 (F : FloatOps) (arch : Arch) (a b : Vec) : Vec :=
  if a.length = 16 then sub_float64x2 F arch a b
  else if SIMDPP_USE_AVX arch = true ∧ a.length = 32 then sub_float64x4 F a b
  else sub_float64_N F arch a b

/-- Source `isnan2(float32x4 a, float32x4 b)`. -/
def isnan2_float32x4 (F : FloatOps) (arch : Arch) (a b : Vec) : Vec :=
  if SIMDPP_USE_NULL arch then null.isnan2 4 F.isnan32 a b
  else if SIMDPP_USE_AVX arch then _mm_cmp 4 F.isnan32 a b _CMP_UNORD_Q
  else if SIMDPP_USE_SSE2 arch then _mm_cmpunord 4 F.isnan32 a b
  else if SIMDPP_USE_NEON arch || SIMDPP_USE_ALTIVEC arch then
    bit_or (isnan 4 F.isnan32 a) (isnan 4 F.isnan32 b)
  else []

/-- Source `isnan2(float32x8 a, float32x8 b)`, declared under `SIMDPP_USE_AVX`. -/
def isnan2_float32x8 (F : FloatOps) (a b : Vec) : Vec :=
  _mm_cmp 4 F.isnan32 a b _CMP_UNORD_Q

/-- The overload of `isnan2(a[i], b[i])` on base vectors of float32 elements. -/
def isnan2_float32_base (F : FloatOps) (arch : Arch) (a b : Vec) : Vec :=
  if SIMDPP_USE_AVX arch then isnan2_float32x8 F a b else isnan2_float32x4 F arch a b

/-- Source `template<unsigned N> mask_float32<N> isnan2(float32<N> a, float32<N> b)`. -/
def isnan2_float32_N (F : FloatOps) (arch : Arch) (a b : Vec) : Vec :=
  SIMDPP_VEC_ARRAY_IMPL2 (sizeof_base_vector arch .f32) (isnan2_float32_base F arch) a b

/-- Overload resolution of `isnan2(a, b)` on float32 vectors of any width. -/
def isnan2_float32 (F : FloatOps) (arch : Arch) (a b : Vec) : Vec :=
  if a.length = 16 then isnan2_float32x4 F arch a b
  else if SIMDPP_USE_AVX arch = true ∧ a.length = 32 then isnan2_float32x8 F a b
  else isnan2_float32_N F arch a b

/-- Source `isnan2(float64x2 a, float64x2 b)`. -/
def isnan2_float64x2 (F : FloatOps) (arch : Arch) (a b : Vec) : Vec :=
  if SIMDPP_USE_NULL arch || SIMDPP_USE_NEON arch || SIMDPP_USE_ALTIVEC arch then
    null.isnan2 8 F.isnan64 a b
  else if SIMDPP_USE_AVX arch then _mm_cmp 8 F.isnan64 a b _CMP_UNORD_Q
  else if SIMDPP_USE_SSE2 arch then _mm_cmpunord 8 F.isnan64 a b
  else []

/-- Source `isnan2(float64x4 a, float64x4 b)`, declared under `SIMDPP_USE_AVX`. -/
def isnan2_float64x4 (F : FloatOps) (a b : Vec) : Vec :=
  _mm_cmp 8 F.isnan64 a b _CMP_UNORD_Q

/-- The overload of `isnan2(a[i], b[i])` on base vectors of float64 elements. -/
def isnan2_float64_base (F : FloatOps) (arch : Arch) (a b : Vec) : Vec :=
  if SIMDPP_USE_AVX arch then isnan2_float64x4 F a b else isnan2_float64x2 F arch a b

/-- Source `template<unsigned N> mask_float64<N> isnan2(float64<N> a, float64<N> b)`. -/
def isnan2_float64_N (F : FloatOps) (arch : Arch) (a b : Vec) : Vec :=
  SIMDPP_VEC_ARRAY_IMPL2 (sizeof_base_vector arch .f64) (isnan2_float64_base F arch) a b

/-- Overload resolution of `isnan2(a, b)` on float64 vectors of any width. -/
def isnan2_float64 (F : FloatOps) (arch : Arch) (a b : Vec) : Vec :=
  if a.length = 16 then isnan2_float64x2 F arch a b
  else if SIMDPP_USE_AVX arch = true ∧ a.length = 32 then isnan2_float64x4 F a b
  else isnan2_float64_N F arch a b

/-! ## Bitwise XOR: `bit_xor.h` -/

/-- Modelled from the spec: `detail::insn::i_bit_xor` of
`simdpp/detail/insn/bit_xor.h` is not part of the sources at hand;
`r0 = a0 ^ b0, ..., rN = aN ^ bN` on the bits of the two vectors. -/
def detail.insn.i_bit_xor (a b : Vec) : Vec :=
  List.zipWith (fun x y => x ^^^ y) a b

/-- Source `bit_xor(const any_vec<N,V1>& a, const any_vec<N,V2>& b)`.  The
evaluation `a.wrapped().eval()` of an operand and its conversion to the unsigned
vector type `get_expr2_nosign<V1, V2>::type` keep the bits. -/
def bit_xor (a b : Vec) : Vec :=
  let ra := a
  let rb := b
  detail.insn.i_bit_xor ra rb

/-- The scalar argument types of the scalar-operand overloads of `bit_xor`. -/
inductive Scalar where
  | uint32_t (x : Nat)
  | uint64_t (x : Nat)
  | int32_t (x : Int)
  | int64_t (x : Int)
  | float (bits : Nat)
  | double (bits : Nat)
  deriving DecidableEq, Repr

/-- Modelled from the spec: `detail::make_const<W>(x)` of
`simdpp/core/detail/scalar_arg_impl.h` is not part of the sources at hand; it
builds a vector of type `W` with `n` lanes, every lane holding the scalar `x`
converted to the element type of `W`.  The conversion `conv` of a scalar to the
bytes of an element is taken as given. -/
def detail.make_const (conv : Scalar → List Nat) (n : Nat) (x : Scalar) : Vec :=
  (List.range n).flatMap (fun _ => conv x)

/-- Source `bit_xor(S a, const any_vec<N,V>& b)` for the scalar types `uint32_t`,
`uint64_t`, `int32_t`, `int64_t`, `float` and `double`: six overloads with the
same body.  `W = get_expr_nomask<V>::type` is the non-mask vector type of `b`: the
elements of `T` and the lane count of `b`. -/
def bit_xor_scalar_vec (conv : Elem → Scalar → List Nat) (T : Elem) (a : Scalar) (b : Vec) : Vec :=
  bit_xor (detail.make_const (conv T) (b.length / T.size) a) b

/-- Source `bit_xor(const any_vec<N,V>& a, S b)` for the same six scalar types. -/
def bit_xor_vec_scalar (conv : Elem → Scalar → List Nat) (T : Elem) (a : Vec) (b : Scalar) : Vec :=
  bit_xor a (detail.make_const (conv T) (a.length / T.size) b)

/-- The unsigned number that a lane holds, its bytes read in little-endian order. -/
def lane_value : List Nat → Nat
  | [] => 0
  | x :: xs => x + 256 * lane_value xs

/-- A sample conversion of a scalar to an element: the low bytes of the number
(two's complement for the signed types), least significant first. -/
def sample_conv (T : Elem) (x : Scalar) : List Nat :=
  let n : Nat := match x with
    | .uint32_t v => v
    | .uint64_t v => v
    | .int32_t v => (v % 2 ^ 64).toNat
    | .int64_t v => (v % 2 ^ 64).toNat
    | .float v => v
    | .double v => v
  (List.range T.size).map (fun j => n / 256 ^ j % 256)

/-! ## Memory lemmas -/

theorem readBytes_length (m : Mem) (p n : Nat) : (readBytes m p n).length = n := by
  simp [readBytes]

theorem write_write_append (m : Mem) (p : Nat) (xs ys : List Nat) :
    write (write m p xs) (p + xs.length) ys = write m p (xs ++ ys) := by
  funext x
  simp only [write, List.length_append]
  by_cases h1 : p + xs.length ≤ x ∧ x < p + xs.length + ys.length
  · have h2 : p ≤ x ∧ x < p + (xs.length + ys.length) := by omega
    rw [if_pos h1, if_pos h2]
    have h3 : xs.length ≤ x - p := by omega
    rw [List.getD_append_right _ _ _ _ h3]
    congr 1
    omega
  · rw [if_neg h1]
    by_cases h2 : p ≤ x ∧ x < p + xs.length
    · have h3 : p ≤ x ∧ x < p + (xs.length + ys.length) := by omega
      rw [if_pos h2, if_pos h3]
      rw [List.getD_append _ _ _ _ (by omega)]
    · have h3 : ¬ (p ≤ x ∧ x < p + (xs.length + ys.length)) := by omega
      rw [if_neg h2, if_neg h3]

theorem readBytes_write (m : Mem) (p : Nat) (bs : List Nat) (k n : Nat)
    (h : k + n ≤ bs.length) :
    readBytes (write m p bs) (p + k) n = (bs.drop k).take n := by
  apply List.ext_getElem
  · simp [readBytes]; omega
  · intro t h1 h2
    simp only [readBytes, List.length_map, List.length_range] at h1
    simp only [readBytes, write, List.getElem_map, List.getElem_range, List.getElem_take,
      List.getElem_drop]
    have h3 : p ≤ p + k + t ∧ p + k + t < p + bs.length := by omega
    rw [if_pos h3]
    have h4 : p + k + t - p = k + t := by omega
    rw [h4, List.getD_eq_getElem _ _ (by omega)]

theorem readBytes_write_disjoint (m : Mem) (p : Nat) (bs : List Nat) (q n : Nat)
    (h : q + n ≤ p ∨ p + bs.length ≤ q) :
    readBytes (write m p bs) q n = readBytes m q n := by
  apply List.ext_getElem
  · simp [readBytes]
  · intro t h1 _
    simp only [readBytes, List.length_map, List.length_range] at h1
    simp only [readBytes, write, List.getElem_map, List.getElem_range]
    have h3 : ¬ (p ≤ q + t ∧ q + t < p + bs.length) := by omega
    rw [if_neg h3]

/-! ## List lemmas -/

theorem length_flatMap_range (f : Nat → List Nat) (c : Nat) :
    ∀ n : Nat, (∀ j, j < n → (f j).length = c) → ((List.range n).flatMap f).length = n * c := by
  intro n
  induction n with
  | zero => intro _; simp
  | succ n ih =>
    intro h
    rw [List.range_succ, List.flatMap_append, List.length_append,
      ih (fun j hj => h j (Nat.lt_succ_of_lt hj))]
    simp only [List.flatMap_cons, List.flatMap_nil, List.append_nil]
    rw [h n (Nat.lt_succ_self n), Nat.succ_mul]

theorem el_flatMap_range (f : Nat → List Nat) (c : Nat) :
    ∀ n : Nat, (∀ j, j < n → (f j).length = c) → ∀ i, i < n →
      el c ((List.range n).flatMap f) i = f i := by
  intro n
  induction n with
  | zero => intro _ i hi; omega
  | succ n ih =>
    intro h i hi
    have hlen := length_flatMap_range f c n (fun j hj => h j (Nat.lt_succ_of_lt hj))
    rw [List.range_succ, List.flatMap_append]
    simp only [List.flatMap_cons, List.flatMap_nil, List.append_nil]
    unfold el
    by_cases hin : i < n
    · have h1 : i * c + c ≤ ((List.range n).flatMap f).length := by
        rw [hlen]
        calc i * c + c = (i + 1) * c := by ring
          _ ≤ n * c := Nat.mul_le_mul_right c hin
      rw [List.drop_append_of_le_length (by omega)]
      rw [List.take_append_of_le_length (by rw [List.length_drop]; omega)]
      exact ih (fun j hj => h j (Nat.lt_succ_of_lt hj)) i hin
    · have hi2 : i = n := by omega
      subst hi2
      rw [← hlen, List.drop_left]
      rw [List.take_of_length_le (by rw [h i (Nat.lt_succ_self i)])]

theorem el_length (e : Nat) (v : Vec) (i : Nat) (h : (i + 1) * e ≤ v.length) :
    (el e v i).length = e := by
  unfold el
  rw [List.length_take, List.length_drop]
  have : (i + 1) * e = i * e + e := by ring
  omega

theorem flatMap_el_range (e : Nat) (v : Vec) :
    ∀ n : Nat, (List.range n).flatMap (el e v) = v.take (n * e) := by
  intro n
  induction n with
  | zero => simp
  | succ n ih =>
    rw [List.range_succ, List.flatMap_append, ih]
    simp only [List.flatMap_cons, List.flatMap_nil, List.append_nil]
    unfold el
    rw [Nat.succ_mul, List.take_add]


theorem el_el (e t : Nat) (v : Vec) (i j : Nat) (hj : j < t) :
    el e (el (t * e) v i) j = el e v (i * t + j) := by
  unfold el
  rw [List.drop_take, List.take_take, List.drop_drop]
  have h1 : (j + 1) * e ≤ t * e := Nat.mul_le_mul_right e hj
  have h2 : (j + 1) * e = j * e + e := by ring
  have h3 : min e (t * e - j * e) = e := by omega
  have h4 : (i * t + j) * e = i * (t * e) + j * e := by ring
  rw [h3, h4]

theorem interleave2_length (e : Nat) (a b : Vec) (n : Nat)
    (ha : n * e ≤ a.length) (hb : n * e ≤ b.length) :
    (interleave2 e a b n).length = n * (e + e) := by
  unfold interleave2
  apply length_flatMap_range
  intro j hj
  have h1 : (j + 1) * e ≤ n * e := Nat.mul_le_mul_right e hj
  rw [List.length_append, el_length e a j (by omega), el_length e b j (by omega)]

theorem interleave3_length (e : Nat) (a b c : Vec) (n : Nat)
    (ha : n * e ≤ a.length) (hb : n * e ≤ b.length) (hc : n * e ≤ c.length) :
    (interleave3 e a b c n).length = n * (e + (e + e)) := by
  unfold interleave3
  apply length_flatMap_range
  intro j hj
  have h1 : (j + 1) * e ≤ n * e := Nat.mul_le_mul_right e hj
  rw [List.length_append, List.length_append, el_length e a j (by omega),
    el_length e b j (by omega), el_length e c j (by omega)]

theorem write_nil (m : Mem) (p : Nat) : write m p [] = m := by
  funext x
  simp [write]

theorem write_take_drop (m : Mem) (p : Nat) (r : List Nat) (n : Nat) (h : n ≤ r.length) :
    write (write m p (r.take n)) (p + n) (r.drop n) = write m p r := by
  have h1 : (r.take n).length = n := by rw [List.length_take]; omega
  have h2 := write_write_append m p (r.take n) (r.drop n)
  rw [h1, List.take_append_drop] at h2
  exact h2

theorem null_store_packed2_loop (e : Nat) (m : Mem) (p : Nat) (a b : Vec) :
    ∀ n : Nat, n * e ≤ a.length → n * e ≤ b.length →
      (List.range n).foldl
        (fun (s : Mem × Nat) i =>
          let s1 : Mem × Nat := (write s.1 s.2 (el e a i), s.2 + e)
          (write s1.1 s1.2 (el e b i), s1.2 + e))
        (m, p) = (write m p (interleave2 e a b n), p + n * (e + e)) := by
  intro n
  induction n with
  | zero => intro _ _; simp [interleave2, write_nil]
  | succ n ih =>
    intro ha hb
    have hn : (n + 1) * e = n * e + e := by ring
    rw [List.range_succ, List.foldl_append, ih (by omega) (by omega)]
    have hlen := interleave2_length e a b n (by omega) (by omega)
    have hea := el_length e a n (by omega)
    simp only [List.foldl_cons, List.foldl_nil]
    have h1 : interleave2 e a b (n + 1) = interleave2 e a b n ++ (el e a n ++ el e b n) := by
      unfold interleave2
      rw [List.range_succ, List.flatMap_append]
      simp
    rw [h1]
    congr 1
    · rw [← hlen, write_write_append]
      have h2 : p + (interleave2 e a b n).length + e
          = p + (interleave2 e a b n ++ el e a n).length := by
        rw [List.length_append, hea]; omega
      rw [h2, write_write_append, List.append_assoc]
    · ring

theorem null_store_packed2_eq (e : Nat) (m : Mem) (p : Nat) (a b : Vec)
    (hb : b.length = a.length) :
    null.store_packed2 e m p a b = write m p (interleave2 e a b (a.length / e)) := by
  unfold null.store_packed2
  have h := Nat.div_mul_le_self a.length e
  rw [null_store_packed2_loop e m p a b (a.length / e) h (by omega)]

theorem null_store_packed3_loop (e : Nat) (m : Mem) (p : Nat) (a b c : Vec) :
    ∀ n : Nat, n * e ≤ a.length → n * e ≤ b.length → n * e ≤ c.length →
      (List.range n).foldl
        (fun (s : Mem × Nat) i =>
          let s1 : Mem × Nat := (write s.1 s.2 (el e a i), s.2 + e)
          let s2 : Mem × Nat := (write s1.1 s1.2 (el e b i), s1.2 + e)
          (write s2.1 s2.2 (el e c i), s2.2 + e))
        (m, p) = (write m p (interleave3 e a b c n), p + n * (e + (e + e))) := by
  intro n
  induction n with
  | zero => intro _ _ _; simp [interleave3, write_nil]
  | succ n ih =>
    intro ha hb hc
    have hn : (n + 1) * e = n * e + e := by ring
    rw [List.range_succ, List.foldl_append, ih (by omega) (by omega) (by omega)]
    have hlen := interleave3_length e a b c n (by omega) (by omega) (by omega)
    have hea := el_length e a n (by omega)
    have heb := el_length e b n (by omega)
    simp only [List.foldl_cons, List.foldl_nil]
    have h1 : interleave3 e a b c (n + 1)
        = interleave3 e a b c n ++ (el e a n ++ (el e b n ++ el e c n)) := by
      unfold interleave3
      rw [List.range_succ, List.flatMap_append]
      simp
    rw [h1]
    congr 1
    · rw [← hlen, write_write_append]
      have h2 : p + (interleave3 e a b c n).length + e
          = p + (interleave3 e a b c n ++ el e a n).length := by
        rw [List.length_append, hea]; omega
      rw [h2, write_write_append]
      have h3 : p + (interleave3 e a b c n ++ el e a n).length + e
          = p + ((interleave3 e a b c n ++ el e a n) ++ el e b n).length := by
        simp only [List.length_append, hea, heb]
        omega
      rw [h3, write_write_append]
      simp only [List.append_assoc]
    · ring

theorem null_store_packed3_eq (e : Nat) (m : Mem) (p : Nat) (a b c : Vec)
    (hb : b.length = a.length) (hc : c.length = a.length) :
    null.store_packed3 e m p a b c = write m p (interleave3 e a b c (a.length / e)) := by
  unfold null.store_packed3
  have h := Nat.div_mul_le_self a.length e
  rw [null_store_packed3_loop e m p a b c (a.length / e) h (by omega) (by omega)]

/-! ## Stores of one vector -/

theorem store_base_eq_write (arch : Arch) (T : Elem) (veclen : Nat) (m : Mem) (p : Nat) (a : Vec)
    (hp : p % 16 = 0) : store_base arch T veclen m p a = write m p a := by
  have h16 : p / 16 * 16 = p := Nat.div_mul_cancel (Nat.dvd_of_mod_eq_zero hp)
  cases T <;> cases arch <;>
    simp [store_base, store_gint8x16, store_gint8x32, store_float32x4, store_float32x8,
      store_float64x2, store_float64x4, detail.assume_aligned, SIMDPP_USE_NULL, SIMDPP_USE_SSE2,
      SIMDPP_USE_NEON, SIMDPP_USE_ALTIVEC, null.store, _mm_store_si128, _mm_store_ps,
      _mm_store_pd, _mm256_store_si256, _mm256_store_ps, _mm256_store_pd, vst1q, vec_stl, h16]

theorem store_float32x4_eq_write (arch : Arch) (m : Mem) (p : Nat) (a : Vec)
    (hp : p % 16 = 0) : store_float32x4 arch m p a = write m p a := by
  have h := store_base_eq_write arch .f32 16 m p a hp
  simpa [store_base] using h

theorem store_float64x2_eq_write (arch : Arch) (m : Mem) (p : Nat) (a : Vec)
    (hp : p % 16 = 0) : store_float64x2 arch m p a = write m p a := by
  have h := store_base_eq_write arch .f64 16 m p a hp
  simpa [store_base] using h

/-! ## The native interleaved stores write the array-of-structures layout -/

theorem mem_pack2_stores (e : Nat) (m : Mem) (p : Nat) (a b : Vec)
    (hb : b.length = a.length) (he : a.length / e * e = a.length) :
    write (write m p (detail.mem_pack2 e a b).1) (p + a.length) (detail.mem_pack2 e a b).2
      = write m p (interleave2 e a b (a.length / e)) := by
  unfold detail.mem_pack2
  apply write_take_drop
  rw [interleave2_length e a b (a.length / e) (by omega) (by omega), Nat.mul_add, he]
  omega

theorem mem_pack3_stores (e : Nat) (m : Mem) (p : Nat) (a b c : Vec)
    (hb : b.length = a.length) (hc : c.length = a.length)
    (he : a.length / e * e = a.length) :
    write (write (write m p (detail.mem_pack3 e a b c).1) (p + a.length)
        (detail.mem_pack3 e a b c).2.1) (p + (a.length + a.length)) (detail.mem_pack3 e a b c).2.2
      = write m p (interleave3 e a b c (a.length / e)) := by
  unfold detail.mem_pack3
  have hlen := interleave3_length e a b c (a.length / e) (by omega) (by omega) (by omega)
  rw [Nat.mul_add, Nat.mul_add, he] at hlen
  simp only
  generalize interleave3 e a b c (a.length / e) = r at hlen ⊢
  have h1 : (r.take a.length).length = a.length := by rw [List.length_take]; omega
  have h2 : ((r.drop a.length).take a.length).length = a.length := by
    rw [List.length_take, List.length_drop]; omega
  have h3 := write_write_append m p (r.take a.length) ((r.drop a.length).take a.length)
  rw [h1] at h3
  rw [h3]
  have h4 := write_write_append m p (r.take a.length ++ (r.drop a.length).take a.length)
    (r.drop (a.length + a.length))
  rw [List.length_append, h1, h2] at h4
  rw [h4]
  rw [List.append_assoc, ← List.drop_drop, List.take_append_drop, List.take_append_drop]

theorem store_packed2_gint8x16_eq (arch : Arch) (m : Mem) (p : Nat) (a b : Vec)
    (ha : a.length = 16) (hb : b.length = 16) (hp : p % 16 = 0) :
    store_packed2_gint8x16 arch m p a b = write m p (interleave2 1 a b 16) := by
  have hN := null_store_packed2_eq 1 m p a b (by omega)
  have hM := mem_pack2_stores 1 m p a b (by omega) (by rw [ha])
  rw [ha] at hN hM
  have hs1 : ∀ (m1 : Mem) (v : Vec), store_base arch .i8 16 m1 p v = write m1 p v :=
    fun m1 v => store_base_eq_write arch .i8 16 m1 p v hp
  have hs2 : ∀ (m1 : Mem) (v : Vec), store_base arch .i8 16 m1 (p + 16) v = write m1 (p + 16) v :=
    fun m1 v => store_base_eq_write arch .i8 16 m1 (p + 16) v (by omega)
  cases arch <;>
    simp [store_packed2_gint8x16, detail.assume_aligned, SIMDPP_USE_NULL, SIMDPP_USE_SSE2,
      SIMDPP_USE_NEON, SIMDPP_USE_ALTIVEC, sizeof_char, hs1, hs2, hN, hM, vst2q]

theorem store_packed2_gint16x8_eq (arch : Arch) (m : Mem) (p : Nat) (a b : Vec)
    (ha : a.length = 16) (hb : b.length = 16) (hp : p % 16 = 0) :
    store_packed2_gint16x8 arch m p a b = write m p (interleave2 2 a b 8) := by
  have hN := null_store_packed2_eq 2 m p a b (by omega)
  have hM := mem_pack2_stores 2 m p a b (by omega) (by rw [ha])
  rw [ha] at hN hM
  have hs1 : ∀ (m1 : Mem) (v : Vec), store_base arch .i16 16 m1 p v = write m1 p v :=
    fun m1 v => store_base_eq_write arch .i16 16 m1 p v hp
  have hs2 : ∀ (m1 : Mem) (v : Vec), store_base arch .i16 16 m1 (p + 16) v = write m1 (p + 16) v :=
    fun m1 v => store_base_eq_write arch .i16 16 m1 (p + 16) v (by omega)
  cases arch <;>
    simp [store_packed2_gint16x8, detail.assume_aligned, SIMDPP_USE_NULL, SIMDPP_USE_SSE2,
      SIMDPP_USE_NEON, SIMDPP_USE_ALTIVEC, sizeof_char, hs1, hs2, hN, hM, vst2q]

theorem store_packed2_gint32x4_eq (arch : Arch) (m : Mem) (p : Nat) (a b : Vec)
    (ha : a.length = 16) (hb : b.length = 16) (hp : p % 16 = 0) :
    store_packed2_gint32x4 arch m p a b = write m p (interleave2 4 a b 4) := by
  have hN := null_store_packed2_eq 4 m p a b (by omega)
  have hM := mem_pack2_stores 4 m p a b (by omega) (by rw [ha])
  rw [ha] at hN hM
  have hs1 : ∀ (m1 : Mem) (v : Vec), store_base arch .i32 16 m1 p v = write m1 p v :=
    fun m1 v => store_base_eq_write arch .i32 16 m1 p v hp
  have hs2 : ∀ (m1 : Mem) (v : Vec), store_base arch .i32 16 m1 (p + 16) v = write m1 (p + 16) v :=
    fun m1 v => store_base_eq_write arch .i32 16 m1 (p + 16) v (by omega)
  cases arch <;>
    simp [store_packed2_gint32x4, detail.assume_aligned, SIMDPP_USE_NULL, SIMDPP_USE_SSE2,
      SIMDPP_USE_NEON, SIMDPP_USE_ALTIVEC, sizeof_char, hs1, hs2, hN, hM, vst2q]

theorem store_packed2_float32x4_eq (arch : Arch) (m : Mem) (p : Nat) (a b : Vec)
    (ha : a.length = 16) (hb : b.length = 16) (hp : p % 16 = 0) :
    store_packed2_float32x4 arch m p a b = write m p (interleave2 4 a b 4) := by
  have hN := null_store_packed2_eq 4 m p a b (by omega)
  have hM := mem_pack2_stores 4 m p a b (by omega) (by rw [ha])
  rw [ha] at hN hM
  have hs1 : ∀ (m1 : Mem) (v : Vec), store_float32x4 arch m1 p v = write m1 p v :=
    fun m1 v => store_float32x4_eq_write arch m1 p v hp
  have hs2 : ∀ (m1 : Mem) (v : Vec), store_float32x4 arch m1 (p + 16) v = write m1 (p + 16) v :=
    fun m1 v => store_float32x4_eq_write arch m1 (p + 16) v (by omega)
  cases arch <;>
    simp [store_packed2_float32x4, detail.assume_aligned, SIMDPP_USE_NULL, SIMDPP_USE_SSE2,
      SIMDPP_USE_NEON, SIMDPP_USE_ALTIVEC, sizeof_float, hs1, hs2, hN, hM, vst2q]

theorem transpose2_stores (m : Mem) (p : Nat) (a b : Vec)
    (ha : a.length = 16) (hb : b.length = 16) :
    write (write m p (transpose2 a b).1) (p + 16) (transpose2 a b).2
      = write m p (interleave2 8 a b 2) := by
  have h1 : (transpose2 a b).1.length = 16 := by
    simp only [transpose2, List.length_append]
    rw [el_length 8 a 0 (by omega), el_length 8 b 0 (by omega)]
  have h2 := write_write_append m p (transpose2 a b).1 (transpose2 a b).2
  rw [h1] at h2
  rw [h2]
  simp [transpose2, interleave2, List.range_succ]

theorem store_packed2_gint64x2_eq (arch : Arch) (m : Mem) (p : Nat) (a b : Vec)
    (ha : a.length = 16) (hb : b.length = 16) (hp : p % 16 = 0) :
    store_packed2_gint64x2 arch m p a b = write m p (interleave2 8 a b 2) := by
  have hM := transpose2_stores m p a b ha hb
  have hs1 : ∀ (m1 : Mem) (v : Vec), store_base arch .i64 16 m1 p v = write m1 p v :=
    fun m1 v => store_base_eq_write arch .i64 16 m1 p v hp
  have hs2 : ∀ (m1 : Mem) (v : Vec), store_base arch .i64 16 m1 (p + 16) v = write m1 (p + 16) v :=
    fun m1 v => store_base_eq_write arch .i64 16 m1 (p + 16) v (by omega)
  simp [store_packed2_gint64x2, detail.assume_aligned, sizeof_char, hs1, hs2, hM]

theorem store_packed2_float64x2_eq (arch : Arch) (m : Mem) (p : Nat) (a b : Vec)
    (ha : a.length = 16) (hb : b.length = 16) (hp : p % 16 = 0) :
    store_packed2_float64x2 arch m p a b = write m p (interleave2 8 a b 2) := by
  have hM := transpose2_stores m p a b ha hb
  have hs1 : ∀ (m1 : Mem) (v : Vec), store_float64x2 arch m1 p v = write m1 p v :=
    fun m1 v => store_float64x2_eq_write arch m1 p v hp
  have hs2 : ∀ (m1 : Mem) (v : Vec), store_float64x2 arch m1 (p + 16) v = write m1 (p + 16) v :=
    fun m1 v => store_float64x2_eq_write arch m1 (p + 16) v (by omega)
  simp [store_packed2_float64x2, detail.assume_aligned, sizeof_double, hs1, hs2, hM]

theorem v256_store_pack2_eq (arch : Arch) (T : Elem) (sizeofP : Nat) (m : Mem) (p : Nat)
    (a b : Vec) (ha : a.length = 32) (hb : b.length = 32) (hp : p % 16 = 0)
    (hP : 32 / sizeofP * sizeofP = 32) :
    detail.v256_store_pack2 arch T sizeofP m p a b
      = write m p (interleave2 T.size a b (32 / T.size)) := by
  have hM := mem_pack2_stores T.size m p a b (by omega) (by rw [ha]; cases T <;> rfl)
  rw [ha] at hM
  have hs1 : ∀ (m1 : Mem) (v : Vec), store_base arch T 32 m1 p v = write m1 p v :=
    fun m1 v => store_base_eq_write arch T 32 m1 p v hp
  have hs2 : ∀ (m1 : Mem) (v : Vec), store_base arch T 32 m1 (p + 32) v = write m1 (p + 32) v :=
    fun m1 v => store_base_eq_write arch T 32 m1 (p + 32) v (by omega)
  simp only [detail.v256_store_pack2, detail.assume_aligned, hP, hs1, hs2, hM]


theorem store_packed3_gint8x16_eq (arch : Arch) (m : Mem) (p : Nat) (a b c : Vec)
    (ha : a.length = 16) (hb : b.length = 16) (hc : c.length = 16) (hp : p % 16 = 0) :
    store_packed3_gint8x16 arch m p a b c = write m p (interleave3 1 a b c 16) := by
  have hN := null_store_packed3_eq 1 m p a b c (by omega) (by omega)
  have hM := mem_pack3_stores 1 m p a b c (by omega) (by omega) (by rw [ha])
  rw [ha] at hN hM
  have hs1 : ∀ (m1 : Mem) (v : Vec), store_base arch .i8 16 m1 p v = write m1 p v :=
    fun m1 v => store_base_eq_write arch .i8 16 m1 p v hp
  have hs2 : ∀ (m1 : Mem) (v : Vec), store_base arch .i8 16 m1 (p + 16) v = write m1 (p + 16) v :=
    fun m1 v => store_base_eq_write arch .i8 16 m1 (p + 16) v (by omega)
  have hs3 : ∀ (m1 : Mem) (v : Vec), store_base arch .i8 16 m1 (p + 32) v = write m1 (p + 32) v :=
    fun m1 v => store_base_eq_write arch .i8 16 m1 (p + 32) v (by omega)
  cases arch <;>
    simp [store_packed3_gint8x16, detail.assume_aligned, SIMDPP_USE_NULL, SIMDPP_USE_SSE2,
      SIMDPP_USE_NEON, SIMDPP_USE_ALTIVEC, sizeof_char, hs1, hs2, hs3, hN, hM, vst3q]

theorem store_packed3_gint16x8_eq (arch : Arch) (m : Mem) (p : Nat) (a b c : Vec)
    (ha : a.length = 16) (hb : b.length = 16) (hc : c.length = 16) (hp : p % 16 = 0) :
    store_packed3_gint16x8 arch m p a b c = write m p (interleave3 2 a b c 8) := by
  have hN := null_store_packed3_eq 2 m p a b c (by omega) (by omega)
  have hM := mem_pack3_stores 2 m p a b c (by omega) (by omega) (by rw [ha])
  rw [ha] at hN hM
  have hs1 : ∀ (m1 : Mem) (v : Vec), store_base arch .i16 16 m1 p v = write m1 p v :=
    fun m1 v => store_base_eq_write arch .i16 16 m1 p v hp
  have hs2 : ∀ (m1 : Mem) (v : Vec), store_base arch .i16 16 m1 (p + 16) v = write m1 (p + 16) v :=
    fun m1 v => store_base_eq_write arch .i16 16 m1 (p + 16) v (by omega)
  have hs3 : ∀ (m1 : Mem) (v : Vec), store_base arch .i16 16 m1 (p + 32) v = write m1 (p + 32) v :=
    fun m1 v => store_base_eq_write arch .i16 16 m1 (p + 32) v (by omega)
  cases arch <;>
    simp [store_packed3_gint16x8, detail.assume_aligned, SIMDPP_USE_NULL, SIMDPP_USE_SSE2,
      SIMDPP_USE_NEON, SIMDPP_USE_ALTIVEC, sizeof_char, hs1, hs2, hs3, hN, hM, vst3q]

theorem store_packed3_gint32x4_eq (arch : Arch) (m : Mem) (p : Nat) (a b c : Vec)
    (ha : a.length = 16) (hb : b.length = 16) (hc : c.length = 16) (hp : p % 16 = 0) :
    store_packed3_gint32x4 arch m p a b c = write m p (interleave3 4 a b c 4) := by
  have hN := null_store_packed3_eq 4 m p a b c (by omega) (by omega)
  have hM := mem_pack3_stores 4 m p a b c (by omega) (by omega) (by rw [ha])
  rw [ha] at hN hM
  have hs1 : ∀ (m1 : Mem) (v : Vec), store_base arch .i32 16 m1 p v = write m1 p v :=
    fun m1 v => store_base_eq_write arch .i32 16 m1 p v hp
  have hs2 : ∀ (m1 : Mem) (v : Vec), store_base arch .i32 16 m1 (p + 16) v = write m1 (p + 16) v :=
    fun m1 v => store_base_eq_write arch .i32 16 m1 (p + 16) v (by omega)
  have hs3 : ∀ (m1 : Mem) (v : Vec), store_base arch .i32 16 m1 (p + 32) v = write m1 (p + 32) v :=
    fun m1 v => store_base_eq_write arch .i32 16 m1 (p + 32) v (by omega)
  cases arch <;>
    simp [store_packed3_gint32x4, detail.assume_aligned, SIMDPP_USE_NULL, SIMDPP_USE_SSE2,
      SIMDPP_USE_NEON, SIMDPP_USE_ALTIVEC, sizeof_char, hs1, hs2, hs3, hN, hM, vst3q]

theorem store_packed3_float32x4_eq (arch : Arch) (m : Mem) (p : Nat) (a b c : Vec)
    (ha : a.length = 16) (hb : b.length = 16) (hc : c.length = 16) (hp : p % 16 = 0) :
    store_packed3_float32x4 arch m p a b c = write m p (interleave3 4 a b c 4) := by
  have hN := null_store_packed3_eq 4 m p a b c (by omega) (by omega)
  have hM := mem_pack3_stores 4 m p a b c (by omega) (by omega) (by rw [ha])
  rw [ha] at hN hM
  have hs1 : ∀ (m1 : Mem) (v : Vec), store_float32x4 arch m1 p v = write m1 p v :=
    fun m1 v => store_float32x4_eq_write arch m1 p v hp
  have hs2 : ∀ (m1 : Mem) (v : Vec), store_float32x4 arch m1 (p + 16) v = write m1 (p + 16) v :=
    fun m1 v => store_float32x4_eq_write arch m1 (p + 16) v (by omega)
  have hs3 : ∀ (m1 : Mem) (v : Vec), store_float32x4 arch m1 (p + 32) v = write m1 (p + 32) v :=
    fun m1 v => store_float32x4_eq_write arch m1 (p + 32) v (by omega)
  cases arch <;>
    simp [store_packed3_float32x4, detail.assume_aligned, SIMDPP_USE_NULL, SIMDPP_USE_SSE2,
      SIMDPP_USE_NEON, SIMDPP_USE_ALTIVEC, sizeof_float, hs1, hs2, hs3, hN, hM, vst3q]

theorem store_packed3_float64x2_eq (arch : Arch) (m : Mem) (p : Nat) (a b c : Vec)
    (ha : a.length = 16) (hb : b.length = 16) (hc : c.length = 16) (hp : p % 16 = 0) :
    store_packed3_float64x2 arch m p a b c = write m p (interleave3 8 a b c 2) := by
  have hN := null_store_packed3_eq 8 m p a b c (by omega) (by omega)
  have hM := mem_pack3_stores 8 m p a b c (by omega) (by omega) (by rw [ha])
  rw [ha] at hN hM
  have hs1 : ∀ (m1 : Mem) (v : Vec), store_float64x2 arch m1 p v = write m1 p v :=
    fun m1 v => store_float64x2_eq_write arch m1 p v hp
  have hs2 : ∀ (m1 : Mem) (v : Vec), store_float64x2 arch m1 (p + 16) v = write m1 (p + 16) v :=
    fun m1 v => store_float64x2_eq_write arch m1 (p + 16) v (by omega)
  have hs3 : ∀ (m1 : Mem) (v : Vec), store_float64x2 arch m1 (p + 32) v = write m1 (p + 32) v :=
    fun m1 v => store_float64x2_eq_write arch m1 (p + 32) v (by omega)
  cases arch <;>
    simp [store_packed3_float64x2, detail.assume_aligned, SIMDPP_USE_NULL, SIMDPP_USE_SSE2,
      SIMDPP_USE_NEON, SIMDPP_USE_ALTIVEC, sizeof_double, hs1, hs2, hs3, hN, hM]

theorem vst2_u64_stores (m : Mem) (p : Nat) (a b c : Vec)
    (ha : a.length = 16) (hb : b.length = 16) (hc : c.length = 16) :
    vst2_u64 (vst2_u64 (vst2_u64 m p (vget_low_u64 a) (vget_low_u64 b)) (p + 16)
        (vget_low_u64 c) (vget_high_u64 a)) (p + 32) (vget_high_u64 b) (vget_high_u64 c)
      = write m p (interleave3 8 a b c 2) := by
  unfold vst2_u64
  have h1 : (vget_low_u64 a ++ vget_low_u64 b).length = 16 := by
    simp [vget_low_u64, ha, hb]
  have h2 : (vget_low_u64 c ++ vget_high_u64 a).length = 16 := by
    simp [vget_low_u64, vget_high_u64, ha, hc]
  have h3 := write_write_append m p (vget_low_u64 a ++ vget_low_u64 b)
    (vget_low_u64 c ++ vget_high_u64 a)
  rw [h1] at h3
  rw [h3]
  have h4 := write_write_append m p
    ((vget_low_u64 a ++ vget_low_u64 b) ++ (vget_low_u64 c ++ vget_high_u64 a))
    (vget_high_u64 b ++ vget_high_u64 c)
  rw [List.length_append, h1, h2] at h4
  rw [h4]
  simp [interleave3, List.range_succ, el, vget_low_u64, vget_high_u64]

theorem store_packed3_gint64x2_eq (arch : Arch) (m : Mem) (p : Nat) (a b c : Vec)
    (ha : a.length = 16) (hb : b.length = 16) (hc : c.length = 16) (hp : p % 16 = 0) :
    store_packed3_gint64x2 arch m p a b c = write m p (interleave3 8 a b c 2) := by
  have hN := null_store_packed3_eq 8 m p a b c (by omega) (by omega)
  have hM := mem_pack3_stores 8 m p a b c (by omega) (by omega) (by rw [ha])
  have hV := vst2_u64_stores m p a b c ha hb hc
  rw [ha] at hN hM
  have hs1 : ∀ (m1 : Mem) (v : Vec), store_base arch .i64 16 m1 p v = write m1 p v :=
    fun m1 v => store_base_eq_write arch .i64 16 m1 p v hp
  have hs2 : ∀ (m1 : Mem) (v : Vec), store_base arch .i64 16 m1 (p + 16) v = write m1 (p + 16) v :=
    fun m1 v => store_base_eq_write arch .i64 16 m1 (p + 16) v (by omega)
  have hs3 : ∀ (m1 : Mem) (v : Vec), store_base arch .i64 16 m1 (p + 32) v = write m1 (p + 32) v :=
    fun m1 v => store_base_eq_write arch .i64 16 m1 (p + 32) v (by omega)
  cases arch <;>
    simp [store_packed3_gint64x2, detail.assume_aligned, SIMDPP_USE_NULL, SIMDPP_USE_SSE2,
      SIMDPP_USE_NEON, SIMDPP_USE_ALTIVEC, sizeof_char, hs1, hs2, hs3, hN, hM, hV]

theorem v256_store_pack3_eq (arch : Arch) (T : Elem) (sizeofP : Nat) (m : Mem) (p : Nat)
    (a b c : Vec) (ha : a.length = 32) (hb : b.length = 32) (hc : c.length = 32)
    (hp : p % 16 = 0) (hP : 32 / sizeofP * sizeofP = 32) (hQ : 64 / sizeofP * sizeofP = 64) :
    detail.v256_store_pack3 arch T sizeofP m p a b c
      = write m p (interleave3 T.size a b c (32 / T.size)) := by
  have hM := mem_pack3_stores T.size m p a b c (by omega) (by omega)
    (by rw [ha]; cases T <;> rfl)
  rw [ha] at hM
  have hs1 : ∀ (m1 : Mem) (v : Vec), store_base arch T 32 m1 p v = write m1 p v :=
    fun m1 v => store_base_eq_write arch T 32 m1 p v hp
  have hs2 : ∀ (m1 : Mem) (v : Vec), store_base arch T 32 m1 (p + 32) v = write m1 (p + 32) v :=
    fun m1 v => store_base_eq_write arch T 32 m1 (p + 32) v (by omega)
  have hs3 : ∀ (m1 : Mem) (v : Vec), store_base arch T 32 m1 (p + 64) v = write m1 (p + 64) v :=
    fun m1 v => store_base_eq_write arch T 32 m1 (p + 64) v (by omega)
  simp only [detail.v256_store_pack3, detail.assume_aligned, hP, hQ, hs1, hs2, hs3]
  exact hM

/-! ## Lanes of the array-of-structures layout -/

theorem readBytes_write_el (m : Mem) (p : Nat) (r : List Nat) (e q : Nat)
    (h : (q + 1) * e ≤ r.length) :
    readBytes (write m p r) (p + q * e) e = el e r q := by
  have h1 : (q + 1) * e = q * e + e := by ring
  rw [readBytes_write m p r (q * e) e (by omega)]
  rfl

theorem el_append_zero (e : Nat) (x y : List Nat) (hx : x.length = e) :
    el e (x ++ y) 0 = x := by
  unfold el
  simp [List.take_append_of_le_length, hx]

theorem el_append_one (e : Nat) (x y : List Nat) (hx : x.length = e) (hy : y.length = e) :
    el e (x ++ y) 1 = y := by
  unfold el
  rw [Nat.one_mul, ← hx, List.drop_left, hx, ← hy, List.take_length]

theorem interleave2_lanes (e : Nat) (a b : Vec) (n : Nat)
    (ha : n * e ≤ a.length) (hb : n * e ≤ b.length) (i : Nat) (hi : i < n) :
    el e (interleave2 e a b n) (i * 2 + 0) = el e a i ∧
    el e (interleave2 e a b n) (i * 2 + 1) = el e b i := by
  have h1 : (i + 1) * e ≤ n * e := Nat.mul_le_mul_right e hi
  have hea := el_length e a i (by omega)
  have heb := el_length e b i (by omega)
  have hch : el (2 * e) (interleave2 e a b n) i = el e a i ++ el e b i := by
    unfold interleave2
    apply el_flatMap_range (fun i => el e a i ++ el e b i) (2 * e) n _ i hi
    intro j hj
    have h2 : (j + 1) * e ≤ n * e := Nat.mul_le_mul_right e hj
    rw [List.length_append, el_length e a j (by omega), el_length e b j (by omega)]
    omega
  constructor
  · rw [← el_el e 2 _ i 0 (by omega), hch, el_append_zero e _ _ hea]
  · rw [← el_el e 2 _ i 1 (by omega), hch, el_append_one e _ _ hea heb]

theorem el_append_two (e : Nat) (x y z : List Nat) (hx : x.length = e) (hy : y.length = e)
    (hz : z.length = e) : el e (x ++ (y ++ z)) 2 = z := by
  unfold el
  have h : 2 * e = (x ++ y).length := by rw [List.length_append, hx, hy]; omega
  rw [← List.append_assoc, h, List.drop_left, ← hz, List.take_length]

theorem el_append_one3 (e : Nat) (x y z : List Nat) (hx : x.length = e) (hy : y.length = e) :
    el e (x ++ (y ++ z)) 1 = y := by
  unfold el
  rw [Nat.one_mul, ← hx, List.drop_left, hx, ← hy, List.take_left]

theorem interleave3_lanes (e : Nat) (a b c : Vec) (n : Nat)
    (ha : n * e ≤ a.length) (hb : n * e ≤ b.length) (hc : n * e ≤ c.length)
    (i : Nat) (hi : i < n) :
    el e (interleave3 e a b c n) (i * 3 + 0) = el e a i ∧
    el e (interleave3 e a b c n) (i * 3 + 1) = el e b i ∧
    el e (interleave3 e a b c n) (i * 3 + 2) = el e c i := by
  have h1 : (i + 1) * e ≤ n * e := Nat.mul_le_mul_right e hi
  have hea := el_length e a i (by omega)
  have heb := el_length e b i (by omega)
  have hec := el_length e c i (by omega)
  have hch : el (3 * e) (interleave3 e a b c n) i = el e a i ++ (el e b i ++ el e c i) := by
    unfold interleave3
    apply el_flatMap_range (fun i => el e a i ++ (el e b i ++ el e c i)) (3 * e) n _ i hi
    intro j hj
    have h2 : (j + 1) * e ≤ n * e := Nat.mul_le_mul_right e hj
    rw [List.length_append, List.length_append, el_length e a j (by omega),
      el_length e b j (by omega), el_length e c j (by omega)]
    omega
  refine ⟨?_, ?_, ?_⟩
  · rw [← el_el e 3 _ i 0 (by omega), hch, el_append_zero e _ _ hea]
  · rw [← el_el e 3 _ i 1 (by omega), hch, el_append_one3 e _ _ _ hea heb]
  · rw [← el_el e 3 _ i 2 (by omega), hch, el_append_two e _ _ _ hea heb hec]

/-! ## Wide vectors: the loop over the base vectors -/

theorem sizeof_base_vector_cases (arch : Arch) (T : Elem) :
    sizeof_base_vector arch T = 16 ∨ sizeof_base_vector arch T = 32 := by
  cases T <;> cases arch <;> simp [sizeof_base_vector, Elem.isFloat, SIMDPP_USE_AVX, SIMDPP_USE_AVX2]

theorem elem_size_mul (T : Elem) : 16 / T.size * T.size = 16 ∧ 32 / T.size * T.size = 32 := by
  cases T <;> simp [Elem.size]

theorem base_length (veclen : Nat) (a : Vec) (i : Nat) (h : (i + 1) * veclen ≤ a.length) :
    (base veclen a i).length = veclen :=
  el_length veclen a i h

theorem store_packed2_base_eq (arch : Arch) (T : Elem) (m : Mem) (p : Nat) (a b : Vec)
    (ha : a.length = sizeof_base_vector arch T)
    (hb : b.length = sizeof_base_vector arch T)
    (hp : p % 16 = 0) :
    store_packed2_base arch T m p a b
      = write m p (interleave2 T.size a b (sizeof_base_vector arch T / T.size)) := by
  cases T
  · by_cases h : SIMDPP_USE_AVX2 arch = true
    · have hv : sizeof_base_vector arch .i8 = 32 := by
        simp [sizeof_base_vector, Elem.isFloat, h]
      rw [hv] at ha hb ⊢
      simp only [store_packed2_base, h, if_true, store_packed2_gint8x32]
      exact v256_store_pack2_eq arch .i8 sizeof_char m p a b ha hb hp (by decide)
    · have hv : sizeof_base_vector arch .i8 = 16 := by
        simp [sizeof_base_vector, Elem.isFloat, h]
      rw [hv] at ha hb ⊢
      simp only [store_packed2_base, h]
      exact store_packed2_gint8x16_eq arch m p a b ha hb hp
  · by_cases h : SIMDPP_USE_AVX2 arch = true
    · have hv : sizeof_base_vector arch .i16 = 32 := by
        simp [sizeof_base_vector, Elem.isFloat, h]
      rw [hv] at ha hb ⊢
      simp only [store_packed2_base, h, if_true, store_packed2_gint16x16]
      exact v256_store_pack2_eq arch .i16 sizeof_char m p a b ha hb hp (by decide)
    · have hv : sizeof_base_vector arch .i16 = 16 := by
        simp [sizeof_base_vector, Elem.isFloat, h]
      rw [hv] at ha hb ⊢
      simp only [store_packed2_base, h]
      exact store_packed2_gint16x8_eq arch m p a b ha hb hp
  · by_cases h : SIMDPP_USE_AVX2 arch = true
    · have hv : sizeof_base_vector arch .i32 = 32 := by
        simp [sizeof_base_vector, Elem.isFloat, h]
      rw [hv] at ha hb ⊢
      simp only [store_packed2_base, h, if_true, store_packed2_gint32x8]
      exact v256_store_pack2_eq arch .i32 sizeof_char m p a b ha hb hp (by decide)
    · have hv : sizeof_base_vector arch .i32 = 16 := by
        simp [sizeof_base_vector, Elem.isFloat, h]
      rw [hv] at ha hb ⊢
      simp only [store_packed2_base, h]
      exact store_packed2_gint32x4_eq arch m p a b ha hb hp
  · by_cases h : SIMDPP_USE_AVX2 arch = true
    · have hv : sizeof_base_vector arch .i64 = 32 := by
        simp [sizeof_base_vector, Elem.isFloat, h]
      rw [hv] at ha hb ⊢
      simp only [store_packed2_base, h, if_true, store_packed2_gint64x4]
      exact v256_store_pack2_eq arch .i64 sizeof_char m p a b ha hb hp (by decide)
    · have hv : sizeof_base_vector arch .i64 = 16 := by
        simp [sizeof_base_vector, Elem.isFloat, h]
      rw [hv] at ha hb ⊢
      simp only [store_packed2_base, h]
      exact store_packed2_gint64x2_eq arch m p a b ha hb hp
  · by_cases h : SIMDPP_USE_AVX arch = true
    · have hv : sizeof_base_vector arch .f32 = 32 := by
        simp [sizeof_base_vector, Elem.isFloat, h]
      rw [hv] at ha hb ⊢
      simp only [store_packed2_base, h, if_true, store_packed2_float32x8]
      exact v256_store_pack2_eq arch .f32 sizeof_float m p a b ha hb hp (by decide)
    · have hv : sizeof_base_vector arch .f32 = 16 := by
        simp [sizeof_base_vector, Elem.isFloat, h]
      rw [hv] at ha hb ⊢
      simp only [store_packed2_base, h]
      exact store_packed2_float32x4_eq arch m p a b ha hb hp
  · by_cases h : SIMDPP_USE_AVX arch = true
    · have hv : sizeof_base_vector arch .f64 = 32 := by
        simp [sizeof_base_vector, Elem.isFloat, h]
      rw [hv] at ha hb ⊢
      simp only [store_packed2_base, h, if_true, store_packed2_float64x4]
      exact v256_store_pack2_eq arch .f64 sizeof_double m p a b ha hb hp (by decide)
    · have hv : sizeof_base_vector arch .f64 = 16 := by
        simp [sizeof_base_vector, Elem.isFloat, h]
      rw [hv] at ha hb ⊢
      simp only [store_packed2_base, h]
      exact store_packed2_float64x2_eq arch m p a b ha hb hp

theorem store_packed3_base_eq (arch : Arch) (T : Elem) (m : Mem) (p : Nat) (a b c : Vec)
    (ha : a.length = sizeof_base_vector arch T)
    (hb : b.length = sizeof_base_vector arch T)
    (hc : c.length = sizeof_base_vector arch T)
    (hp : p % 16 = 0) :
    store_packed3_base arch T m p a b c
      = write m p (interleave3 T.size a b c (sizeof_base_vector arch T / T.size)) := by
  cases T
  · by_cases h : SIMDPP_USE_AVX2 arch = true
    · have hv : sizeof_base_vector arch .i8 = 32 := by
        simp [sizeof_base_vector, Elem.isFloat, h]
      rw [hv] at ha hb hc ⊢
      simp only [store_packed3_base, h, if_true, store_packed3_gint8x32]
      exact v256_store_pack3_eq arch .i8 sizeof_char m p a b c ha hb hc hp (by decide) (by decide)
    · have hv : sizeof_base_vector arch .i8 = 16 := by
        simp [sizeof_base_vector, Elem.isFloat, h]
      rw [hv] at ha hb hc ⊢
      simp only [store_packed3_base, h]
      exact store_packed3_gint8x16_eq arch m p a b c ha hb hc hp
  · by_cases h : SIMDPP_USE_AVX2 arch = true
    · have hv : sizeof_base_vector arch .i16 = 32 := by
        simp [sizeof_base_vector, Elem.isFloat, h]
      rw [hv] at ha hb hc ⊢
      simp only [store_packed3_base, h, if_true, store_packed3_gint16x16]
      exact v256_store_pack3_eq arch .i16 sizeof_char m p a b c ha hb hc hp (by decide) (by decide)
    · have hv : sizeof_base_vector arch .i16 = 16 := by
        simp [sizeof_base_vector, Elem.isFloat, h]
      rw [hv] at ha hb hc ⊢
      simp only [store_packed3_base, h]
      exact store_packed3_gint16x8_eq arch m p a b c ha hb hc hp
  · by_cases h : SIMDPP_USE_AVX2 arch = true
    · have hv : sizeof_base_vector arch .i32 = 32 := by
        simp [sizeof_base_vector, Elem.isFloat, h]
      rw [hv] at ha hb hc ⊢
      simp only [store_packed3_base, h, if_true, store_packed3_gint32x8]
      exact v256_store_pack3_eq arch .i32 sizeof_char m p a b c ha hb hc hp (by decide) (by decide)
    · have hv : sizeof_base_vector arch .i32 = 16 := by
        simp [sizeof_base_vector, Elem.isFloat, h]
      rw [hv] at ha hb hc ⊢
      simp only [store_packed3_base, h]
      exact store_packed3_gint32x4_eq arch m p a b c ha hb hc hp
  · by_cases h : SIMDPP_USE_AVX2 arch = true
    · have hv : sizeof_base_vector arch .i64 = 32 := by
        simp [sizeof_base_vector, Elem.isFloat, h]
      rw [hv] at ha hb hc ⊢
      simp only [store_packed3_base, h, if_true, store_packed3_gint64x4]
      exact v256_store_pack3_eq arch .i64 sizeof_char m p a b c ha hb hc hp (by decide) (by decide)
    · have hv : sizeof_base_vector arch .i64 = 16 := by
        simp [sizeof_base_vector, Elem.isFloat, h]
      rw [hv] at ha hb hc ⊢
      simp only [store_packed3_base, h]
      exact store_packed3_gint64x2_eq arch m p a b c ha hb hc hp
  · by_cases h : SIMDPP_USE_AVX arch = true
    · have hv : sizeof_base_vector arch .f32 = 32 := by
        simp [sizeof_base_vector, Elem.isFloat, h]
      rw [hv] at ha hb hc ⊢
      simp only [store_packed3_base, h, if_true, store_packed3_float32x8]
      exact v256_store_pack3_eq arch .f32 sizeof_float m p a b c ha hb hc hp (by decide) (by decide)
    · have hv : sizeof_base_vector arch .f32 = 16 := by
        simp [sizeof_base_vector, Elem.isFloat, h]
      rw [hv] at ha hb hc ⊢
      simp only [store_packed3_base, h]
      exact store_packed3_float32x4_eq arch m p a b c ha hb hc hp
  · by_cases h : SIMDPP_USE_AVX arch = true
    · have hv : sizeof_base_vector arch .f64 = 32 := by
        simp [sizeof_base_vector, Elem.isFloat, h]
      rw [hv] at ha hb hc ⊢
      simp only [store_packed3_base, h, if_true, store_packed3_float64x4]
      exact v256_store_pack3_eq arch .f64 sizeof_double m p a b c ha hb hc hp (by decide) (by decide)
    · have hv : sizeof_base_vector arch .f64 = 16 := by
        simp [sizeof_base_vector, Elem.isFloat, h]
      rw [hv] at ha hb hc ⊢
      simp only [store_packed3_base, h]
      exact store_packed3_float64x2_eq arch m p a b c ha hb hc hp

theorem foldl_store_chunks (F : Mem → Nat → Nat → Mem) (g : Nat → List Nat) (c : Nat)
    (m : Mem) (p : Nat) :
    ∀ n : Nat, (∀ i, i < n → (g i).length = c) →
      (∀ i, i < n → ∀ m1 : Mem, F m1 (p + i * c) i = write m1 (p + i * c) (g i)) →
      (List.range n).foldl (fun (s : Mem × Nat) i => (F s.1 s.2 i, s.2 + c)) (m, p)
        = (write m p ((List.range n).flatMap g), p + n * c) := by
  intro n
  induction n with
  | zero => intro _ _; simp [write_nil]
  | succ n ih =>
    intro hg hF
    rw [List.range_succ, List.foldl_append,
      ih (fun i hi => hg i (Nat.lt_succ_of_lt hi)) (fun i hi => hF i (Nat.lt_succ_of_lt hi))]
    have hlen := length_flatMap_range g c n (fun i hi => hg i (Nat.lt_succ_of_lt hi))
    simp only [List.foldl_cons, List.foldl_nil, List.flatMap_append, List.flatMap_cons,
      List.flatMap_nil, List.append_nil]
    rw [hF n (Nat.lt_succ_self n), ← hlen, write_write_append]
    congr 1
    rw [hlen]
    ring

theorem foldl_store_at (F : Mem → Nat → Nat → Mem) (c : Nat) (m : Mem) (p : Nat) :
    ∀ n : Nat,
      (List.range n).foldl (fun (s : Mem × Nat) i => (F s.1 s.2 i, s.2 + c)) (m, p)
        = ((List.range n).foldl (fun (m1 : Mem) i => F m1 (p + i * c) i) m, p + n * c) := by
  intro n
  induction n with
  | zero => simp
  | succ n ih =>
    rw [List.range_succ, List.foldl_append, List.foldl_append, ih]
    simp only [List.foldl_cons, List.foldl_nil]
    congr 1
    ring

theorem base_eq_el (veclen : Nat) (a : Vec) (i : Nat) : base veclen a i = el veclen a i := rfl

theorem wide_interleave2_lanes (e n k : Nat) (a b : Vec)
    (ha : a.length = k * (n * e)) (hb : b.length = k * (n * e)) (i : Nat) (hi : i < k * n) :
    el e ((List.range k).flatMap
        (fun s => interleave2 e (base (n * e) a s) (base (n * e) b s) n)) (i * 2 + 0) = el e a i ∧
    el e ((List.range k).flatMap
        (fun s => interleave2 e (base (n * e) a s) (base (n * e) b s) n)) (i * 2 + 1) = el e b i := by
  have hn : 0 < n := by
    rcases Nat.eq_zero_or_pos n with h | h
    · subst h; simp at hi
    · exact h
  have hs : i / n < k := by
    apply Nat.div_lt_of_lt_mul
    rw [Nat.mul_comm]; exact hi
  have hr : i % n < n := Nat.mod_lt i hn
  have hi_eq : i = i / n * n + i % n := (Nat.div_add_mod' i n).symm
  generalize i / n = s at hs hi_eq
  generalize i % n = t at hr hi_eq
  subst hi_eq
  have hsl : ∀ j, j < k → (j + 1) * (n * e) ≤ k * (n * e) :=
    fun j hj => Nat.mul_le_mul_right (n * e) hj
  have hla : ∀ j, j < k → (base (n * e) a j).length = n * e :=
    fun j hj => base_length (n * e) a j (by rw [ha]; exact hsl j hj)
  have hlb : ∀ j, j < k → (base (n * e) b j).length = n * e :=
    fun j hj => base_length (n * e) b j (by rw [hb]; exact hsl j hj)
  have hch : el ((2 * n) * e) ((List.range k).flatMap
      (fun s => interleave2 e (base (n * e) a s) (base (n * e) b s) n)) s
        = interleave2 e (base (n * e) a s) (base (n * e) b s) n := by
    apply el_flatMap_range (fun s => interleave2 e (base (n * e) a s) (base (n * e) b s) n)
      ((2 * n) * e) k _ s hs
    intro j hj
    rw [interleave2_length e _ _ n (by rw [hla j hj]) (by rw [hlb j hj])]
    ring
  have hl := interleave2_lanes e (base (n * e) a s) (base (n * e) b s) n
    (by rw [hla s hs]) (by rw [hlb s hs]) t hr
  have h0 : (s * n + t) * 2 + 0 = s * (2 * n) + (t * 2 + 0) := by ring
  have h1 : (s * n + t) * 2 + 1 = s * (2 * n) + (t * 2 + 1) := by ring
  rw [h0, h1, ← el_el e (2 * n) _ s (t * 2 + 0) (by omega),
    ← el_el e (2 * n) _ s (t * 2 + 1) (by omega), hch, hl.1, hl.2,
    base_eq_el, base_eq_el, el_el e n a s t hr, el_el e n b s t hr]
  exact ⟨rfl, rfl⟩

theorem wide_interleave3_lanes (e n k : Nat) (a b c : Vec)
    (ha : a.length = k * (n * e)) (hb : b.length = k * (n * e)) (hc : c.length = k * (n * e))
    (i : Nat) (hi : i < k * n) :
    el e ((List.range k).flatMap (fun s =>
        interleave3 e (base (n * e) a s) (base (n * e) b s) (base (n * e) c s) n)) (i * 3 + 0)
      = el e a i ∧
    el e ((List.range k).flatMap (fun s =>
        interleave3 e (base (n * e) a s) (base (n * e) b s) (base (n * e) c s) n)) (i * 3 + 1)
      = el e b i ∧
    el e ((List.range k).flatMap (fun s =>
        interleave3 e (base (n * e) a s) (base (n * e) b s) (base (n * e) c s) n)) (i * 3 + 2)
      = el e c i := by
  have hn : 0 < n := by
    rcases Nat.eq_zero_or_pos n with h | h
    · subst h; simp at hi
    · exact h
  have hs : i / n < k := by
    apply Nat.div_lt_of_lt_mul
    rw [Nat.mul_comm]; exact hi
  have hr : i % n < n := Nat.mod_lt i hn
  have hi_eq : i = i / n * n + i % n := (Nat.div_add_mod' i n).symm
  generalize i / n = s at hs hi_eq
  generalize i % n = t at hr hi_eq
  subst hi_eq
  have hsl : ∀ j, j < k → (j + 1) * (n * e) ≤ k * (n * e) :=
    fun j hj => Nat.mul_le_mul_right (n * e) hj
  have hla : ∀ j, j < k → (base (n * e) a j).length = n * e :=
    fun j hj => base_length (n * e) a j (by rw [ha]; exact hsl j hj)
  have hlb : ∀ j, j < k → (base (n * e) b j).length = n * e :=
    fun j hj => base_length (n * e) b j (by rw [hb]; exact hsl j hj)
  have hlc : ∀ j, j < k → (base (n * e) c j).length = n * e :=
    fun j hj => base_length (n * e) c j (by rw [hc]; exact hsl j hj)
  have hch : el ((3 * n) * e) ((List.range k).flatMap (fun s =>
      interleave3 e (base (n * e) a s) (base (n * e) b s) (base (n * e) c s) n)) s
        = interleave3 e (base (n * e) a s) (base (n * e) b s) (base (n * e) c s) n := by
    apply el_flatMap_range (fun s =>
      interleave3 e (base (n * e) a s) (base (n * e) b s) (base (n * e) c s) n)
      ((3 * n) * e) k _ s hs
    intro j hj
    rw [interleave3_length e _ _ _ n (by rw [hla j hj]) (by rw [hlb j hj]) (by rw [hlc j hj])]
    ring
  have hl := interleave3_lanes e (base (n * e) a s) (base (n * e) b s) (base (n * e) c s) n
    (by rw [hla s hs]) (by rw [hlb s hs]) (by rw [hlc s hs]) t hr
  have h0 : (s * n + t) * 3 + 0 = s * (3 * n) + (t * 3 + 0) := by ring
  have h1 : (s * n + t) * 3 + 1 = s * (3 * n) + (t * 3 + 1) := by ring
  have h2 : (s * n + t) * 3 + 2 = s * (3 * n) + (t * 3 + 2) := by ring
  rw [h0, h1, h2, ← el_el e (3 * n) _ s (t * 3 + 0) (by omega),
    ← el_el e (3 * n) _ s (t * 3 + 1) (by omega), ← el_el e (3 * n) _ s (t * 3 + 2) (by omega),
    hch, hl.1, hl.2.1, hl.2.2,
    base_eq_el, base_eq_el, base_eq_el, el_el e n a s t hr, el_el e n b s t hr,
    el_el e n c s t hr]
  exact ⟨rfl, rfl, rfl⟩

/-! ## Overload resolution of `store_packed2` and `store_packed3` -/

theorem sizeof_P_div (arch : Arch) (T : Elem) (K : Nat) :
    sizeof_base_vector arch T * K / sizeof_P T * sizeof_P T = sizeof_base_vector arch T * K := by
  apply Nat.div_mul_cancel
  rcases sizeof_base_vector_cases arch T with h | h <;> rw [h] <;>
    cases T <;> simp only [sizeof_P, sizeof_char, sizeof_float, sizeof_double] <;> omega

theorem store_packed2_native16 (arch : Arch) (T : Elem) (m : Mem) (p : Nat) (a b : Vec)
    (ha : a.length = 16) (hb : b.length = 16) (hp : p % 16 = 0) :
    store_packed2 arch T m p a b = write m p (interleave2 T.size a b (16 / T.size)) := by
  cases T
  · simp only [store_packed2, ha, if_true]
    exact store_packed2_gint8x16_eq arch m p a b ha hb hp
  · simp only [store_packed2, ha, if_true]
    exact store_packed2_gint16x8_eq arch m p a b ha hb hp
  · simp only [store_packed2, ha, if_true]
    exact store_packed2_gint32x4_eq arch m p a b ha hb hp
  · simp only [store_packed2, ha, if_true]
    exact store_packed2_gint64x2_eq arch m p a b ha hb hp
  · simp only [store_packed2, ha, if_true]
    exact store_packed2_float32x4_eq arch m p a b ha hb hp
  · simp only [store_packed2, ha, if_true]
    exact store_packed2_float64x2_eq arch m p a b ha hb hp

theorem store_packed2_native32 (arch : Arch) (T : Elem) (m : Mem) (p : Nat) (a b : Vec)
    (ha : a.length = 32) (hb : b.length = 32) (hv : sizeof_base_vector arch T = 32) (hp : p % 16 = 0) :
    store_packed2 arch T m p a b = write m p (interleave2 T.size a b (32 / T.size)) := by
  have hbase := store_packed2_base_eq arch T m p a b (by omega) (by omega) hp
  rw [hv] at hbase
  rw [← hbase]
  cases T
  · have hf : SIMDPP_USE_AVX2 arch = true := by
      cases arch <;> simp [sizeof_base_vector, Elem.isFloat, SIMDPP_USE_AVX, SIMDPP_USE_AVX2] at hv ⊢
    simp [store_packed2, store_packed2_base, ha, hf]
  · have hf : SIMDPP_USE_AVX2 arch = true := by
      cases arch <;> simp [sizeof_base_vector, Elem.isFloat, SIMDPP_USE_AVX, SIMDPP_USE_AVX2] at hv ⊢
    simp [store_packed2, store_packed2_base, ha, hf]
  · have hf : SIMDPP_USE_AVX2 arch = true := by
      cases arch <;> simp [sizeof_base_vector, Elem.isFloat, SIMDPP_USE_AVX, SIMDPP_USE_AVX2] at hv ⊢
    simp [store_packed2, store_packed2_base, ha, hf]
  · have hf : SIMDPP_USE_AVX2 arch = true := by
      cases arch <;> simp [sizeof_base_vector, Elem.isFloat, SIMDPP_USE_AVX, SIMDPP_USE_AVX2] at hv ⊢
    simp [store_packed2, store_packed2_base, ha, hf]
  · have hf : SIMDPP_USE_AVX arch = true := by
      cases arch <;> simp [sizeof_base_vector, Elem.isFloat, SIMDPP_USE_AVX, SIMDPP_USE_AVX2] at hv ⊢
    simp [store_packed2, store_packed2_base, ha, hf]
  · have hf : SIMDPP_USE_AVX arch = true := by
      cases arch <;> simp [sizeof_base_vector, Elem.isFloat, SIMDPP_USE_AVX, SIMDPP_USE_AVX2] at hv ⊢
    simp [store_packed2, store_packed2_base, ha, hf]

theorem store_packed2_template (arch : Arch) (T : Elem) (m : Mem) (p : Nat) (a b : Vec)
    (h16 : a.length ≠ 16) (h32 : ¬ (sizeof_base_vector arch T = 32 ∧ a.length = 32)) :
    store_packed2 arch T m p a b = detail.v_store_pack2 arch T (sizeof_P T) m p a b := by
  cases T
  · have hf : ¬ (SIMDPP_USE_AVX2 arch = true ∧ a.length = 32) := by
      intro hc
      apply h32
      refine ⟨?_, hc.2⟩
      simp [sizeof_base_vector, Elem.isFloat, hc.1]
    simp only [store_packed2, h16, hf, if_false, sizeof_P]
  · have hf : ¬ (SIMDPP_USE_AVX2 arch = true ∧ a.length = 32) := by
      intro hc
      apply h32
      refine ⟨?_, hc.2⟩
      simp [sizeof_base_vector, Elem.isFloat, hc.1]
    simp only [store_packed2, h16, hf, if_false, sizeof_P]
  · have hf : ¬ (SIMDPP_USE_AVX2 arch = true ∧ a.length = 32) := by
      intro hc
      apply h32
      refine ⟨?_, hc.2⟩
      simp [sizeof_base_vector, Elem.isFloat, hc.1]
    simp only [store_packed2, h16, hf, if_false, sizeof_P]
  · have hf : ¬ (SIMDPP_USE_AVX2 arch = true ∧ a.length = 32) := by
      intro hc
      apply h32
      refine ⟨?_, hc.2⟩
      simp [sizeof_base_vector, Elem.isFloat, hc.1]
    simp only [store_packed2, h16, hf, if_false, sizeof_P]
  · have hf : ¬ (SIMDPP_USE_AVX arch = true ∧ a.length = 32) := by
      intro hc
      apply h32
      refine ⟨?_, hc.2⟩
      simp [sizeof_base_vector, Elem.isFloat, hc.1]
    simp only [store_packed2, h16, hf, if_false, sizeof_P]
  · have hf : ¬ (SIMDPP_USE_AVX arch = true ∧ a.length = 32) := by
      intro hc
      apply h32
      refine ⟨?_, hc.2⟩
      simp [sizeof_base_vector, Elem.isFloat, hc.1]
    simp only [store_packed2, h16, hf, if_false, sizeof_P]

theorem store_packed3_native16 (arch : Arch) (T : Elem) (m : Mem) (p : Nat) (a b c : Vec)
    (ha : a.length = 16) (hb : b.length = 16) (hc : c.length = 16) (hp : p % 16 = 0) :
    store_packed3 arch T m p a b c = write m p (interleave3 T.size a b c (16 / T.size)) := by
  cases T
  · simp only [store_packed3, ha, if_true]
    exact store_packed3_gint8x16_eq arch m p a b c ha hb hc hp
  · simp only [store_packed3, ha, if_true]
    exact store_packed3_gint16x8_eq arch m p a b c ha hb hc hp
  · simp only [store_packed3, ha, if_true]
    exact store_packed3_gint32x4_eq arch m p a b c ha hb hc hp
  · simp only [store_packed3, ha, if_true]
    exact store_packed3_gint64x2_eq arch m p a b c ha hb hc hp
  · simp only [store_packed3, ha, if_true]
    exact store_packed3_float32x4_eq arch m p a b c ha hb hc hp
  · simp only [store_packed3, ha, if_true]
    exact store_packed3_float64x2_eq arch m p a b c ha hb hc hp

theorem store_packed3_native32 (arch : Arch) (T : Elem) (m : Mem) (p : Nat) (a b c : Vec)
    (ha : a.length = 32) (hb : b.length = 32) (hc : c.length = 32) (hv : sizeof_base_vector arch T = 32) (hp : p % 16 = 0) :
    store_packed3 arch T m p a b c = write m p (interleave3 T.size a b c (32 / T.size)) := by
  have hbase := store_packed3_base_eq arch T m p a b c (by omega) (by omega) (by omega) hp
  rw [hv] at hbase
  rw [← hbase]
  cases T
  · have hf : SIMDPP_USE_AVX2 arch = true := by
      cases arch <;> simp [sizeof_base_vector, Elem.isFloat, SIMDPP_USE_AVX, SIMDPP_USE_AVX2] at hv ⊢
    simp [store_packed3, store_packed3_base, ha, hf]
  · have hf : SIMDPP_USE_AVX2 arch = true := by
      cases arch <;> simp [sizeof_base_vector, Elem.isFloat, SIMDPP_USE_AVX, SIMDPP_USE_AVX2] at hv ⊢
    simp [store_packed3, store_packed3_base, ha, hf]
  · have hf : SIMDPP_USE_AVX2 arch = true := by
      cases arch <;> simp [sizeof_base_vector, Elem.isFloat, SIMDPP_USE_AVX, SIMDPP_USE_AVX2] at hv ⊢
    simp [store_packed3, store_packed3_base, ha, hf]
  · have hf : SIMDPP_USE_AVX2 arch = true := by
      cases arch <;> simp [sizeof_base_vector, Elem.isFloat, SIMDPP_USE_AVX, SIMDPP_USE_AVX2] at hv ⊢
    simp [store_packed3, store_packed3_base, ha, hf]
  · have hf : SIMDPP_USE_AVX arch = true := by
      cases arch <;> simp [sizeof_base_vector, Elem.isFloat, SIMDPP_USE_AVX, SIMDPP_USE_AVX2] at hv ⊢
    simp [store_packed3, store_packed3_base, ha, hf]
  · have hf : SIMDPP_USE_AVX arch = true := by
      cases arch <;> simp [sizeof_base_vector, Elem.isFloat, SIMDPP_USE_AVX, SIMDPP_USE_AVX2] at hv ⊢
    simp [store_packed3, store_packed3_base, ha, hf]

theorem store_packed3_template (arch : Arch) (T : Elem) (m : Mem) (p : Nat) (a b c : Vec)
    (h16 : a.length ≠ 16) (h32 : ¬ (sizeof_base_vector arch T = 32 ∧ a.length = 32)) :
    store_packed3 arch T m p a b c = detail.v_store_pack3 arch T (sizeof_P T) m p a b c := by
  cases T
  · have hf : ¬ (SIMDPP_USE_AVX2 arch = true ∧ a.length = 32) := by
      intro hc
      apply h32
      refine ⟨?_, hc.2⟩
      simp [sizeof_base_vector, Elem.isFloat, hc.1]
    simp only [store_packed3, h16, hf, if_false, sizeof_P]
  · have hf : ¬ (SIMDPP_USE_AVX2 arch = true ∧ a.length = 32) := by
      intro hc
      apply h32
      refine ⟨?_, hc.2⟩
      simp [sizeof_base_vector, Elem.isFloat, hc.1]
    simp only [store_packed3, h16, hf, if_false, sizeof_P]
  · have hf : ¬ (SIMDPP_USE_AVX2 arch = true ∧ a.length = 32) := by
      intro hc
      apply h32
      refine ⟨?_, hc.2⟩
      simp [sizeof_base_vector, Elem.isFloat, hc.1]
    simp only [store_packed3, h16, hf, if_false, sizeof_P]
  · have hf : ¬ (SIMDPP_USE_AVX2 arch = true ∧ a.length = 32) := by
      intro hc
      apply h32
      refine ⟨?_, hc.2⟩
      simp [sizeof_base_vector, Elem.isFloat, hc.1]
    simp only [store_packed3, h16, hf, if_false, sizeof_P]
  · have hf : ¬ (SIMDPP_USE_AVX arch = true ∧ a.length = 32) := by
      intro hc
      apply h32
      refine ⟨?_, hc.2⟩
      simp [sizeof_base_vector, Elem.isFloat, hc.1]
    simp only [store_packed3, h16, hf, if_false, sizeof_P]
  · have hf : ¬ (SIMDPP_USE_AVX arch = true ∧ a.length = 32) := by
      intro hc
      apply h32
      refine ⟨?_, hc.2⟩
      simp [sizeof_base_vector, Elem.isFloat, hc.1]
    simp only [store_packed3, h16, hf, if_false, sizeof_P]

/-! ## The region written by `store_packed2` and `store_packed3` -/

theorem v_store_pack2_fold (arch : Arch) (T : Elem) (m : Mem) (p : Nat) (a b : Vec) (k : Nat)
    (ha : a.length = k * sizeof_base_vector arch T) :
    detail.v_store_pack2 arch T (sizeof_P T) m p a b
      = (List.range k).foldl (fun (m1 : Mem) s =>
          store_packed2_base arch T m1 (p + s * (sizeof_base_vector arch T * 2))
            (base (sizeof_base_vector arch T) a s) (base (sizeof_base_vector arch T) b s)) m := by
  have hv : 0 < sizeof_base_vector arch T := by
    rcases sizeof_base_vector_cases arch T with h | h <;> omega
  have hk : vec_length (sizeof_base_vector arch T) a = k := by
    unfold vec_length
    rw [ha, Nat.mul_div_cancel _ hv]
  unfold detail.v_store_pack2
  simp only [detail.assume_aligned, hk, sizeof_P_div]
  rw [foldl_store_at (fun m1 q i => store_packed2_base arch T m1 q
    (base (sizeof_base_vector arch T) a i) (base (sizeof_base_vector arch T) b i)) (sizeof_base_vector arch T * 2) m p k]

theorem v_store_pack2_eq (arch : Arch) (T : Elem) (m : Mem) (p : Nat) (a b : Vec) (k : Nat)
    (ha : a.length = k * sizeof_base_vector arch T) (hb : b.length = k * sizeof_base_vector arch T) (hp : p % 16 = 0) :
    detail.v_store_pack2 arch T (sizeof_P T) m p a b
      = write m p ((List.range k).flatMap (fun s => interleave2 T.size
          (base (sizeof_base_vector arch T) a s) (base (sizeof_base_vector arch T) b s) (sizeof_base_vector arch T / T.size))) := by
  have hv : 0 < sizeof_base_vector arch T := by
    rcases sizeof_base_vector_cases arch T with h | h <;> omega
  have hk : vec_length (sizeof_base_vector arch T) a = k := by
    unfold vec_length
    rw [ha, Nat.mul_div_cancel _ hv]
  have hne : sizeof_base_vector arch T / T.size * T.size = sizeof_base_vector arch T := by
    rcases sizeof_base_vector_cases arch T with h | h <;> rw [h]
    · exact (elem_size_mul T).1
    · exact (elem_size_mul T).2
  have hl : ∀ (v : Vec) (i : Nat), v.length = k * sizeof_base_vector arch T → i < k →
      (base (sizeof_base_vector arch T) v i).length = sizeof_base_vector arch T := by
    intro v i hvl hi
    apply base_length
    rw [hvl]
    exact Nat.mul_le_mul_right _ hi
  unfold detail.v_store_pack2
  simp only [detail.assume_aligned, hk, sizeof_P_div]
  rw [foldl_store_chunks (fun m1 q i => store_packed2_base arch T m1 q
    (base (sizeof_base_vector arch T) a i) (base (sizeof_base_vector arch T) b i))
    (fun s => interleave2 T.size (base (sizeof_base_vector arch T) a s) (base (sizeof_base_vector arch T) b s) (sizeof_base_vector arch T / T.size))
    (sizeof_base_vector arch T * 2) m p k]
  · intro i hi
    rw [interleave2_length T.size _ _ (sizeof_base_vector arch T / T.size)
      (by rw [hne, hl a i ha hi]) (by rw [hne, hl b i hb hi])]
    rw [Nat.mul_add, hne]
    omega
  · intro i hi m1
    apply store_packed2_base_eq arch T m1 _ _ _
      (hl a i ha hi) (hl b i hb hi)
    rcases sizeof_base_vector_cases arch T with h | h <;> rw [h] <;> omega

theorem v_store_pack3_fold (arch : Arch) (T : Elem) (m : Mem) (p : Nat) (a b c : Vec) (k : Nat)
    (ha : a.length = k * sizeof_base_vector arch T) :
    detail.v_store_pack3 arch T (sizeof_P T) m p a b c
      = (List.range k).foldl (fun (m1 : Mem) s =>
          store_packed3_base arch T m1 (p + s * (sizeof_base_vector arch T * 3))
            (base (sizeof_base_vector arch T) a s) (base (sizeof_base_vector arch T) b s) (base (sizeof_base_vector arch T) c s)) m := by
  have hv : 0 < sizeof_base_vector arch T := by
    rcases sizeof_base_vector_cases arch T with h | h <;> omega
  have hk : vec_length (sizeof_base_vector arch T) a = k := by
    unfold vec_length
    rw [ha, Nat.mul_div_cancel _ hv]
  unfold detail.v_store_pack3
  simp only [detail.assume_aligned, hk, sizeof_P_div]
  rw [foldl_store_at (fun m1 q i => store_packed3_base arch T m1 q
    (base (sizeof_base_vector arch T) a i) (base (sizeof_base_vector arch T) b i) (base (sizeof_base_vector arch T) c i)) (sizeof_base_vector arch T * 3) m p k]

theorem v_store_pack3_eq (arch : Arch) (T : Elem) (m : Mem) (p : Nat) (a b c : Vec) (k : Nat)
    (ha : a.length = k * sizeof_base_vector arch T) (hb : b.length = k * sizeof_base_vector arch T) (hc : c.length = k * sizeof_base_vector arch T) (hp : p % 16 = 0) :
    detail.v_store_pack3 arch T (sizeof_P T) m p a b c
      = write m p ((List.range k).flatMap (fun s => interleave3 T.size
          (base (sizeof_base_vector arch T) a s) (base (sizeof_base_vector arch T) b s) (base (sizeof_base_vector arch T) c s) (sizeof_base_vector arch T / T.size))) := by
  have hv : 0 < sizeof_base_vector arch T := by
    rcases sizeof_base_vector_cases arch T with h | h <;> omega
  have hk : vec_length (sizeof_base_vector arch T) a = k := by
    unfold vec_length
    rw [ha, Nat.mul_div_cancel _ hv]
  have hne : sizeof_base_vector arch T / T.size * T.size = sizeof_base_vector arch T := by
    rcases sizeof_base_vector_cases arch T with h | h <;> rw [h]
    · exact (elem_size_mul T).1
    · exact (elem_size_mul T).2
  have hl : ∀ (v : Vec) (i : Nat), v.length = k * sizeof_base_vector arch T → i < k →
      (base (sizeof_base_vector arch T) v i).length = sizeof_base_vector arch T := by
    intro v i hvl hi
    apply base_length
    rw [hvl]
    exact Nat.mul_le_mul_right _ hi
  unfold detail.v_store_pack3
  simp only [detail.assume_aligned, hk, sizeof_P_div]
  rw [foldl_store_chunks (fun m1 q i => store_packed3_base arch T m1 q
    (base (sizeof_base_vector arch T) a i) (base (sizeof_base_vector arch T) b i) (base (sizeof_base_vector arch T) c i))
    (fun s => interleave3 T.size (base (sizeof_base_vector arch T) a s) (base (sizeof_base_vector arch T) b s) (base (sizeof_base_vector arch T) c s) (sizeof_base_vector arch T / T.size))
    (sizeof_base_vector arch T * 3) m p k]
  · intro i hi
    rw [interleave3_length T.size _ _ _ (sizeof_base_vector arch T / T.size)
      (by rw [hne, hl a i ha hi]) (by rw [hne, hl b i hb hi]) (by rw [hne, hl c i hc hi])]
    rw [Nat.mul_add, Nat.mul_add, hne]
    omega
  · intro i hi m1
    apply store_packed3_base_eq arch T m1 _ _ _ _
      (hl a i ha hi) (hl b i hb hi) (hl c i hc hi)
    rcases sizeof_base_vector_cases arch T with h | h <;> rw [h] <;> omega

theorem elem_size_pos (T : Elem) : 0 < T.size := by
  cases T <;> simp [Elem.size]

theorem store_packed2_region (arch : Arch) (T : Elem) (m : Mem) (p : Nat) (a b : Vec)
    (hb : b.length = a.length) (hp : p % 16 = 0)
    (hshape : a.length = 16 ∨ ∃ k, a.length = k * sizeof_base_vector arch T) :
    ∃ r : List Nat, store_packed2 arch T m p a b = write m p r ∧
      r.length = 2 * a.length ∧
      ∀ i, i < a.length / T.size →
        el T.size r (i * 2 + 0) = el T.size a i ∧
        el T.size r (i * 2 + 1) = el T.size b i := by
  have he := elem_size_pos T
  by_cases h16 : a.length = 16
  ·
    have hn := (elem_size_mul T).1
    refine ⟨interleave2 T.size a b (16 / T.size),
      store_packed2_native16 arch T m p a b (by omega) (by omega) hp, ?_, ?_⟩
    · rw [interleave2_length T.size a b (16 / T.size) (by omega) (by omega)]
      rw [Nat.mul_add, hn]
      omega
    · intro i hi
      rw [h16] at hi
      exact interleave2_lanes T.size a b (16 / T.size) (by omega) (by omega) i hi
  by_cases h32sel : sizeof_base_vector arch T = 32 ∧ a.length = 32
  · have hv := h32sel.1
    have h16 := h32sel.2
    have hn := (elem_size_mul T).2
    refine ⟨interleave2 T.size a b (32 / T.size),
      store_packed2_native32 arch T m p a b (by omega) (by omega) hv hp, ?_, ?_⟩
    · rw [interleave2_length T.size a b (32 / T.size) (by omega) (by omega)]
      rw [Nat.mul_add, hn]
      omega
    · intro i hi
      rw [h16] at hi
      exact interleave2_lanes T.size a b (32 / T.size) (by omega) (by omega) i hi
  rcases hshape with h | ⟨k, hk⟩
  · exact absurd h h16
  have hne : sizeof_base_vector arch T / T.size * T.size = sizeof_base_vector arch T := by
    rcases sizeof_base_vector_cases arch T with h | h <;> rw [h]
    · exact (elem_size_mul T).1
    · exact (elem_size_mul T).2
  have hl : ∀ (v : Vec) (i : Nat), v.length = k * sizeof_base_vector arch T → i < k →
      (base (sizeof_base_vector arch T) v i).length = sizeof_base_vector arch T := by
    intro v i hvl hi
    apply base_length
    rw [hvl]
    exact Nat.mul_le_mul_right _ hi
  refine ⟨(List.range k).flatMap (fun s => interleave2 T.size
      (base (sizeof_base_vector arch T) a s) (base (sizeof_base_vector arch T) b s) (sizeof_base_vector arch T / T.size)), ?_, ?_, ?_⟩
  · rw [store_packed2_template arch T m p a b h16 h32sel]
    exact v_store_pack2_eq arch T m p a b k (by omega) (by omega) hp
  · rw [length_flatMap_range _ (2 * sizeof_base_vector arch T) k, hk]
    · ring
    · intro i hi
      rw [interleave2_length T.size _ _ (sizeof_base_vector arch T / T.size)
        (by rw [hne, hl a i (by omega) hi]) (by rw [hne, hl b i (by omega) hi])]
      rw [Nat.mul_add, hne]
      omega
  · intro i hi
    have hw := wide_interleave2_lanes T.size (sizeof_base_vector arch T / T.size) k a b
      (by rw [hne]; omega) (by rw [hne]; omega) i
      (by
        rw [hk] at hi
        have h1 : k * sizeof_base_vector arch T / T.size
            = k * (sizeof_base_vector arch T / T.size) := by
          conv_lhs => rw [← hne, ← Nat.mul_assoc]
          exact Nat.mul_div_cancel _ he
        rw [h1] at hi
        exact hi)
    rw [hne] at hw
    exact hw

theorem store_packed3_region (arch : Arch) (T : Elem) (m : Mem) (p : Nat) (a b c : Vec)
    (hb : b.length = a.length) (hc : c.length = a.length) (hp : p % 16 = 0)
    (hshape : a.length = 16 ∨ ∃ k, a.length = k * sizeof_base_vector arch T) :
    ∃ r : List Nat, store_packed3 arch T m p a b c = write m p r ∧
      r.length = 3 * a.length ∧
      ∀ i, i < a.length / T.size →
        el T.size r (i * 3 + 0) = el T.size a i ∧
        el T.size r (i * 3 + 1) = el T.size b i ∧
        el T.size r (i * 3 + 2) = el T.size c i := by
  have he := elem_size_pos T
  by_cases h16 : a.length = 16
  ·
    have hn := (elem_size_mul T).1
    refine ⟨interleave3 T.size a b c (16 / T.size),
      store_packed3_native16 arch T m p a b c (by omega) (by omega) (by omega) hp, ?_, ?_⟩
    · rw [interleave3_length T.size a b c (16 / T.size) (by omega) (by omega) (by omega)]
      rw [Nat.mul_add, Nat.mul_add, hn]
      omega
    · intro i hi
      rw [h16] at hi
      exact interleave3_lanes T.size a b c (16 / T.size) (by omega) (by omega) (by omega) i hi
  by_cases h32sel : sizeof_base_vector arch T = 32 ∧ a.length = 32
  · have hv := h32sel.1
    have h16 := h32sel.2
    have hn := (elem_size_mul T).2
    refine ⟨interleave3 T.size a b c (32 / T.size),
      store_packed3_native32 arch T m p a b c (by omega) (by omega) (by omega) hv hp, ?_, ?_⟩
    · rw [interleave3_length T.size a b c (32 / T.size) (by omega) (by omega) (by omega)]
      rw [Nat.mul_add, Nat.mul_add, hn]
      omega
    · intro i hi
      rw [h16] at hi
      exact interleave3_lanes T.size a b c (32 / T.size) (by omega) (by omega) (by omega) i hi
  rcases hshape with h | ⟨k, hk⟩
  · exact absurd h h16
  have hne : sizeof_base_vector arch T / T.size * T.size = sizeof_base_vector arch T := by
    rcases sizeof_base_vector_cases arch T with h | h <;> rw [h]
    · exact (elem_size_mul T).1
    · exact (elem_size_mul T).2
  have hl : ∀ (v : Vec) (i : Nat), v.length = k * sizeof_base_vector arch T → i < k →
      (base (sizeof_base_vector arch T) v i).length = sizeof_base_vector arch T := by
    intro v i hvl hi
    apply base_length
    rw [hvl]
    exact Nat.mul_le_mul_right _ hi
  refine ⟨(List.range k).flatMap (fun s => interleave3 T.size
      (base (sizeof_base_vector arch T) a s) (base (sizeof_base_vector arch T) b s) (base (sizeof_base_vector arch T) c s) (sizeof_base_vector arch T / T.size)), ?_, ?_, ?_⟩
  · rw [store_packed3_template arch T m p a b c h16 h32sel]
    exact v_store_pack3_eq arch T m p a b c k (by omega) (by omega) (by omega) hp
  · rw [length_flatMap_range _ (3 * sizeof_base_vector arch T) k, hk]
    · ring
    · intro i hi
      rw [interleave3_length T.size _ _ _ (sizeof_base_vector arch T / T.size)
        (by rw [hne, hl a i (by omega) hi]) (by rw [hne, hl b i (by omega) hi]) (by rw [hne, hl c i (by omega) hi])]
      rw [Nat.mul_add, Nat.mul_add, hne]
      omega
  · intro i hi
    have hw := wide_interleave3_lanes T.size (sizeof_base_vector arch T / T.size) k a b c
      (by rw [hne]; omega) (by rw [hne]; omega) (by rw [hne]; omega) i
      (by
        rw [hk] at hi
        have h1 : k * sizeof_base_vector arch T / T.size
            = k * (sizeof_base_vector arch T / T.size) := by
          conv_lhs => rw [← hne, ← Nat.mul_assoc]
          exact Nat.mul_div_cancel _ he
        rw [h1] at hi
        exact hi)
    rw [hne] at hw
    exact hw

theorem shape_div (arch : Arch) (T : Elem) (a : Vec)
    (hshape : a.length = 16 ∨ ∃ k, a.length = k * sizeof_base_vector arch T) :
    a.length / T.size * T.size = a.length := by
  apply Nat.div_mul_cancel
  rcases hshape with h | ⟨k, hk⟩
  · rw [h]; cases T <;> simp only [Elem.size] <;> omega
  · rw [hk]
    apply Dvd.dvd.mul_left
    rcases sizeof_base_vector_cases arch T with h | h <;> rw [h] <;>
      cases T <;> simp only [Elem.size] <;> omega

theorem flatMap_range_congr (f g : Nat → List Nat) :
    ∀ n : Nat, (∀ i, i < n → f i = g i) → (List.range n).flatMap f = (List.range n).flatMap g := by
  intro n
  induction n with
  | zero => intro _; rfl
  | succ n ih =>
    intro h
    rw [List.range_succ, List.flatMap_append, List.flatMap_append,
      ih (fun i hi => h i (Nat.lt_succ_of_lt hi))]
    simp [h n (Nat.lt_succ_self n)]

theorem store_packed2_layout (arch : Arch) (T : Elem) (m : Mem) (p : Nat) (a b : Vec)
    (hb : b.length = a.length) (hp : p % 16 = 0)
    (hshape : a.length = 16 ∨ ∃ k, a.length = k * sizeof_base_vector arch T) :
    ∀ i, i < a.length / T.size →
      readBytes (store_packed2 arch T m p a b) (p + (i * 2 + 0) * T.size) T.size
        = el T.size a i ∧
      readBytes (store_packed2 arch T m p a b) (p + (i * 2 + 1) * T.size) T.size
        = el T.size b i := by
  intro i hi
  obtain ⟨r, hr, hlen, hl⟩ := store_packed2_region arch T m p a b hb hp hshape
  have hd := shape_div arch T a hshape
  have hb1 : ∀ j, j < 2 → (i * 2 + j + 1) * T.size ≤ r.length := by
    intro j hj
    rw [hlen, ← hd]
    have h1 : i * 2 + j + 1 ≤ 2 * (a.length / T.size) := by omega
    calc (i * 2 + j + 1) * T.size ≤ (2 * (a.length / T.size)) * T.size :=
          Nat.mul_le_mul_right _ h1
      _ = 2 * (a.length / T.size * T.size) := by ring
  rw [hr]
  have hli := hl i hi
  refine ⟨?_, ?_⟩
  · rw [readBytes_write_el m p r T.size (i * 2 + 0) (hb1 0 (by omega))]
    exact hli.1
  · rw [readBytes_write_el m p r T.size (i * 2 + 1) (hb1 1 (by omega))]
    exact hli.2

theorem store_packed3_layout (arch : Arch) (T : Elem) (m : Mem) (p : Nat) (a b c : Vec)
    (hb : b.length = a.length) (hc : c.length = a.length) (hp : p % 16 = 0)
    (hshape : a.length = 16 ∨ ∃ k, a.length = k * sizeof_base_vector arch T) :
    ∀ i, i < a.length / T.size →
      readBytes (store_packed3 arch T m p a b c) (p + (i * 3 + 0) * T.size) T.size
        = el T.size a i ∧
      readBytes (store_packed3 arch T m p a b c) (p + (i * 3 + 1) * T.size) T.size
        = el T.size b i ∧
      readBytes (store_packed3 arch T m p a b c) (p + (i * 3 + 2) * T.size) T.size
        = el T.size c i := by
  intro i hi
  obtain ⟨r, hr, hlen, hl⟩ := store_packed3_region arch T m p a b c hb hc hp hshape
  have hd := shape_div arch T a hshape
  have hb1 : ∀ j, j < 3 → (i * 3 + j + 1) * T.size ≤ r.length := by
    intro j hj
    rw [hlen, ← hd]
    have h1 : i * 3 + j + 1 ≤ 3 * (a.length / T.size) := by omega
    calc (i * 3 + j + 1) * T.size ≤ (3 * (a.length / T.size)) * T.size :=
          Nat.mul_le_mul_right _ h1
      _ = 3 * (a.length / T.size * T.size) := by ring
  rw [hr]
  have hli := hl i hi
  refine ⟨?_, ?_, ?_⟩
  · rw [readBytes_write_el m p r T.size (i * 3 + 0) (hb1 0 (by omega))]
    exact hli.1
  · rw [readBytes_write_el m p r T.size (i * 3 + 1) (hb1 1 (by omega))]
    exact hli.2.1
  · rw [readBytes_write_el m p r T.size (i * 3 + 2) (hb1 2 (by omega))]
    exact hli.2.2

theorem exists_of_length_four (l : List Nat) (h : l.length = 4) :
    ∃ w x y z, l = [w, x, y, z] := by
  match l, h with
  | [w, x, y, z], _ => exact ⟨w, x, y, z, rfl⟩

/-! ## Claims on `store_packed2` and `store_packed3` -/

/-- C1: for every element type, every capability profile and every pair of native
128-bit vectors `a`, `b`, after `store_packed2(p, a, b)` element `2*i` of the
region at `p` is lane `i` of `a` and element `2*i+1` is lane `i` of `b`, for
every lane `i` (element `i` of vector `j` at byte offset `(i*2 + j) * element_size`);
on 32-bit lanes `a = [1,2,3,4]`, `b = [5,6,7,8]` writes `[1,5,2,6,3,7,4,8]`,
whatever the 4-byte encoding `enc` of the element values. -/
theorem C1_store_packed2_native_layout (arch : Arch) (T : Elem) (m : Mem) (p : Nat) (a b : Vec)
    (ha : a.length = 16) (hb : b.length = 16) (hp : p % 16 = 0) :
    (∀ i, i < 16 / T.size →
      readBytes (store_packed2 arch T m p a b) (p + (i * 2 + 0) * T.size) T.size
        = el T.size a i ∧
      readBytes (store_packed2 arch T m p a b) (p + (i * 2 + 1) * T.size) T.size
        = el T.size b i) ∧
    (∀ enc : Nat → List Nat, (∀ x, (enc x).length = 4) →
      readBytes (store_packed2 arch .i32 m p ([1, 2, 3, 4].flatMap enc) ([5, 6, 7, 8].flatMap enc))
        p 32 = [1, 5, 2, 6, 3, 7, 4, 8].flatMap enc) := by
  constructor
  · intro i hi
    have h := store_packed2_layout arch T m p a b (by omega) hp (Or.inl ha) i (by rw [ha]; exact hi)
    exact h
  · intro enc henc
    obtain ⟨a1, a2, a3, a4, h1⟩ := exists_of_length_four (enc 1) (henc 1)
    obtain ⟨b1, b2, b3, b4, h2⟩ := exists_of_length_four (enc 2) (henc 2)
    obtain ⟨c1, c2, c3, c4, h3⟩ := exists_of_length_four (enc 3) (henc 3)
    obtain ⟨d1, d2, d3, d4, h4⟩ := exists_of_length_four (enc 4) (henc 4)
    obtain ⟨e1, e2, e3, e4, h5⟩ := exists_of_length_four (enc 5) (henc 5)
    obtain ⟨f1, f2, f3, f4, h6⟩ := exists_of_length_four (enc 6) (henc 6)
    obtain ⟨g1, g2, g3, g4, h7⟩ := exists_of_length_four (enc 7) (henc 7)
    obtain ⟨k1, k2, k3, k4, h8⟩ := exists_of_length_four (enc 8) (henc 8)
    rw [store_packed2_native16 arch .i32 m p _ _ (by simp [henc]) (by simp [henc]) hp]
    have hr := readBytes_write m p
      (interleave2 Elem.i32.size ([1, 2, 3, 4].flatMap enc) ([5, 6, 7, 8].flatMap enc)
        (16 / Elem.i32.size)) 0 32
      (by rw [interleave2_length _ _ _ _ (by simp [henc, Elem.size]) (by simp [henc, Elem.size])]
          simp [Elem.size])
    rw [Nat.add_zero] at hr
    rw [hr]
    simp [interleave2, el, Elem.size, List.range_succ, h1, h2, h3, h4, h5, h6, h7, h8]

theorem C1_store_packed2_native_layout_witness :
    (List.replicate 16 1).length = 16 ∧ (List.replicate 16 2).length = 16 ∧ 32 % 16 = 0 ∧
    ((∀ i, i < 16 / Elem.i16.size →
      readBytes (store_packed2 Arch.ALTIVEC Elem.i16 (fun _ => 0) 32 (List.replicate 16 1)
          (List.replicate 16 2)) (32 + (i * 2 + 0) * Elem.i16.size) Elem.i16.size
        = el Elem.i16.size (List.replicate 16 1) i ∧
      readBytes (store_packed2 Arch.ALTIVEC Elem.i16 (fun _ => 0) 32 (List.replicate 16 1)
          (List.replicate 16 2)) (32 + (i * 2 + 1) * Elem.i16.size) Elem.i16.size
        = el Elem.i16.size (List.replicate 16 2) i) ∧
    (∀ enc : Nat → List Nat, (∀ x, (enc x).length = 4) →
      readBytes (store_packed2 Arch.ALTIVEC .i32 (fun _ => 0) 32 ([1, 2, 3, 4].flatMap enc)
        ([5, 6, 7, 8].flatMap enc)) 32 32 = [1, 5, 2, 6, 3, 7, 4, 8].flatMap enc)) :=
  ⟨by decide, by decide, by decide,
    C1_store_packed2_native_layout Arch.ALTIVEC Elem.i16 (fun _ => 0) 32 (List.replicate 16 1)
      (List.replicate 16 2) (by decide) (by decide) (by decide)⟩

/-- C2: for every element type, every capability profile and every triple of
native 128-bit vectors `a`, `b`, `c`, after `store_packed3(p, a, b, c)` the
elements `3*i`, `3*i+1`, `3*i+2` of the region at `p` are lane `i` of `a`, `b`
and `c`, for every lane `i` (element `i` of vector `j` at byte offset
`(i*3 + j) * element_size`). -/
theorem C2_store_packed3_native_layout (arch : Arch) (T : Elem) (m : Mem) (p : Nat)
    (a b c : Vec) (ha : a.length = 16) (hb : b.length = 16) (hc : c.length = 16)
    (hp : p % 16 = 0) :
    ∀ i, i < 16 / T.size →
      readBytes (store_packed3 arch T m p a b c) (p + (i * 3 + 0) * T.size) T.size
        = el T.size a i ∧
      readBytes (store_packed3 arch T m p a b c) (p + (i * 3 + 1) * T.size) T.size
        = el T.size b i ∧
      readBytes (store_packed3 arch T m p a b c) (p + (i * 3 + 2) * T.size) T.size
        = el T.size c i := by
  intro i hi
  exact store_packed3_layout arch T m p a b c (by omega) (by omega) hp (Or.inl ha) i
    (by rw [ha]; exact hi)

theorem C2_store_packed3_native_layout_witness :
    (List.replicate 16 1).length = 16 ∧ (List.replicate 16 2).length = 16 ∧
    (List.replicate 16 3).length = 16 ∧ 48 % 16 = 0 ∧
    (∀ i, i < 16 / Elem.f64.size →
      readBytes (store_packed3 Arch.NEON Elem.f64 (fun _ => 0) 48 (List.replicate 16 1)
          (List.replicate 16 2) (List.replicate 16 3)) (48 + (i * 3 + 0) * Elem.f64.size)
          Elem.f64.size = el Elem.f64.size (List.replicate 16 1) i ∧
      readBytes (store_packed3 Arch.NEON Elem.f64 (fun _ => 0) 48 (List.replicate 16 1)
          (List.replicate 16 2) (List.replicate 16 3)) (48 + (i * 3 + 1) * Elem.f64.size)
          Elem.f64.size = el Elem.f64.size (List.replicate 16 2) i ∧
      readBytes (store_packed3 Arch.NEON Elem.f64 (fun _ => 0) 48 (List.replicate 16 1)
          (List.replicate 16 2) (List.replicate 16 3)) (48 + (i * 3 + 2) * Elem.f64.size)
          Elem.f64.size = el Elem.f64.size (List.replicate 16 3) i) :=
  ⟨by decide, by decide, by decide, by decide,
    C2_store_packed3_native_layout Arch.NEON Elem.f64 (fun _ => 0) 48 (List.replicate 16 1)
      (List.replicate 16 2) (List.replicate 16 3) (by decide) (by decide) (by decide)
      (by decide)⟩

theorem wide_lane_count (arch : Arch) (T : Elem) (k : Nat) :
    k * sizeof_base_vector arch T / T.size = k * (sizeof_base_vector arch T / T.size) := by
  have hne : sizeof_base_vector arch T / T.size * T.size = sizeof_base_vector arch T := by
    rcases sizeof_base_vector_cases arch T with h | h <;> rw [h]
    · exact (elem_size_mul T).1
    · exact (elem_size_mul T).2
  conv_lhs => rw [← hne, ← Nat.mul_assoc]
  exact Nat.mul_div_cancel _ (elem_size_pos T)

/-- C3: for `K` in `{2,3}` and wide vectors made of `k > 1` base vectors of
`veclen` bytes, `store_packedK` stores slice `s = 0..k-1` in order with the
base-vector store at byte offset `s * K * veclen` (the pointer advance
`veclen*K / sizeof(P)` is an exact division for pointer element sizes 1, 4 and
8), and global lane `i` of vector `j` lands at byte offset
`(i*K + j) * element_size` for every lane `i` of the wide vector. -/
theorem C3_store_packed_wide_slices (arch : Arch) (T : Elem) (m : Mem) (p : Nat)
    (a b c : Vec) (k : Nat) (hk : 1 < k)
    (ha : a.length = k * sizeof_base_vector arch T)
    (hb : b.length = k * sizeof_base_vector arch T)
    (hc : c.length = k * sizeof_base_vector arch T) (hp : p % 16 = 0) :
    (∀ sz, sz ∈ [sizeof_char, sizeof_float, sizeof_double] →
      sizeof_base_vector arch T * 2 / sz * sz = sizeof_base_vector arch T * 2 ∧
      sizeof_base_vector arch T * 3 / sz * sz = sizeof_base_vector arch T * 3) ∧
    store_packed2 arch T m p a b
      = (List.range k).foldl (fun (m1 : Mem) s =>
          store_packed2_base arch T m1 (p + s * 2 * sizeof_base_vector arch T)
            (base (sizeof_base_vector arch T) a s) (base (sizeof_base_vector arch T) b s)) m ∧
    store_packed3 arch T m p a b c
      = (List.range k).foldl (fun (m1 : Mem) s =>
          store_packed3_base arch T m1 (p + s * 3 * sizeof_base_vector arch T)
            (base (sizeof_base_vector arch T) a s) (base (sizeof_base_vector arch T) b s)
            (base (sizeof_base_vector arch T) c s)) m ∧
    (∀ i, i < k * (sizeof_base_vector arch T / T.size) →
      readBytes (store_packed2 arch T m p a b) (p + (i * 2 + 0) * T.size) T.size
        = el T.size a i ∧
      readBytes (store_packed2 arch T m p a b) (p + (i * 2 + 1) * T.size) T.size
        = el T.size b i) ∧
    (∀ i, i < k * (sizeof_base_vector arch T / T.size) →
      readBytes (store_packed3 arch T m p a b c) (p + (i * 3 + 0) * T.size) T.size
        = el T.size a i ∧
      readBytes (store_packed3 arch T m p a b c) (p + (i * 3 + 1) * T.size) T.size
        = el T.size b i ∧
      readBytes (store_packed3 arch T m p a b c) (p + (i * 3 + 2) * T.size) T.size
        = el T.size c i) := by
  have hv := sizeof_base_vector_cases arch T
  have h16 : a.length ≠ 16 := by
    rcases hv with h | h <;> rw [ha, h] <;> omega
  have h32 : ¬ (sizeof_base_vector arch T = 32 ∧ a.length = 32) := by
    rintro ⟨h, h2⟩
    rw [ha, h] at h2
    omega
  have hcount : a.length / T.size = k * (sizeof_base_vector arch T / T.size) := by
    rw [ha, wide_lane_count]
  refine ⟨?_, ?_, ?_, ?_, ?_⟩
  · intro sz hsz
    simp only [sizeof_char, sizeof_float, sizeof_double, List.mem_cons, List.mem_singleton,
      List.mem_nil_iff, or_false] at hsz
    rcases hv with h | h <;> rw [h] <;> rcases hsz with h1 | h1 | h1 <;> rw [h1] <;> decide
  · rw [store_packed2_template arch T m p a b h16 h32, v_store_pack2_fold arch T m p a b k ha]
    congr 1
    funext m1 s
    have h : s * (sizeof_base_vector arch T * 2) = s * 2 * sizeof_base_vector arch T := by ring
    rw [h]
  · rw [store_packed3_template arch T m p a b c h16 h32,
      v_store_pack3_fold arch T m p a b c k ha]
    congr 1
    funext m1 s
    have h : s * (sizeof_base_vector arch T * 3) = s * 3 * sizeof_base_vector arch T := by ring
    rw [h]
  · intro i hi
    exact store_packed2_layout arch T m p a b (by omega) hp (Or.inr ⟨k, ha⟩) i
      (by rw [hcount]; exact hi)
  · intro i hi
    exact store_packed3_layout arch T m p a b c (by omega) (by omega) hp (Or.inr ⟨k, ha⟩) i
      (by rw [hcount]; exact hi)

theorem C3_store_packed_wide_slices_witness :
    1 < 2 ∧ (List.replicate 32 1).length = 2 * sizeof_base_vector Arch.SSE2 Elem.i32 ∧ (List.replicate 32 2).length = 2 * sizeof_base_vector Arch.SSE2 Elem.i32 ∧
    (List.replicate 32 3).length = 2 * sizeof_base_vector Arch.SSE2 Elem.i32 ∧ 16 % 16 = 0 ∧
    ((∀ sz, sz ∈ [sizeof_char, sizeof_float, sizeof_double] →
      sizeof_base_vector Arch.SSE2 Elem.i32 * 2 / sz * sz = sizeof_base_vector Arch.SSE2 Elem.i32 * 2 ∧
      sizeof_base_vector Arch.SSE2 Elem.i32 * 3 / sz * sz = sizeof_base_vector Arch.SSE2 Elem.i32 * 3) ∧
    store_packed2 Arch.SSE2 Elem.i32 (fun _ => 0) 16 (List.replicate 32 1) (List.replicate 32 2)
      = (List.range 2).foldl (fun (m1 : Mem) s =>
          store_packed2_base Arch.SSE2 Elem.i32 m1 (16 + s * 2 * sizeof_base_vector Arch.SSE2 Elem.i32)
            (base (sizeof_base_vector Arch.SSE2 Elem.i32) (List.replicate 32 1) s) (base (sizeof_base_vector Arch.SSE2 Elem.i32) (List.replicate 32 2) s)) (fun _ => 0) ∧
    store_packed3 Arch.SSE2 Elem.i32 (fun _ => 0) 16 (List.replicate 32 1) (List.replicate 32 2) (List.replicate 32 3)
      = (List.range 2).foldl (fun (m1 : Mem) s =>
          store_packed3_base Arch.SSE2 Elem.i32 m1 (16 + s * 3 * sizeof_base_vector Arch.SSE2 Elem.i32)
            (base (sizeof_base_vector Arch.SSE2 Elem.i32) (List.replicate 32 1) s) (base (sizeof_base_vector Arch.SSE2 Elem.i32) (List.replicate 32 2) s)
            (base (sizeof_base_vector Arch.SSE2 Elem.i32) (List.replicate 32 3) s)) (fun _ => 0) ∧
    (∀ i, i < 2 * (sizeof_base_vector Arch.SSE2 Elem.i32 / Elem.i32.size) →
      readBytes (store_packed2 Arch.SSE2 Elem.i32 (fun _ => 0) 16 (List.replicate 32 1) (List.replicate 32 2)) (16 + (i * 2 + 0) * Elem.i32.size) Elem.i32.size
        = el Elem.i32.size (List.replicate 32 1) i ∧
      readBytes (store_packed2 Arch.SSE2 Elem.i32 (fun _ => 0) 16 (List.replicate 32 1) (List.replicate 32 2)) (16 + (i * 2 + 1) * Elem.i32.size) Elem.i32.size
        = el Elem.i32.size (List.replicate 32 2) i) ∧
    (∀ i, i < 2 * (sizeof_base_vector Arch.SSE2 Elem.i32 / Elem.i32.size) →
      readBytes (store_packed3 Arch.SSE2 Elem.i32 (fun _ => 0) 16 (List.replicate 32 1) (List.replicate 32 2) (List.replicate 32 3)) (16 + (i * 3 + 0) * Elem.i32.size)
        Elem.i32.size = el Elem.i32.size (List.replicate 32 1) i ∧
      readBytes (store_packed3 Arch.SSE2 Elem.i32 (fun _ => 0) 16 (List.replicate 32 1) (List.replicate 32 2) (List.replicate 32 3)) (16 + (i * 3 + 1) * Elem.i32.size)
        Elem.i32.size = el Elem.i32.size (List.replicate 32 2) i ∧
      readBytes (store_packed3 Arch.SSE2 Elem.i32 (fun _ => 0) 16 (List.replicate 32 1) (List.replicate 32 2) (List.replicate 32 3)) (16 + (i * 3 + 2) * Elem.i32.size)
        Elem.i32.size = el Elem.i32.size (List.replicate 32 3) i)) :=
  ⟨by decide, by decide, by decide, by decide, by decide,
    C3_store_packed_wide_slices Arch.SSE2 Elem.i32 (fun _ => 0) 16 (List.replicate 32 1) (List.replicate 32 2) (List.replicate 32 3) 2
      (by decide) (by decide) (by decide) (by decide) (by decide)⟩

/-- C4: for `K` in `{2,3}` and same-shape vectors (native or wide) of any element
type, under every capability profile, de-interleaving with `load_packedK` the
region written by `store_packedK(p, v1..vK)` returns exactly `(v1, .., vK)`. -/
theorem C4_store_load_packed_roundtrip (arch : Arch) (T : Elem) (m : Mem) (p : Nat)
    (a b c : Vec) (hb : b.length = a.length) (hc : c.length = a.length) (hp : p % 16 = 0)
    (hshape : a.length = 16 ∨ ∃ k, a.length = k * sizeof_base_vector arch T) :
    load_packed2 T.size (a.length / T.size) (store_packed2 arch T m p a b) p = (a, b) ∧
    load_packed3 T.size (a.length / T.size) (store_packed3 arch T m p a b c) p = (a, b, c) := by
  have hd := shape_div arch T a hshape
  have h2 := store_packed2_layout arch T m p a b hb hp hshape
  have h3 := store_packed3_layout arch T m p a b c hb hc hp hshape
  have hta : ∀ v : Vec, v.length = a.length →
      (List.range (a.length / T.size)).flatMap (el T.size v) = v := by
    intro v hvl
    rw [flatMap_el_range, hd, ← hvl, List.take_length]
  constructor
  · unfold load_packed2
    rw [flatMap_range_congr _ (el T.size a) _ (fun i hi => (h2 i hi).1),
      flatMap_range_congr _ (el T.size b) _ (fun i hi => (h2 i hi).2), hta a rfl, hta b hb]
  · unfold load_packed3
    rw [flatMap_range_congr _ (el T.size a) _ (fun i hi => (h3 i hi).1),
      flatMap_range_congr _ (el T.size b) _ (fun i hi => (h3 i hi).2.1),
      flatMap_range_congr _ (el T.size c) _ (fun i hi => (h3 i hi).2.2),
      hta a rfl, hta b hb, hta c hc]

theorem C4_store_load_packed_roundtrip_witness :
    (List.replicate 16 2).length = (List.replicate 16 1).length ∧
    (List.replicate 16 3).length = (List.replicate 16 1).length ∧ 64 % 16 = 0 ∧
    ((List.replicate 16 1).length = 16 ∨
      ∃ k, (List.replicate 16 1).length = k * sizeof_base_vector Arch.NULL Elem.i8) ∧
    (load_packed2 Elem.i8.size ((List.replicate 16 1).length / Elem.i8.size)
        (store_packed2 Arch.NULL Elem.i8 (fun _ => 0) 64 (List.replicate 16 1)
          (List.replicate 16 2)) 64 = (List.replicate 16 1, List.replicate 16 2) ∧
      load_packed3 Elem.i8.size ((List.replicate 16 1).length / Elem.i8.size)
        (store_packed3 Arch.NULL Elem.i8 (fun _ => 0) 64 (List.replicate 16 1)
          (List.replicate 16 2) (List.replicate 16 3)) 64
        = (List.replicate 16 1, List.replicate 16 2, List.replicate 16 3)) :=
  ⟨by decide, by decide, by decide, Or.inl (by decide),
    C4_store_load_packed_roundtrip Arch.NULL Elem.i8 (fun _ => 0) 64 (List.replicate 16 1)
      (List.replicate 16 2) (List.replicate 16 3) (by decide) (by decide) (by decide)
      (Or.inl (by decide))⟩

/-! ## `move_r`: the byte shift of one 128-bit vector -/

theorem ext_getD (l1 l2 : List Nat) (hlen : l1.length = l2.length)
    (h : ∀ j, j < l1.length → l1.getD j 0 = l2.getD j 0) : l1 = l2 := by
  apply List.ext_getElem hlen
  intro j h1 h2
  have := h j h1
  rw [List.getD_eq_getElem _ _ h1, List.getD_eq_getElem _ _ h2] at this
  exact this

theorem getD_set (r : List Nat) (x v j : Nat) :
    (r.set x v).getD j 0 = if x = j ∧ j < r.length then v else r.getD j 0 := by
  rw [List.getD_eq_getElem?_getD, List.getD_eq_getElem?_getD, List.getElem?_set]
  by_cases hx : x = j
  · subst hx
    by_cases hl : x < r.length
    · simp [hl]
    · have hnone : r[x]? = none := List.getElem?_eq_none (by omega)
      simp [hl, hnone]
  · simp [hx]

theorem foldl_set_length (g : Nat → Nat) :
    ∀ (l r : List Nat), (l.foldl (fun r i => r.set i (g i)) r).length = r.length := by
  intro l
  induction l with
  | nil => intro r; rfl
  | cons x xs ih =>
    intro r
    rw [List.foldl_cons, ih, List.length_set]

theorem foldl_set_getD (g : Nat → Nat) :
    ∀ (l r : List Nat) (j : Nat),
      (l.foldl (fun r i => r.set i (g i)) r).getD j 0
        = if j ∈ l ∧ j < r.length then g j else r.getD j 0 := by
  intro l
  induction l with
  | nil => intro r j; simp
  | cons x xs ih =>
    intro r j
    rw [List.foldl_cons, ih, List.length_set, getD_set]
    by_cases hj : j < r.length
    · by_cases hxs : j ∈ xs
      · simp [hxs, hj]
      · by_cases hx : x = j
        · subst hx
          simp [hxs, hj]
        · have hx2 : ¬ j = x := fun h => hx h.symm
          simp [hxs, hj, hx, hx2]
    · have h0 : r.getD j 0 = 0 := by
        rw [List.getD_eq_default]
        omega
      simp [hj, h0]

theorem shifted_length (n : Nat) (a : Vec) (ha : a.length = 16) :
    ((List.replicate n 0 ++ a).take 16).length = 16 := by
  rw [List.length_take, List.length_append, List.length_replicate, ha]
  omega

theorem shifted_getD (n : Nat) (a : Vec) (j : Nat) (hj : j < 16) :
    ((List.replicate n 0 ++ a).take 16).getD j 0 = if j < n then 0 else a.getD (j - n) 0 := by
  rw [List.getD_eq_getElem?_getD, List.getElem?_take_of_lt hj]
  by_cases h : j < n
  · rw [if_pos h, List.getElem?_append_left (by rw [List.length_replicate]; exact h)]
    simp [h]
  · rw [if_neg h, List.getElem?_append_right (by rw [List.length_replicate]; omega),
      List.length_replicate, List.getD_eq_getElem?_getD]

theorem move_r_null_loops_eq (shift : Nat) (r0 a : Vec)
    (ha : a.length = 16) (hr : r0.length = 16) :
    move_r_null_loops shift r0 a = (List.replicate shift 0 ++ a).take 16 := by
  unfold move_r_null_loops
  apply ext_getD
  · rw [foldl_set_length (fun i => a.getD (i - shift) 0),
      foldl_set_length (fun _ => 0), hr, shifted_length shift a ha]
  · intro j hj
    rw [foldl_set_length (fun i => a.getD (i - shift) 0),
      foldl_set_length (fun _ => 0), hr] at hj
    rw [shifted_getD shift a j hj, foldl_set_getD (fun i => a.getD (i - shift) 0),
      foldl_set_length (fun _ => 0), foldl_set_getD (fun _ => 0), hr]
    by_cases h : j < shift
    · have h1 : ¬ shift ≤ j := by omega
      simp [h, h1, hj]
    · have h1 : shift ≤ j := by omega
      simp [h, h1, hj]

theorem align_zero_eq (shift : Nat) (a : Vec) (hs : shift ≤ 16) :
    ((zero 16 ++ a).drop (16 - shift)).take 16 = (List.replicate shift 0 ++ a).take 16 := by
  have h1 : zero 16 = List.replicate (16 - shift) 0 ++ List.replicate shift 0 := by
    unfold zero
    rw [← List.replicate_add]
    congr 1
    omega
  rw [h1, List.append_assoc]
  have h2 : (List.replicate (16 - shift) 0).length = 16 - shift := List.length_replicate _ _
  rw [List.drop_left' h2]

theorem move_r_gint8x16_eq (arch : Arch) (shift : Nat) (r0 a : Vec) (hs : shift ≤ 16)
    (ha : a.length = 16) (hr : r0.length = 16) :
    move_r_gint8x16 arch shift r0 a = some ((List.replicate shift 0 ++ a).take 16) := by
  unfold move_r_gint8x16
  have hn : ¬ ¬ shift ≤ 16 := by omega
  rw [if_neg hn]
  by_cases h0 : shift = 0
  · rw [if_pos h0, h0]
    simp [← ha]
  rw [if_neg h0]
  by_cases h16 : shift = 16
  · rw [if_pos h16, h16]
    simp [zero]
  rw [if_neg h16]
  have hl := move_r_null_loops_eq shift r0 a ha hr
  have hal := align_zero_eq shift a hs
  cases arch <;>
    simp [SIMDPP_USE_NULL, SIMDPP_USE_SSE2, SIMDPP_USE_NEON, SIMDPP_USE_ALTIVEC, hl,
      _mm_slli_si128, neon.detail.align, vec_sld, hal]

theorem shifted_lanes (e s : Nat) (a : Vec) (i : Nat) (hi : (i + 1) * e ≤ 16) :
    (s ≤ i → el e ((List.replicate (s * e) 0 ++ a).take 16) i = el e a (i - s)) ∧
    (i < s → el e ((List.replicate (s * e) 0 ++ a).take 16) i = List.replicate e 0) := by
  have h1 : (i + 1) * e = i * e + e := by ring
  have h2 : el e ((List.replicate (s * e) 0 ++ a).take 16) i
      = ((List.replicate (s * e) 0 ++ a).drop (i * e)).take e := by
    unfold el
    rw [List.drop_take, List.take_take]
    congr 1
    omega
  rw [h2]
  constructor
  · intro hsi
    have h3 : s * e ≤ i * e := Nat.mul_le_mul_right e hsi
    rw [List.drop_append_eq_append_drop, List.length_replicate,
      List.drop_eq_nil_of_le (by rw [List.length_replicate]; exact h3), List.nil_append,
      ← Nat.sub_mul]
    rfl
  · intro his
    have h3 : (i + 1) * e ≤ s * e := Nat.mul_le_mul_right e his
    rw [List.drop_append_of_le_length (by rw [List.length_replicate]; omega),
      List.drop_replicate, List.take_append_of_le_length (by rw [List.length_replicate]; omega),
      List.take_replicate]
    congr 1
    omega

/-! ## Claims on `move_r` -/

/-- C5: for every native 16-lane 8-bit vector `a`, every capability profile and
every shift `0 < s < 16`, `move_r<s>(a)` returns a vector whose lane `i` is lane
`i-s` of `a` for `i >= s` and zero for `i < s` (whatever the local `r` of the
fallback path held before its loops). -/
theorem C5_move_r_8bit_lanes (arch : Arch) (s : Nat) (r0 a : Vec) (hs0 : 0 < s) (hs : s < 16)
    (ha : a.length = 16) (hr : r0.length = 16) :
    ∃ r, move_r arch .i8 s r0 a = some r ∧ r.length = 16 ∧
      ∀ i, i < 16 →
        (s ≤ i → el 1 r i = el 1 a (i - s)) ∧ (i < s → el 1 r i = [0]) := by
  refine ⟨(List.replicate s 0 ++ a).take 16, ?_, shifted_length s a ha, ?_⟩
  · simp only [move_r, move_r_8, ha, if_true]
    exact move_r_gint8x16_eq arch s r0 a (by omega) ha hr
  · intro i hi
    have h := shifted_lanes 1 s a i (by omega)
    rw [Nat.mul_one] at h
    exact h

theorem C5_move_r_8bit_lanes_witness :
    0 < 3 ∧ 3 < 16 ∧ (List.range 16).length = 16 ∧ (List.replicate 16 7).length = 16 ∧
    ∃ r, move_r Arch.NULL .i8 3 (List.replicate 16 7) (List.range 16) = some r ∧ r.length = 16 ∧
      ∀ i, i < 16 →
        (3 ≤ i → el 1 r i = el 1 (List.range 16) (i - 3)) ∧ (i < 3 → el 1 r i = [0]) :=
  ⟨by decide, by decide, by decide, by decide,
    C5_move_r_8bit_lanes Arch.NULL 3 (List.replicate 16 7) (List.range 16) (by decide)
      (by decide) (by decide) (by decide)⟩

theorem move_r_8_zero_shift (arch : Arch) (r0 a : Vec) : move_r_8 arch 0 r0 a = some a := by
  unfold move_r_8
  split_ifs <;> simp [move_r_gint8x16, move_r_gint8x32, move_r_gint8]

theorem move_r_8_full_shift (arch : Arch) (r0 a : Vec) :
    move_r_8 arch 16 r0 a = some (zero a.length) := by
  unfold move_r_8
  split_ifs with h1 h2
  · simp [move_r_gint8x16, h1]
  · simp [move_r_gint8x32, h2.2]
  · simp [move_r_gint8]

theorem move_r_8_rejected (arch : Arch) (n : Nat) (r0 a : Vec) (h : 16 < n) :
    move_r_8 arch n r0 a = none := by
  have hn : ¬ n ≤ 16 := by omega
  unfold move_r_8
  split_ifs <;> simp [move_r_gint8x16, move_r_gint8x32, move_r_gint8, hn]

theorem move_r_full_shift (arch : Arch) (T : Elem) (r0 a : Vec) :
    move_r arch T (16 / T.size) r0 a = some (zero a.length) := by
  cases T <;>
    simp [move_r, move_r_gint16, move_r_gint32, move_r_gint64, move_r_float32, move_r_float64,
      unsigned_mul, Elem.size, move_r_8_full_shift]

/-- C6: `move_r<0>(a) == a` for every vector `a` of every element type, of every
width (native or wide) and under every capability profile. -/
theorem C6_move_r_zero_is_identity (arch : Arch) (T : Elem) (r0 a : Vec) :
    move_r arch T 0 r0 a = some a := by
  cases T <;>
    simp [move_r, move_r_gint16, move_r_gint32, move_r_gint64, move_r_float32, move_r_float64,
      unsigned_mul, move_r_8_zero_shift]

/-- C7: for every vector `a` whose 128-bit group holds `W = 16 / element_size`
lanes (16, 8, 4, 2 lanes for 8-, 16-, 32-, 64-bit elements), `move_r<W>(a)` is
the all-zero vector of the same shape, for every width and capability profile. -/
theorem C7_move_r_full_shift_is_zero (arch : Arch) (T : Elem) (r0 a : Vec) :
    move_r arch T (16 / T.size) r0 a = some (zero a.length) :=
  move_r_full_shift arch T r0 a

/-- C8, as stated, fails: a native 16-lane 8-bit vector has `lane_count = 16`, the
shift 17 is at least `lane_count`, and `move_r<17>` is rejected by the static
assertion, so no all-zero vector is produced. -/
theorem C8_counterexample :
    (List.replicate 16 1).length / Elem.i8.size ≤ 17 ∧
    move_r Arch.NULL Elem.i8 17 (zero 16) (List.replicate 16 1) = none ∧
    move_r Arch.NULL Elem.i8 17 (zero 16) (List.replicate 16 1)
      ≠ some (zero (List.replicate 16 1).length) := by
  decide

/-- C8, amended: for every vector `a` (a positive multiple of 128 bits) of every
element type and every shift `>= lane_count` whose byte shift `shift * element_size`
does not wrap around `2^32`, `move_r<shift>(a)` is the all-zero vector when
`shift` is `W = 16 / element_size`, and is rejected by the static assertion for
every other shift. -/
theorem C8_move_r_shift_ge_lane_count (arch : Arch) (T : Elem) (shift : Nat) (r0 a : Vec)
    (hpos : 0 < a.length) (h16 : a.length % 16 = 0) (hge : a.length / T.size ≤ shift)
    (hno : shift * T.size < 2 ^ 32) :
    (shift = 16 / T.size → move_r arch T shift r0 a = some (zero a.length)) ∧
    (shift ≠ 16 / T.size → move_r arch T shift r0 a = none) := by
  constructor
  · intro h
    rw [h]
    exact move_r_full_shift arch T r0 a
  · intro h
    cases T <;>
      simp only [Elem.size, Nat.div_one, Nat.mul_one, Nat.reduceDiv] at hge hno h <;>
      simp only [move_r, move_r_gint16, move_r_gint32, move_r_gint64, move_r_float32,
        move_r_float64, unsigned_mul] <;>
      exact move_r_8_rejected arch _ r0 a (by omega)

theorem C8_move_r_shift_ge_lane_count_witness :
    0 < (List.replicate 16 1).length ∧ (List.replicate 16 1).length % 16 = 0 ∧
    (List.replicate 16 1).length / Elem.i16.size ≤ 8 ∧ 8 * Elem.i16.size < 2 ^ 32 ∧
    ((8 = 16 / Elem.i16.size →
      move_r Arch.SSE2 Elem.i16 8 (zero 16) (List.replicate 16 1)
        = some (zero (List.replicate 16 1).length)) ∧
    (8 ≠ 16 / Elem.i16.size →
      move_r Arch.SSE2 Elem.i16 8 (zero 16) (List.replicate 16 1) = none)) :=
  ⟨by decide, by decide, by decide, by decide,
    C8_move_r_shift_ge_lane_count Arch.SSE2 Elem.i16 8 (zero 16) (List.replicate 16 1)
      (by decide) (by decide) (by decide) (by decide)⟩

/-- C9: the shift `2^31` on 16-bit lanes is out of range (it exceeds 8), yet the
forwarded byte shift `2^31 * 2` wraps to 0 in `unsigned` arithmetic, the static
assertion `shift <= 16` of the 8-bit `move_r` holds, and the call returns `a`. -/
theorem C9_move_r_wrapped_shift_is_accepted :
    8 < 2147483648 ∧ unsigned_mul 2147483648 2 = 0 ∧
    move_r Arch.NULL Elem.i16 2147483648 (zero 16) (List.range 16) = some (List.range 16) := by
  refine ⟨by decide, by decide, ?_⟩
  have h : unsigned_mul 2147483648 2 = 0 := by decide
  simp only [move_r, move_r_gint16, h]
  exact move_r_8_zero_shift Arch.NULL (zero 16) (List.range 16)

/-- C10: for 16-, 32- and 64-bit integer elements (element size `e`, `W = 16/e`
lanes per 128-bit vector), every capability profile and every `0 <= s <= W`,
`move_r<s>(a)` is the 8-bit `move_r` by `s*e` bytes on the bytes of `a`, and its
lane `i` is lane `i-s` of `a` for `i >= s` and zero for `i < s`. -/
theorem C10_move_r_wide_elements_lanes (arch : Arch) (T : Elem) (s : Nat) (r0 a : Vec)
    (hT : T = .i16 ∨ T = .i32 ∨ T = .i64) (hs : s ≤ 16 / T.size)
    (ha : a.length = 16) (hr : r0.length = 16) :
    move_r arch T s r0 a = move_r_8 arch (s * T.size) r0 a ∧
    ∃ r, move_r arch T s r0 a = some r ∧ r.length = 16 ∧
      ∀ i, i < 16 / T.size →
        (s ≤ i → el T.size r i = el T.size a (i - s)) ∧
        (i < s → el T.size r i = List.replicate T.size 0) := by
  have hbytes : s * T.size ≤ 16 := by
    rcases hT with h | h | h <;> subst h <;> simp only [Elem.size] at hs ⊢ <;> omega
  have hfwd : move_r arch T s r0 a = move_r_8 arch (s * T.size) r0 a := by
    have hlt : s * T.size < 2 ^ 32 := by omega
    rcases hT with h | h | h <;> subst h <;>
      simp only [Elem.size] at hlt ⊢ <;>
      simp only [move_r, move_r_gint16, move_r_gint32, move_r_gint64, unsigned_mul,
        Nat.mod_eq_of_lt hlt]
  refine ⟨hfwd, (List.replicate (s * T.size) 0 ++ a).take 16, ?_,
    shifted_length (s * T.size) a ha, ?_⟩
  · rw [hfwd]
    simp only [move_r_8, ha, if_true]
    exact move_r_gint8x16_eq arch (s * T.size) r0 a hbytes ha hr
  · intro i hi
    apply shifted_lanes T.size s a i
    rcases hT with h | h | h <;> subst h <;> simp only [Elem.size] at hi ⊢ <;> omega

theorem C10_move_r_wide_elements_lanes_witness :
    (Elem.i32 = .i16 ∨ Elem.i32 = .i32 ∨ Elem.i32 = .i64) ∧ 1 ≤ 16 / Elem.i32.size ∧
    (List.range 16).length = 16 ∧ (List.replicate 16 9).length = 16 ∧
    (move_r Arch.NEON Elem.i32 1 (List.replicate 16 9) (List.range 16)
        = move_r_8 Arch.NEON (1 * Elem.i32.size) (List.replicate 16 9) (List.range 16) ∧
    ∃ r, move_r Arch.NEON Elem.i32 1 (List.replicate 16 9) (List.range 16) = some r ∧
      r.length = 16 ∧
      ∀ i, i < 16 / Elem.i32.size →
        (1 ≤ i → el Elem.i32.size r i = el Elem.i32.size (List.range 16) (i - 1)) ∧
        (i < 1 → el Elem.i32.size r i = List.replicate Elem.i32.size 0)) :=
  ⟨by decide, by decide, by decide, by decide,
    C10_move_r_wide_elements_lanes Arch.NEON Elem.i32 1 (List.replicate 16 9) (List.range 16)
      (by decide) (by decide) (by decide) (by decide)⟩

/-! ## `move_r` on wide vectors -/

theorem vec_array_impl1_eq (veclen : Nat) (op : Vec → Option Vec) (h : Vec → Vec) (a : Vec) :
    ∀ n : Nat, (∀ i, i < n → op (base veclen a i) = some (h (base veclen a i))) →
      (List.range n).foldl
        (fun r i => r.bind (fun rs => (op (base veclen a i)).map (fun x => rs ++ x))) (some [])
        = some ((List.range n).flatMap (fun i => h (base veclen a i))) := by
  intro n
  induction n with
  | zero => intro _; rfl
  | succ n ih =>
    intro hop
    rw [List.range_succ, List.foldl_append, ih (fun i hi => hop i (Nat.lt_succ_of_lt hi))]
    simp [hop n (Nat.lt_succ_self n)]

theorem flatMap_range_pairs (f : Nat → List Nat) :
    ∀ k : Nat, (List.range k).flatMap (fun i => f (i * 2 + 0) ++ f (i * 2 + 1))
      = (List.range (k * 2)).flatMap f := by
  intro k
  induction k with
  | zero => rfl
  | succ k ih =>
    rw [List.range_succ, List.flatMap_append, ih, Nat.succ_mul, List.range_succ, List.range_succ]
    simp [List.flatMap_append]

theorem move_r_gint8x32_eq (shift : Nat) (a : Vec) (hs : shift ≤ 16) (ha : a.length = 32) :
    move_r_gint8x32 shift a
      = some (_mm_slli_si128 (el 16 a 0) shift ++ _mm_slli_si128 (el 16 a 1) shift) := by
  unfold move_r_gint8x32
  have hn : ¬ ¬ shift ≤ 16 := by omega
  rw [if_neg hn]
  have h1 : (a.take 16).length = 16 := by rw [List.length_take]; omega
  have h2 : ((a.drop 16).take 16).length = 16 := by
    rw [List.length_take, List.length_drop]; omega
  by_cases h0 : shift = 0
  · rw [if_pos h0, h0]
    simp only [_mm_slli_si128, el, List.replicate_zero, List.nil_append, Nat.zero_mul,
      List.drop_zero, Nat.one_mul, List.take_take, Nat.min_self]
    have h3 : (a.drop 16).take 16 = a.drop 16 :=
      List.take_of_length_le (by rw [List.length_drop]; omega)
    rw [h3, List.take_append_drop]
  rw [if_neg h0]
  by_cases h16 : shift = 16
  · rw [if_pos h16, h16]
    simp [_mm_slli_si128, zero, ← List.replicate_add]
  rw [if_neg h16]
  simp [_mm256_slli_si256, el]

theorem move_r_8_groups (arch : Arch) (n : Nat) (r0 a : Vec) (hn0 : 0 < n) (hn : n < 16)
    (hr : r0.length = 16)
    (hshape : a.length = 16 ∨ ∃ k, a.length = k * sizeof_base_vector arch .i8) :
    move_r_8 arch n r0 a
      = some ((List.range (a.length / 16)).flatMap (fun g => _mm_slli_si128 (el 16 a g) n)) := by
  unfold move_r_8
  by_cases h16 : a.length = 16
  · rw [if_pos h16, move_r_gint8x16_eq arch n r0 a (by omega) h16 hr, h16]
    have h1 : el 16 a 0 = a := by
      unfold el
      rw [Nat.zero_mul, List.drop_zero, ← h16, List.take_length]
    simp [_mm_slli_si128, h1, List.range_succ]
  rw [if_neg h16]
  by_cases h32 : SIMDPP_USE_AVX2 arch = true ∧ a.length = 32
  · rw [if_pos h32, move_r_gint8x32_eq n a (by omega) h32.2, h32.2]
    simp [List.range_succ]
  rw [if_neg h32]
  rcases hshape with h | ⟨k, hk⟩
  · exact absurd h h16
  unfold move_r_gint8
  have hn1 : ¬ ¬ n ≤ 16 := by omega
  have hn2 : ¬ n = 0 := by omega
  have hn3 : ¬ n = 16 := by omega
  rw [if_neg hn1, if_neg hn2, if_neg hn3]
  unfold SIMDPP_VEC_ARRAY_IMPL1
  have hbl : ∀ i, i < k → (base (sizeof_base_vector arch .i8) a i).length
      = sizeof_base_vector arch .i8 := by
    intro i hi
    apply base_length
    rw [hk]
    exact Nat.mul_le_mul_right _ hi
  by_cases hav : SIMDPP_USE_AVX2 arch = true
  · have hv : sizeof_base_vector arch .i8 = 32 := by
      simp [sizeof_base_vector, Elem.isFloat, hav]
    rw [hv] at hk hbl ⊢
    have hvl : vec_length 32 a = k := by
      unfold vec_length
      rw [hk]
      omega
    rw [hvl, vec_array_impl1_eq 32 (move_r_base arch n r0)
      (fun v => _mm_slli_si128 (el 16 v 0) n ++ _mm_slli_si128 (el 16 v 1) n) a k]
    · have h2 : a.length / 16 = k * 2 := by rw [hk]; omega
      rw [h2, ← flatMap_range_pairs (fun g => _mm_slli_si128 (el 16 a g) n) k]
      congr 1
      apply flatMap_range_congr
      intro i _
      rw [base_eq_el]
      have e0 := el_el 16 2 a i 0 (by omega)
      have e1 := el_el 16 2 a i 1 (by omega)
      simp only [Nat.reduceMul] at e0 e1
      rw [e0, e1]
    · intro i hi
      simp only [move_r_base, hav, if_true]
      exact move_r_gint8x32_eq n _ (by omega) (hbl i hi)
  · have hv : sizeof_base_vector arch .i8 = 16 := by
      simp [sizeof_base_vector, Elem.isFloat, hav]
    rw [hv] at hk hbl ⊢
    have hvl : vec_length 16 a = k := by
      unfold vec_length
      rw [hk]
      omega
    rw [hvl, vec_array_impl1_eq 16 (move_r_base arch n r0) (fun v => _mm_slli_si128 v n) a k]
    · have h2 : a.length / 16 = k := by rw [hk]; omega
      rw [h2]
      rfl
    · intro i hi
      simp only [move_r_base, hav]
      exact move_r_gint8x16_eq arch n r0 _ (by omega) (hbl i hi) hr

theorem slli_length (n : Nat) (v : Vec) (hv : v.length = 16) :
    (_mm_slli_si128 v n).length = 16 :=
  shifted_length n v hv

theorem move_r_groups_lanes (e w s : Nat) (a : Vec) (hw : w * e = 16) (k : Nat)
    (ha : a.length = k * 16) (g i : Nat) (hg : g < k) (hi : i < w) :
    (s ≤ i → el e ((List.range k).flatMap (fun g => _mm_slli_si128 (el 16 a g) (s * e)))
        (g * w + i) = el e a (g * w + (i - s))) ∧
    (i < s → el e ((List.range k).flatMap (fun g => _mm_slli_si128 (el 16 a g) (s * e)))
        (g * w + i) = List.replicate e 0) := by
  have hgl : ∀ j, j < k → (el 16 a j).length = 16 := by
    intro j hj
    apply el_length
    rw [ha]
    exact Nat.mul_le_mul_right _ hj
  have hch : el (w * e) ((List.range k).flatMap
      (fun g => _mm_slli_si128 (el 16 a g) (s * e))) g = _mm_slli_si128 (el 16 a g) (s * e) := by
    rw [hw]
    apply el_flatMap_range (fun g => _mm_slli_si128 (el 16 a g) (s * e)) 16 k _ g hg
    intro j hj
    exact slli_length _ _ (hgl j hj)
  have hie : (i + 1) * e ≤ 16 := by
    rw [← hw]
    exact Nat.mul_le_mul_right e hi
  have hsl := shifted_lanes e s (el 16 a g) i hie
  have hback : ∀ j, j < w → el e (el 16 a g) j = el e a (g * w + j) := by
    intro j hj
    have := el_el e w a g j hj
    rw [hw] at this
    exact this
  rw [← el_el e w _ g i hi, hch]
  constructor
  · intro hsi
    have h := hsl.1 hsi
    unfold _mm_slli_si128
    rw [h, hback (i - s) (by omega)]
  · intro his
    exact hsl.2 his

theorem move_r_forward (arch : Arch) (T : Elem) (s : Nat) (r0 a : Vec)
    (h : s * T.size < 2 ^ 32) :
    move_r arch T s r0 a = move_r_8 arch (s * T.size) r0 a := by
  cases T <;> simp only [Elem.size] at h ⊢ <;>
    simp only [move_r, move_r_gint16, move_r_gint32, move_r_gint64, move_r_float32,
      move_r_float64, unsigned_mul, Nat.mod_eq_of_lt h, Nat.mul_one]

/-- C11: for a vector made of whole base vectors (256 bits or more in particular),
of any element type and under every capability profile, and every shift
`0 < s < W`, `move_r<s>` handles each
128-bit part as the 128-bit `move_r` applied to that part alone: within group
`g`, lane `g*W+i` of the result is lane `g*W+i-s` of `a` for `i >= s` and zero
for `i < s`, so no lane crosses a 128-bit boundary. -/
theorem C11_move_r_wide_per_group (arch : Arch) (T : Elem) (s : Nat) (r0 a : Vec)
    (hs0 : 0 < s) (hs : s < 16 / T.size) (hr : r0.length = 16)
    (hshape : ∃ k, a.length = k * sizeof_base_vector arch .i8) :
    ∃ r, move_r arch T s r0 a = some r ∧ r.length = a.length ∧
      (∀ g, g < a.length / 16 → move_r arch T s r0 (el 16 a g) = some (el 16 r g)) ∧
      ∀ g, g < a.length / 16 → ∀ i, i < 16 / T.size →
        (s ≤ i → el T.size r (g * (16 / T.size) + i)
          = el T.size a (g * (16 / T.size) + (i - s))) ∧
        (i < s → el T.size r (g * (16 / T.size) + i) = List.replicate T.size 0) := by
  have hw := (elem_size_mul T).1
  have hse : s * T.size < 16 := by
    rw [← hw]
    exact Nat.mul_lt_mul_of_pos_right hs (elem_size_pos T)
  have hse0 : 0 < s * T.size := Nat.mul_pos hs0 (elem_size_pos T)
  have hdiv : a.length / 16 * 16 = a.length := by
    obtain ⟨k, hk⟩ := hshape
    rcases sizeof_base_vector_cases arch .i8 with h | h <;> rw [h] at hk <;> omega
  have hgl : ∀ j, j < a.length / 16 → (el 16 a j).length = 16 := by
    intro j hj
    apply el_length
    rw [← hdiv]
    exact Nat.mul_le_mul_right _ hj
  have hfw : ∀ v : Vec, move_r arch T s r0 v = move_r_8 arch (s * T.size) r0 v :=
    fun v => move_r_forward arch T s r0 v (by omega)
  refine ⟨(List.range (a.length / 16)).flatMap
    (fun g => _mm_slli_si128 (el 16 a g) (s * T.size)), ?_, ?_, ?_, ?_⟩
  · rw [hfw]
    exact move_r_8_groups arch (s * T.size) r0 a hse0 hse hr (Or.inr hshape)
  · rw [length_flatMap_range _ 16 _ (fun j hj => slli_length _ _ (hgl j hj)), hdiv]
  · intro g hg
    rw [hfw, el_flatMap_range (fun g => _mm_slli_si128 (el 16 a g) (s * T.size)) 16 _
      (fun j hj => slli_length _ _ (hgl j hj)) g hg]
    simp only [move_r_8, hgl g hg, if_true]
    exact move_r_gint8x16_eq arch (s * T.size) r0 _ (by omega) (hgl g hg) hr
  · intro g hg i hi
    exact move_r_groups_lanes T.size (16 / T.size) s a hw (a.length / 16) hdiv.symm g i hg hi

theorem C11_move_r_wide_per_group_witness :
    0 < 1 ∧ 1 < 16 / Elem.i32.size ∧ (List.replicate 16 7).length = 16 ∧
    (∃ k, (List.range 32).length = k * sizeof_base_vector Arch.AVX2 .i8) ∧
    ∃ r, move_r Arch.AVX2 Elem.i32 1 (List.replicate 16 7) (List.range 32) = some r ∧
      r.length = (List.range 32).length ∧
      (∀ g, g < (List.range 32).length / 16 →
        move_r Arch.AVX2 Elem.i32 1 (List.replicate 16 7) (el 16 (List.range 32) g)
          = some (el 16 r g)) ∧
      ∀ g, g < (List.range 32).length / 16 → ∀ i, i < 16 / Elem.i32.size →
        (1 ≤ i → el Elem.i32.size r (g * (16 / Elem.i32.size) + i)
          = el Elem.i32.size (List.range 32) (g * (16 / Elem.i32.size) + (i - 1))) ∧
        (i < 1 → el Elem.i32.size r (g * (16 / Elem.i32.size) + i)
          = List.replicate Elem.i32.size 0) :=
  ⟨by decide, by decide, by decide, ⟨1, by decide⟩,
    C11_move_r_wide_per_group Arch.AVX2 Elem.i32 1 (List.replicate 16 7) (List.range 32)
      (by decide) (by decide) (by decide) ⟨1, by decide⟩⟩

/-- C21: backend equivalence of `move_r` on a 16-lane 8-bit vector: for every
`0 < s < 16` and every `a`, the SSE2 path (`_mm_slli_si128(a, s)`), the NEON
path (`align<16-s>(zero, a)`) and the ALTIVEC path (`vec_sld(zero, a, 16-s)`)
each return the vector of the two fallback loops, so `move_r<s>(a)` is the same
under every capability profile. -/
theorem C21_move_r_backend_equivalence (s : Nat) (r0 a : Vec) (hs0 : 0 < s) (hs : s < 16)
    (ha : a.length = 16) (hr : r0.length = 16) :
    _mm_slli_si128 a s = move_r_null_loops s r0 a ∧
    neon.detail.align (16 - s) (zero 16) a = move_r_null_loops s r0 a ∧
    vec_sld (zero 16) a (16 - s) = move_r_null_loops s r0 a ∧
    ∀ arch, move_r_gint8x16 arch s r0 a = move_r_gint8x16 Arch.NULL s r0 a := by
  have hl := move_r_null_loops_eq s r0 a ha hr
  have hal := align_zero_eq s a (by omega)
  refine ⟨?_, ?_, ?_, ?_⟩
  · rw [hl]; rfl
  · rw [hl]; exact hal
  · rw [hl]; exact hal
  · intro arch
    rw [move_r_gint8x16_eq arch s r0 a (by omega) ha hr,
      move_r_gint8x16_eq Arch.NULL s r0 a (by omega) ha hr]

theorem C21_move_r_backend_equivalence_witness :
    0 < 5 ∧ 5 < 16 ∧ (List.range 16).length = 16 ∧ (List.replicate 16 9).length = 16 ∧
    (_mm_slli_si128 (List.range 16) 5 = move_r_null_loops 5 (List.replicate 16 9) (List.range 16) ∧
    neon.detail.align (16 - 5) (zero 16) (List.range 16)
      = move_r_null_loops 5 (List.replicate 16 9) (List.range 16) ∧
    vec_sld (zero 16) (List.range 16) (16 - 5)
      = move_r_null_loops 5 (List.replicate 16 9) (List.range 16) ∧
    ∀ arch, move_r_gint8x16 arch 5 (List.replicate 16 9) (List.range 16)
      = move_r_gint8x16 Arch.NULL 5 (List.replicate 16 9) (List.range 16)) :=
  ⟨by decide, by decide, by decide, by decide,
    C21_move_r_backend_equivalence 5 (List.replicate 16 9) (List.range 16) (by decide)
      (by decide) (by decide) (by decide)⟩

/-! ## `store` on wide vectors -/

theorem flatMap_base_range (veclen : Nat) (a : Vec) (n : Nat) :
    (List.range n).flatMap (fun i => base veclen a i) = a.take (n * veclen) :=
  flatMap_el_range veclen a n

theorem store_loop_eq (arch : Arch) (T : Elem) (m : Mem) (p : Nat) (a : Vec) (n : Nat)
    (hp : p % 16 = 0) (hn : n * sizeof_base_vector arch T ≤ a.length) :
    (List.range n).foldl
      (fun (s : Mem × Nat) i =>
        (store_base arch T (sizeof_base_vector arch T) s.1 s.2
          (base (sizeof_base_vector arch T) a i), s.2 + sizeof_base_vector arch T))
      (m, p) = (write m p (a.take (n * sizeof_base_vector arch T)),
        p + n * sizeof_base_vector arch T) := by
  rw [foldl_store_chunks (fun m1 q i => store_base arch T (sizeof_base_vector arch T) m1 q
    (base (sizeof_base_vector arch T) a i)) (fun i => base (sizeof_base_vector arch T) a i)
    (sizeof_base_vector arch T) m p n, flatMap_base_range]
  · intro i hi
    apply base_length
    have h1 : (i + 1) * sizeof_base_vector arch T ≤ n * sizeof_base_vector arch T :=
      Nat.mul_le_mul_right (sizeof_base_vector arch T) hi
    omega
  · intro i _ m1
    apply store_base_eq_write
    rcases sizeof_base_vector_cases arch T with h | h <;> rw [h] <;> omega

theorem store_gint8_N_eq (arch : Arch) (m : Mem) (p : Nat) (a : Vec) (k : Nat)
    (hk : a.length = k * sizeof_base_vector arch .i8) (hp : p % 16 = 0) :
    store_gint8_N arch m p a = write m p a := by
  have hv : 0 < sizeof_base_vector arch .i8 := by
    rcases sizeof_base_vector_cases arch .i8 with h | h <;> omega
  have hvl : vec_length (sizeof_base_vector arch .i8) a = k := by
    unfold vec_length
    rw [hk, Nat.mul_div_cancel _ hv]
  unfold store_gint8_N
  simp only [detail.assume_aligned, hvl, sizeof_char, Nat.mul_one]
  rw [store_loop_eq arch .i8 m p a k hp (by omega), ← hk, List.take_length]

theorem store_float64_N_eq (arch : Arch) (m : Mem) (p : Nat) (a : Vec) (k : Nat)
    (hk : a.length = k * sizeof_base_vector arch .f64) (hp : p % 16 = 0) :
    store_float64_N arch m p a = write m p a := by
  have hv : 0 < sizeof_base_vector arch .f64 := by
    rcases sizeof_base_vector_cases arch .f64 with h | h <;> omega
  have hvl : vec_length (sizeof_base_vector arch .f64) a = k := by
    unfold vec_length
    rw [hk, Nat.mul_div_cancel _ hv]
  have hd : sizeof_base_vector arch .f64 / sizeof_double * sizeof_double
      = sizeof_base_vector arch .f64 := by
    rcases sizeof_base_vector_cases arch .f64 with h | h <;> rw [h] <;> decide
  unfold store_float64_N
  simp only [detail.assume_aligned, hvl, hd]
  rw [store_loop_eq arch .f64 m p a k hp (by omega), ← hk, List.take_length]

theorem store_float32_N_eq (arch : Arch) (m : Mem) (p : Nat) (a : Vec) (hp : p % 16 = 0)
    (hn : vec_length_of arch .i8 (a.length / sizeof_float) * sizeof_base_vector arch .f32
      ≤ a.length) :
    store_float32_N arch m p a
      = write m p (a.take (vec_length_of arch .i8 (a.length / sizeof_float)
          * sizeof_base_vector arch .f32)) := by
  have hd : sizeof_base_vector arch .f32 / sizeof_float * sizeof_float
      = sizeof_base_vector arch .f32 := by
    rcases sizeof_base_vector_cases arch .f32 with h | h <;> rw [h] <;> decide
  unfold store_float32_N
  simp only [detail.assume_aligned, hd]
  rw [store_loop_eq arch .f32 m p a _ hp hn]

theorem float32_partial_bound (arch : Arch) (n : Nat) :
    vec_length_of arch .i8 (n / sizeof_float) * sizeof_base_vector arch .f32 ≤ n := by
  unfold vec_length_of
  simp only [Elem.size, Nat.mul_one, sizeof_float]
  rcases sizeof_base_vector_cases arch .i8 with h | h <;>
    rcases sizeof_base_vector_cases arch .f32 with h2 | h2 <;> rw [h, h2] <;> omega

theorem store_eq_write (arch : Arch) (T : Elem) (m : Mem) (p : Nat) (a : Vec)
    (hT : T ≠ .f32) (hp : p % 16 = 0)
    (hshape : a.length = 16 ∨ ∃ k, a.length = k * sizeof_base_vector arch T) :
    store arch T m p a = write m p a := by
  have hint : ∀ (hsh : a.length = 16 ∨ ∃ k, a.length = k * sizeof_base_vector arch .i8),
      store_gint8 arch m p a = write m p a := by
    intro hsh
    unfold store_gint8
    by_cases h16 : a.length = 16
    · rw [if_pos h16]
      have := store_base_eq_write arch .i8 16 m p a hp
      simpa [store_base] using this
    rw [if_neg h16]
    by_cases h32 : SIMDPP_USE_AVX2 arch = true ∧ a.length = 32
    · rw [if_pos h32]
      have := store_base_eq_write arch .i8 32 m p a hp
      simpa [store_base] using this
    rw [if_neg h32]
    rcases hsh with h | ⟨k, hk⟩
    · exact absurd h h16
    · exact store_gint8_N_eq arch m p a k hk hp
  cases T
  · exact hint hshape
  · exact hint hshape
  · exact hint hshape
  · exact hint hshape
  · exact absurd rfl hT
  · simp only [store]
    by_cases h16 : a.length = 16
    · rw [if_pos h16]
      exact store_float64x2_eq_write arch m p a hp
    rw [if_neg h16]
    by_cases h32 : SIMDPP_USE_AVX arch = true ∧ a.length = 32
    · rw [if_pos h32]
      have := store_base_eq_write arch .f64 32 m p a hp
      simpa [store_base] using this
    rw [if_neg h32]
    rcases hshape with h | ⟨k, hk⟩
    · exact absurd h h16
    · exact store_float64_N_eq arch m p a k hk hp

theorem store_float32_eq_write (arch : Arch) (m : Mem) (p : Nat) (a : Vec) (hp : p % 16 = 0) :
    ∃ n, n ≤ a.length ∧ store arch .f32 m p a = write m p (a.take n) := by
  simp only [store]
  by_cases h16 : a.length = 16
  · refine ⟨a.length, Nat.le_refl _, ?_⟩
    rw [if_pos h16, List.take_length]
    exact store_float32x4_eq_write arch m p a hp
  rw [if_neg h16]
  by_cases h32 : SIMDPP_USE_AVX arch = true ∧ a.length = 32
  · refine ⟨a.length, Nat.le_refl _, ?_⟩
    rw [if_pos h32, List.take_length]
    have := store_base_eq_write arch .f32 32 m p a hp
    simpa [store_base] using this
  rw [if_neg h32]
  exact ⟨_, float32_partial_bound arch a.length,
    store_float32_N_eq arch m p a hp (float32_partial_bound arch a.length)⟩

theorem write_outside (m : Mem) (p : Nat) (bs : List Nat) (x : Nat)
    (h : x < p ∨ p + bs.length ≤ x) : write m p bs x = m x := by
  unfold write
  have h1 : ¬ (p ≤ x ∧ x < p + bs.length) := by omega
  rw [if_neg h1]

theorem readBytes_write_all (m : Mem) (p : Nat) (bs : List Nat) :
    readBytes (write m p bs) p bs.length = bs := by
  have h := readBytes_write m p bs 0 bs.length (by omega)
  rw [Nat.add_zero, List.drop_zero, List.take_length] at h
  exact h

/-- C16: for every integer (8/16/32/64-bit) or float64 vector `a` made of `k`
base vectors of `veclen` bytes, under every capability profile, `store(p, a)` is
the in-order sequence of base-vector stores at byte offsets `i*veclen`, base
vector `i` lands at `p + i*veclen`, and afterwards the region at `p` holds all
lanes of `a` in lane order; the 16-, 32- and 64-bit integer stores are the store
of the same bytes as 8-bit elements. -/
theorem C16_store_wide_in_order (arch : Arch) (T : Elem) (m : Mem) (p : Nat) (a : Vec) (k : Nat)
    (hT : T ≠ .f32) (ha : a.length = k * sizeof_base_vector arch T) (hp : p % 16 = 0) :
    store arch T m p a
      = (List.range k).foldl (fun (m1 : Mem) i =>
          store_base arch T (sizeof_base_vector arch T) m1 (p + i * sizeof_base_vector arch T)
            (base (sizeof_base_vector arch T) a i)) m ∧
    (∀ i, i < k →
      readBytes (store arch T m p a) (p + i * sizeof_base_vector arch T)
        (sizeof_base_vector arch T) = base (sizeof_base_vector arch T) a i) ∧
    readBytes (store arch T m p a) p a.length = a ∧
    (∀ i, i < a.length / T.size →
      readBytes (store arch T m p a) (p + i * T.size) T.size = el T.size a i) ∧
    (T ≠ .f64 → store arch T m p a = store arch .i8 m p a) := by
  have hw := store_eq_write arch T m p a hT hp (Or.inr ⟨k, ha⟩)
  refine ⟨?_, ?_, ?_, ?_, ?_⟩
  · have h1 := foldl_store_at (fun m1 q i => store_base arch T (sizeof_base_vector arch T) m1 q
      (base (sizeof_base_vector arch T) a i)) (sizeof_base_vector arch T) m p k
    have h2 := store_loop_eq arch T m p a k hp (by omega)
    rw [h1] at h2
    have h3 := congrArg Prod.fst h2
    simp only at h3
    rw [h3, hw, ← ha, List.take_length]
  · intro i hi
    rw [hw, base_eq_el]
    apply readBytes_write_el
    rw [ha]
    exact Nat.mul_le_mul_right _ hi
  · rw [hw]
    exact readBytes_write_all m p a
  · intro i hi
    rw [hw]
    apply readBytes_write_el
    have h1 : (i + 1) * T.size ≤ a.length / T.size * T.size := Nat.mul_le_mul_right _ hi
    have h2 := Nat.div_mul_le_self a.length T.size
    omega
  · intro h64
    cases T
    · rfl
    · rfl
    · rfl
    · rfl
    · exact absurd rfl hT
    · exact absurd rfl h64

theorem C16_store_wide_in_order_witness :
    Elem.i32 ≠ .f32 ∧ (List.range 32).length = 2 * sizeof_base_vector Arch.NEON Elem.i32 ∧
    48 % 16 = 0 ∧
    (store Arch.NEON Elem.i32 (fun _ => 0) 48 (List.range 32)
      = (List.range 2).foldl (fun (m1 : Mem) i =>
          store_base Arch.NEON Elem.i32 (sizeof_base_vector Arch.NEON Elem.i32) m1
            (48 + i * sizeof_base_vector Arch.NEON Elem.i32)
            (base (sizeof_base_vector Arch.NEON Elem.i32) (List.range 32) i)) (fun _ => 0) ∧
    (∀ i, i < 2 →
      readBytes (store Arch.NEON Elem.i32 (fun _ => 0) 48 (List.range 32))
        (48 + i * sizeof_base_vector Arch.NEON Elem.i32)
        (sizeof_base_vector Arch.NEON Elem.i32)
          = base (sizeof_base_vector Arch.NEON Elem.i32) (List.range 32) i) ∧
    readBytes (store Arch.NEON Elem.i32 (fun _ => 0) 48 (List.range 32)) 48
      (List.range 32).length = List.range 32 ∧
    (∀ i, i < (List.range 32).length / Elem.i32.size →
      readBytes (store Arch.NEON Elem.i32 (fun _ => 0) 48 (List.range 32))
        (48 + i * Elem.i32.size) Elem.i32.size = el Elem.i32.size (List.range 32) i) ∧
    (Elem.i32 ≠ .f64 → store Arch.NEON Elem.i32 (fun _ => 0) 48 (List.range 32)
      = store Arch.NEON .i8 (fun _ => 0) 48 (List.range 32))) :=
  ⟨by decide, by decide, by decide,
    C16_store_wide_in_order Arch.NEON Elem.i32 (fun _ => 0) 48 (List.range 32) 2 (by decide)
      (by decide) (by decide)⟩

/-- C17: a `float32<16>` on the SSE2 profile is made of 4 base vectors, but the
loop of `store(float*, float32<N>)` runs to `gint8<16>::vec_length = 1`: only the
first base vector is written, and the bytes of lanes 4..15 keep their old
content (here 0) instead of the lanes of `a` (here bytes 1). -/
theorem C17_store_float32_wide_writes_one_base_vector :
    vec_length_of Arch.SSE2 .f32 16 = 4 ∧ vec_length_of Arch.SSE2 .i8 16 = 1 ∧
    readBytes (store Arch.SSE2 .f32 (fun _ => 0) 0 (List.replicate 64 1)) 0 16
      = List.replicate 16 1 ∧
    readBytes (store Arch.SSE2 .f32 (fun _ => 0) 0 (List.replicate 64 1)) 16 48
      = List.replicate 48 0 ∧
    readBytes (store Arch.SSE2 .f32 (fun _ => 0) 0 (List.replicate 64 1)) (4 * 4) 4
      ≠ el 4 (List.replicate 64 1) 4 := by
  refine ⟨by decide, by decide, by decide, by decide, by decide⟩

/-- C27: the only effect of `store` and of `store_packedK` (`K` in `{2,3}`) is the
write to the target region: for vectors of `S` bytes each (any element type,
native or wide, every capability profile), every byte outside `[p, p+S)` is
unchanged by `store`, and every byte outside `[p, p+K*S)` is unchanged by
`store_packedK`. -/
theorem C27_store_frame (arch : Arch) (T : Elem) (m : Mem) (p : Nat) (a b c : Vec)
    (hb : b.length = a.length) (hc : c.length = a.length) (hp : p % 16 = 0)
    (hshape : a.length = 16 ∨ ∃ k, a.length = k * sizeof_base_vector arch T) :
    (∀ x, x < p ∨ p + a.length ≤ x → store arch T m p a x = m x) ∧
    (∀ x, x < p ∨ p + 2 * a.length ≤ x → store_packed2 arch T m p a b x = m x) ∧
    (∀ x, x < p ∨ p + 3 * a.length ≤ x → store_packed3 arch T m p a b c x = m x) := by
  refine ⟨?_, ?_, ?_⟩
  · intro x hx
    by_cases hT : T = .f32
    · subst hT
      obtain ⟨n, hn, hw⟩ := store_float32_eq_write arch m p a hp
      rw [hw]
      apply write_outside
      rw [List.length_take]
      omega
    · rw [store_eq_write arch T m p a hT hp hshape]
      exact write_outside m p a x hx
  · intro x hx
    obtain ⟨r, hr, hlen, _⟩ := store_packed2_region arch T m p a b hb hp hshape
    rw [hr]
    apply write_outside
    omega
  · intro x hx
    obtain ⟨r, hr, hlen, _⟩ := store_packed3_region arch T m p a b c hb hc hp hshape
    rw [hr]
    apply write_outside
    omega

theorem C27_store_frame_witness :
    (List.replicate 16 2).length = (List.replicate 16 1).length ∧
    (List.replicate 16 3).length = (List.replicate 16 1).length ∧ 32 % 16 = 0 ∧
    ((List.replicate 16 1).length = 16 ∨
      ∃ k, (List.replicate 16 1).length = k * sizeof_base_vector Arch.ALTIVEC Elem.f32) ∧
    ((∀ x, x < 32 ∨ 32 + (List.replicate 16 1).length ≤ x →
      store Arch.ALTIVEC Elem.f32 (fun _ => 9) 32 (List.replicate 16 1) x = (fun _ => 9) x) ∧
    (∀ x, x < 32 ∨ 32 + 2 * (List.replicate 16 1).length ≤ x →
      store_packed2 Arch.ALTIVEC Elem.f32 (fun _ => 9) 32 (List.replicate 16 1)
        (List.replicate 16 2) x = (fun _ => 9) x) ∧
    (∀ x, x < 32 ∨ 32 + 3 * (List.replicate 16 1).length ≤ x →
      store_packed3 Arch.ALTIVEC Elem.f32 (fun _ => 9) 32 (List.replicate 16 1)
        (List.replicate 16 2) (List.replicate 16 3) x = (fun _ => 9) x)) :=
  ⟨by decide, by decide, by decide, Or.inl (by decide),
    C27_store_frame Arch.ALTIVEC Elem.f32 (fun _ => 9) 32 (List.replicate 16 1)
      (List.replicate 16 2) (List.replicate 16 3) (by decide) (by decide) (by decide)
      (Or.inl (by decide))⟩

/-- C30: for 2-lane 64-bit vectors (integer and float64), under every capability
profile, `store_packed2` transposes `(a, b) = ([a0,a1],[b0,b1])` into
`([a0,b0],[a1,b1])` and stores the two registers at byte offsets 0 and 16; the
region then holds `[a0, b0, a1, b1]`, that is elements 0 and 2 are the lanes of
`a` and elements 1 and 3 the lanes of `b`. -/
theorem C30_store_packed2_64bit (arch : Arch) (T : Elem) (m : Mem) (p : Nat) (a b : Vec)
    (hT : T = .i64 ∨ T = .f64) (ha : a.length = 16) (hb : b.length = 16) (hp : p % 16 = 0) :
    store_packed2 arch T m p a b
      = store_base arch T 16 (store_base arch T 16 m p (transpose2 a b).1) (p + 16)
          (transpose2 a b).2 ∧
    transpose2 a b = (el 8 a 0 ++ el 8 b 0, el 8 a 1 ++ el 8 b 1) ∧
    readBytes (store_packed2 arch T m p a b) p 32
      = el 8 a 0 ++ el 8 b 0 ++ el 8 a 1 ++ el 8 b 1 ∧
    readBytes (store_packed2 arch T m p a b) p 8 = el 8 a 0 ∧
    readBytes (store_packed2 arch T m p a b) (p + 8) 8 = el 8 b 0 ∧
    readBytes (store_packed2 arch T m p a b) (p + 16) 8 = el 8 a 1 ∧
    readBytes (store_packed2 arch T m p a b) (p + 24) 8 = el 8 b 1 := by
  have hdef : store_packed2 arch T m p a b
      = store_base arch T 16 (store_base arch T 16 m p (transpose2 a b).1) (p + 16)
          (transpose2 a b).2 := by
    rcases hT with h | h <;> subst h <;>
      simp [store_packed2, ha, store_packed2_gint64x2, store_packed2_float64x2,
        detail.assume_aligned, sizeof_char, sizeof_double, store_base]
  have hl := store_packed2_layout arch T m p a b (by omega) hp (Or.inl ha)
  have hsz : T.size = 8 := by rcases hT with h | h <;> subst h <;> rfl
  rw [ha, hsz] at hl
  have h0 := hl 0 (by omega)
  have h1 := hl 1 (by omega)
  simp only [Nat.zero_mul, Nat.zero_add, Nat.one_mul, Nat.reduceAdd, Nat.reduceMul,
    Nat.add_zero] at h0 h1
  have hw : store_packed2 arch T m p a b = write m p (interleave2 8 a b 2) := by
    have := store_packed2_native16 arch T m p a b ha hb hp
    rw [hsz] at this
    exact this
  refine ⟨hdef, rfl, ?_, h0.1, h0.2, h1.1, h1.2⟩
  rw [hw]
  have hlen : (interleave2 8 a b 2).length = 32 := by
    rw [interleave2_length 8 a b 2 (by omega) (by omega)]
  have hr := readBytes_write_all m p (interleave2 8 a b 2)
  rw [hlen] at hr
  rw [hr]
  simp [interleave2, List.range_succ]

theorem C30_store_packed2_64bit_witness :
    (Elem.f64 = .i64 ∨ Elem.f64 = .f64) ∧ (List.range 16).length = 16 ∧
    (List.replicate 16 7).length = 16 ∧ 16 % 16 = 0 ∧
    (store_packed2 Arch.NEON Elem.f64 (fun _ => 0) 16 (List.range 16) (List.replicate 16 7)
      = store_base Arch.NEON Elem.f64 16 (store_base Arch.NEON Elem.f64 16 (fun _ => 0) 16
          (transpose2 (List.range 16) (List.replicate 16 7)).1) (16 + 16)
          (transpose2 (List.range 16) (List.replicate 16 7)).2 ∧
    transpose2 (List.range 16) (List.replicate 16 7)
      = (el 8 (List.range 16) 0 ++ el 8 (List.replicate 16 7) 0,
          el 8 (List.range 16) 1 ++ el 8 (List.replicate 16 7) 1) ∧
    readBytes (store_packed2 Arch.NEON Elem.f64 (fun _ => 0) 16 (List.range 16)
        (List.replicate 16 7)) 16 32
      = el 8 (List.range 16) 0 ++ el 8 (List.replicate 16 7) 0 ++ el 8 (List.range 16) 1
        ++ el 8 (List.replicate 16 7) 1 ∧
    readBytes (store_packed2 Arch.NEON Elem.f64 (fun _ => 0) 16 (List.range 16)
        (List.replicate 16 7)) 16 8 = el 8 (List.range 16) 0 ∧
    readBytes (store_packed2 Arch.NEON Elem.f64 (fun _ => 0) 16 (List.range 16)
        (List.replicate 16 7)) (16 + 8) 8 = el 8 (List.replicate 16 7) 0 ∧
    readBytes (store_packed2 Arch.NEON Elem.f64 (fun _ => 0) 16 (List.range 16)
        (List.replicate 16 7)) (16 + 16) 8 = el 8 (List.range 16) 1 ∧
    readBytes (store_packed2 Arch.NEON Elem.f64 (fun _ => 0) 16 (List.range 16)
        (List.replicate 16 7)) (16 + 24) 8 = el 8 (List.replicate 16 7) 1) :=
  ⟨Or.inr rfl, by decide, by decide, by decide,
    C30_store_packed2_64bit Arch.NEON Elem.f64 (fun _ => 0) 16 (List.range 16)
      (List.replicate 16 7) (Or.inr rfl) (by decide) (by decide) (by decide)⟩

/-! ## The two-selector `permute` -/

theorem el_split (e : Nat) (a : Vec) (i : Nat) :
    el (2 * e) a i = el e a (i * 2) ++ el e a (i * 2 + 1) := by
  unfold el
  have h1 : i * (2 * e) = i * 2 * e := by ring
  have h2 : (i * 2 + 1) * e = i * 2 * e + e := by ring
  rw [h1, h2, Nat.two_mul, List.take_add, ← List.drop_drop]

theorem el_eq_map_getD (e : Nat) (a : Vec) (i : Nat) (h : (i + 1) * e ≤ a.length) :
    el e a i = (List.range e).map (fun j => a.getD (i * e + j) 0) := by
  have h1 : (i + 1) * e = i * e + e := by ring
  apply List.ext_getElem
  · rw [el_length e a i h]
    simp
  · intro j hj1 hj2
    rw [el_length e a i h] at hj1
    simp only [el, List.getElem_take, List.getElem_drop, List.getElem_map, List.getElem_range]
    rw [List.getD_eq_getElem _ _ (by omega)]

theorem permute4_pairs (e s0 s1 : Nat) (a : Vec) (q : Nat) (hs0 : s0 < 2) (hs1 : s1 < 2)
    (he : 0 < e) (ha : a.length = q * (4 * e)) :
    permute4 e s0 s1 (s0 + 2) (s1 + 2) a = some (null.permute2 e s0 s1 a) := by
  unfold permute4 null.permute2
  have hn : ¬ ¬ (s0 < 4 ∧ s1 < 4 ∧ s0 + 2 < 4 ∧ s1 + 2 < 4) := by omega
  rw [if_neg hn]
  have h4 : a.length / (4 * e) = q := by
    rw [ha]
    exact Nat.mul_div_cancel _ (by omega)
  have h2 : a.length / (2 * e) = q * 2 := by
    have : a.length = (q * 2) * (2 * e) := by rw [ha]; ring
    rw [this]
    exact Nat.mul_div_cancel _ (by omega)
  rw [h4, h2, ← flatMap_range_pairs (fun g => el e a (g * 2 + s0) ++ el e a (g * 2 + s1)) q]
  congr 1
  apply flatMap_range_congr
  intro i _
  have e1 : (i * 2 + 0) * 2 + s0 = i * 4 + s0 := by ring
  have e2 : (i * 2 + 0) * 2 + s1 = i * 4 + s1 := by ring
  have e3 : (i * 2 + 1) * 2 + s0 = i * 4 + (s0 + 2) := by ring
  have e4 : (i * 2 + 1) * 2 + s1 = i * 4 + (s1 + 2) := by ring
  rw [e1, e2, e3, e4, List.append_assoc]

theorem null_permute2_two_lanes (s0 s1 : Nat) (a : Vec) (ha : a.length = 16) :
    null.permute2 8 s0 s1 a = el 8 a s0 ++ el 8 a s1 := by
  simp [null.permute2, ha, List.range_succ]

theorem null_permute2_four_lanes (s0 s1 : Nat) (a : Vec) (ha : a.length = 32) :
    null.permute2 8 s0 s1 a
      = el 8 a s0 ++ (el 8 a s1 ++ (el 8 a (s0 + 2) ++ el 8 a (s1 + 2))) := by
  simp [null.permute2, ha, List.range_succ, Nat.add_comm]

theorem permute_bytes16_mask (s0 s1 : Nat) (a : Vec) (ha : a.length = 16)
    (hs0 : s0 < 2) (hs1 : s1 < 2) :
    permute_bytes16 a (make_shuffle_bytes16_mask s0 s1) = el 8 a s0 ++ el 8 a s1 := by
  have h0 : (s0 + 1) * 8 ≤ a.length := by omega
  have h1 : (s1 + 1) * 8 ≤ a.length := by omega
  rw [el_eq_map_getD 8 a s0 h0, el_eq_map_getD 8 a s1 h1]
  simp [permute_bytes16, make_shuffle_bytes16_mask, List.map_append, List.map_map,
    Function.comp_def]

theorem permute_sse2_int64x2 (s0 s1 : Nat) (a : Vec) (ha : a.length = 16)
    (hs0 : s0 < 2) (hs1 : s1 < 2) :
    permute4 4 (s0 * 2) (s0 * 2 + 1) (s1 * 2) (s1 * 2 + 1) a
      = some (el 8 a s0 ++ el 8 a s1) := by
  have hn : ¬ ¬ (s0 * 2 < 4 ∧ s0 * 2 + 1 < 4 ∧ s1 * 2 < 4 ∧ s1 * 2 + 1 < 4) := by omega
  have e0 := el_split 4 a s0
  have e1 := el_split 4 a s1
  simp only [Nat.reduceMul] at e0 e1
  unfold permute4
  rw [if_neg hn, e0, e1, ha]
  simp [List.range_succ]

theorem permute4x64_imm (s0 s1 : Nat) (a : Vec) (hs0 : s0 < 2) (hs1 : s1 < 2) :
    (((s0 ||| (s1 <<< 2)) ||| ((s0 + 2) <<< 4)) ||| ((s1 + 2) <<< 6)) < 256 ∧
    _mm256_permute4x64 a (((s0 ||| (s1 <<< 2)) ||| ((s0 + 2) <<< 4)) ||| ((s1 + 2) <<< 6))
      = el 8 a s0 ++ (el 8 a s1 ++ (el 8 a (s0 + 2) ++ el 8 a (s1 + 2))) := by
  interval_cases s0 <;> interval_cases s1 <;> exact ⟨by decide, rfl⟩

theorem shuffle_pd_imm (s0 s1 : Nat) (a : Vec) (hs0 : s0 < 2) (hs1 : s1 < 2) :
    _MM_SHUFFLE2 s1 s0 = (s1 <<< 1) ||| s0 ∧
    _mm_shuffle_pd a a (_MM_SHUFFLE2 s1 s0) = el 8 a s0 ++ el 8 a s1 := by
  interval_cases s0 <;> interval_cases s1 <;> exact ⟨rfl, rfl⟩

theorem permute_pd_imm (s0 s1 : Nat) (a : Vec) (hs0 : s0 < 2) (hs1 : s1 < 2) :
    _mm256_permute_pd a (((s0 ||| (s1 <<< 1)) ||| (s0 <<< 2)) ||| (s1 <<< 3))
      = el 8 a s0 ++ (el 8 a s1 ++ (el 8 a (2 + s0) ++ el 8 a (2 + s1))) := by
  interval_cases s0 <;> interval_cases s1 <;> rfl

theorem permute_int64x2_eq (arch : Arch) (s0 s1 : Nat) (a : Vec) (ha : a.length = 16)
    (hs0 : s0 < 2) (hs1 : s1 < 2) :
    permute_basic_int64x2 arch s0 s1 a = some (el 8 a s0 ++ el 8 a s1) := by
  have hn : ¬ ¬ (s0 < 2 ∧ s1 < 2) := by omega
  unfold permute_basic_int64x2
  rw [if_neg hn]
  cases arch <;>
    simp [SIMDPP_USE_NULL, SIMDPP_USE_SSE2, SIMDPP_USE_NEON, SIMDPP_USE_ALTIVEC,
      null_permute2_two_lanes s0 s1 a ha, permute_sse2_int64x2 s0 s1 a ha hs0 hs1,
      neon.detail.shuffle_int64x2.permute2, permute_bytes16_mask s0 s1 a ha hs0 hs1]

theorem permute_int64x4_eq (arch : Arch) (s0 s1 : Nat) (a : Vec) (ha : a.length = 32)
    (hs0 : s0 < 2) (hs1 : s1 < 2) :
    permute_basic_int64x4 arch s0 s1 a
      = some (el 8 a s0 ++ (el 8 a s1 ++ (el 8 a (s0 + 2) ++ el 8 a (s1 + 2)))) := by
  have hn : ¬ ¬ (s0 < 2 ∧ s1 < 2) := by omega
  unfold permute_basic_int64x4
  rw [if_neg hn]
  by_cases h : SIMDPP_USE_AVX2 arch = true
  · rw [if_pos h, (permute4x64_imm s0 s1 a hs0 hs1).2]
  · rw [if_neg h, permute4_pairs 8 s0 s1 a 1 hs0 hs1 (by omega) (by omega),
      null_permute2_four_lanes s0 s1 a ha]

theorem permute_float64x2_eq (arch : Arch) (s0 s1 : Nat) (a : Vec) (ha : a.length = 16)
    (hs0 : s0 < 2) (hs1 : s1 < 2) :
    permute_float64x2 arch s0 s1 a = some (el 8 a s0 ++ el 8 a s1) := by
  have hn : ¬ ¬ (s0 < 2 ∧ s1 < 2) := by omega
  unfold permute_float64x2
  rw [if_neg hn]
  by_cases h : SIMDPP_USE_SSE2 arch = true
  · rw [if_pos h, (shuffle_pd_imm s0 s1 a hs0 hs1).2]
  · rw [if_neg h]
    exact permute_int64x2_eq arch s0 s1 a ha hs0 hs1

theorem permute_float64x4_eq (arch : Arch) (s0 s1 : Nat) (a : Vec) (ha : a.length = 32)
    (hs0 : s0 < 2) (hs1 : s1 < 2) :
    permute_float64x4 arch s0 s1 a
      = some (el 8 a s0 ++ (el 8 a s1 ++ (el 8 a (s0 + 2) ++ el 8 a (s1 + 2)))) := by
  have hn : ¬ ¬ (s0 < 2 ∧ s1 < 2) := by omega
  unfold permute_float64x4
  rw [if_neg hn]
  by_cases h : SIMDPP_USE_AVX2 arch = true
  · rw [if_pos h, (permute4x64_imm s0 s1 a hs0 hs1).2]
  rw [if_neg h]
  by_cases h2 : SIMDPP_USE_AVX arch = true
  · rw [if_pos h2, permute_pd_imm s0 s1 a hs0 hs1, Nat.add_comm 2 s0, Nat.add_comm 2 s1]
  · rw [if_neg h2, permute4_pairs 8 s0 s1 a 1 hs0 hs1 (by omega) (by omega),
      null_permute2_four_lanes s0 s1 a ha]

theorem permute_eq (arch : Arch) (T : Elem) (s0 s1 : Nat) (a : Vec) (hT : T ≠ .i8)
    (hs0 : s0 < 2) (hs1 : s1 < 2) (hlen : a.length = 16 ∨ a.length = 32) :
    permute arch T s0 s1 a = some (null.permute2 T.size s0 s1 a) := by
  have hn : ¬ ¬ (s0 < 2 ∧ s1 < 2) := by omega
  cases T
  · exact absurd rfl hT
  · rcases hlen with h | h <;>
      simp only [permute, h, permute_basic_int16x8, permute_basic_int16x16, if_neg hn,
        Elem.size, if_true, Nat.reduceEqDiff, if_false]
    · exact permute4_pairs 2 s0 s1 a 2 hs0 hs1 (by omega) (by omega)
    · exact permute4_pairs 2 s0 s1 a 4 hs0 hs1 (by omega) (by omega)
  · rcases hlen with h | h <;>
      simp only [permute, h, permute_basic_int32x4, permute_basic_int32x8, if_neg hn,
        Elem.size, if_true, Nat.reduceEqDiff, if_false]
    · exact permute4_pairs 4 s0 s1 a 1 hs0 hs1 (by omega) (by omega)
    · exact permute4_pairs 4 s0 s1 a 2 hs0 hs1 (by omega) (by omega)
  · rcases hlen with h | h <;>
      simp only [permute, h, Elem.size, if_true, Nat.reduceEqDiff, if_false]
    · rw [permute_int64x2_eq arch s0 s1 a h hs0 hs1, null_permute2_two_lanes s0 s1 a h]
    · rw [permute_int64x4_eq arch s0 s1 a h hs0 hs1, null_permute2_four_lanes s0 s1 a h]
  · rcases hlen with h | h <;>
      simp only [permute, h, permute_float32x4, permute_float32x8, if_neg hn,
        Elem.size, if_true, Nat.reduceEqDiff, if_false]
    · exact permute4_pairs 4 s0 s1 a 1 hs0 hs1 (by omega) (by omega)
    · exact permute4_pairs 4 s0 s1 a 2 hs0 hs1 (by omega) (by omega)
  · rcases hlen with h | h <;>
      simp only [permute, h, Elem.size, if_true, Nat.reduceEqDiff, if_false]
    · rw [permute_float64x2_eq arch s0 s1 a h hs0 hs1, null_permute2_two_lanes s0 s1 a h]
    · rw [permute_float64x4_eq arch s0 s1 a h hs0 hs1, null_permute2_four_lanes s0 s1 a h]

theorem permute_rejected (arch : Arch) (T : Elem) (s0 s1 : Nat) (a : Vec)
    (h : ¬ (s0 < 2 ∧ s1 < 2)) : permute arch T s0 s1 a = none := by
  cases T <;>
    simp only [permute, permute_basic_int16x8, permute_basic_int16x16, permute_basic_int32x4,
      permute_basic_int32x8, permute_float32x4, permute_float32x8, permute_basic_int64x2,
      permute_basic_int64x4, permute_float64x2, permute_float64x4, if_pos h, ite_self]

theorem null_permute2_lanes (e s0 s1 : Nat) (a : Vec) (n : Nat) (ha : a.length = n * (2 * e))
    (he : 0 < e) (hs0 : s0 < 2) (hs1 : s1 < 2) :
    (null.permute2 e s0 s1 a).length = a.length ∧
    ∀ g, g < n →
      el e (null.permute2 e s0 s1 a) (2 * g) = el e a (2 * g + s0) ∧
      el e (null.permute2 e s0 s1 a) (2 * g + 1) = el e a (2 * g + s1) := by
  have hq : a.length / (2 * e) = n := by
    rw [ha]
    exact Nat.mul_div_cancel _ (by omega)
  have hel : ∀ g s, g < n → s < 2 → (el e a (g * 2 + s)).length = e := by
    intro g s hg hs
    apply el_length
    rw [ha]
    have h1 : g * 2 + s + 1 ≤ n * 2 := by omega
    calc (g * 2 + s + 1) * e ≤ (n * 2) * e := Nat.mul_le_mul_right e h1
      _ = n * (2 * e) := by ring
  have hch : ∀ j, j < n → (el e a (j * 2 + s0) ++ el e a (j * 2 + s1)).length = 2 * e := by
    intro j hj
    rw [List.length_append, hel j s0 hj hs0, hel j s1 hj hs1]
    omega
  unfold null.permute2
  rw [hq]
  constructor
  · rw [length_flatMap_range _ (2 * e) n hch, ha]
  · intro g hg
    have hc := el_flatMap_range (fun g => el e a (g * 2 + s0) ++ el e a (g * 2 + s1))
      (2 * e) n hch g hg
    have e0 := el_el e 2 ((List.range n).flatMap
      (fun g => el e a (g * 2 + s0) ++ el e a (g * 2 + s1))) g 0 (by omega)
    have e1 := el_el e 2 ((List.range n).flatMap
      (fun g => el e a (g * 2 + s0) ++ el e a (g * 2 + s1))) g 1 (by omega)
    rw [hc] at e0 e1
    rw [el_append_zero e _ _ (hel g s0 hg hs0)] at e0
    rw [el_append_one e _ _ (hel g s0 hg hs0) (hel g s1 hg hs1)] at e1
    rw [Nat.add_zero] at e0
    rw [Nat.mul_comm 2 g]
    exact ⟨e0.symm, e1.symm⟩

theorem permute_pairs_count (T : Elem) (a : Vec) (hT : T ≠ .i8)
    (hlen : a.length = 16 ∨ a.length = 32) :
    a.length = a.length / (2 * T.size) * (2 * T.size) := by
  cases T
  · exact absurd rfl hT
  all_goals rcases hlen with h | h <;> rw [h] <;> rfl

theorem permute_lanes (arch : Arch) (T : Elem) (s0 s1 : Nat) (a : Vec) (hT : T ≠ .i8)
    (hs0 : s0 < 2) (hs1 : s1 < 2) (hlen : a.length = 16 ∨ a.length = 32) :
    ∃ r, permute arch T s0 s1 a = some r ∧ r.length = a.length ∧
      ∀ g, g < a.length / (2 * T.size) →
        el T.size r (2 * g) = el T.size a (2 * g + s0) ∧
        el T.size r (2 * g + 1) = el T.size a (2 * g + s1) := by
  have h := null_permute2_lanes T.size s0 s1 a (a.length / (2 * T.size))
    (permute_pairs_count T a hT hlen) (elem_size_pos T) hs0 hs1
  exact ⟨null.permute2 T.size s0 s1 a, permute_eq arch T s0 s1 a hT hs0 hs1 hlen, h.1, h.2⟩

/-! ## Claims on the two-selector `permute` -/

/-- C12: for all selectors `s0, s1` in `{0,1}` and every 128- or 256-bit vector of
16-, 32- or 64-bit integer, float32 or float64 elements, under every capability
profile, `permute<s0,s1>(a)` has lane `2g` equal to lane `2g+s0` of `a` and lane
`2g+1` equal to lane `2g+s1` of `a` for every pair index `g`; `permute<1,0>` on
the four 32-bit lanes `[x0,x1,x2,x3]` yields `[x1,x0,x3,x2]`, the same as the
four-selector `permute<1,0,3,2>`. -/
theorem C12_permute2_lanes (arch : Arch) (T : Elem) (s0 s1 : Nat) (a : Vec) (hT : T ≠ .i8)
    (hs0 : s0 < 2) (hs1 : s1 < 2) (hlen : a.length = 16 ∨ a.length = 32) :
    (∃ r, permute arch T s0 s1 a = some r ∧ r.length = a.length ∧
      ∀ g, g < a.length / (2 * T.size) →
        el T.size r (2 * g) = el T.size a (2 * g + s0) ∧
        el T.size r (2 * g + 1) = el T.size a (2 * g + s1)) ∧
    (∀ x0 x1 x2 x3 : List Nat, x0.length = 4 → x1.length = 4 → x2.length = 4 →
      x3.length = 4 →
      permute arch .i32 1 0 (x0 ++ x1 ++ x2 ++ x3) = some (x1 ++ x0 ++ x3 ++ x2) ∧
      permute arch .i32 1 0 (x0 ++ x1 ++ x2 ++ x3)
        = permute4 4 1 0 3 2 (x0 ++ x1 ++ x2 ++ x3)) := by
  refine ⟨permute_lanes arch T s0 s1 a hT hs0 hs1 hlen, ?_⟩
  intro x0 x1 x2 x3 h0 h1 h2 h3
  have hl : (x0 ++ x1 ++ x2 ++ x3).length = 16 := by
    simp only [List.length_append, h0, h1, h2, h3]
  have hp := permute_eq arch .i32 1 0 (x0 ++ x1 ++ x2 ++ x3) (by decide) (by decide)
    (by decide) (Or.inl hl)
  have h4 := permute4_pairs 4 1 0 (x0 ++ x1 ++ x2 ++ x3) 1 (by decide) (by decide) (by decide)
    (by rw [hl])
  refine ⟨?_, ?_⟩
  · rw [hp]
    obtain ⟨a1, a2, a3, a4, e0⟩ := exists_of_length_four x0 h0
    obtain ⟨b1, b2, b3, b4, e1⟩ := exists_of_length_four x1 h1
    obtain ⟨c1, c2, c3, c4, e2⟩ := exists_of_length_four x2 h2
    obtain ⟨d1, d2, d3, d4, e3⟩ := exists_of_length_four x3 h3
    subst e0 e1 e2 e3
    simp [null.permute2, el, Elem.size, List.range_succ]
  · rw [hp]
    exact h4.symm

theorem C12_permute2_lanes_witness :
    Elem.i16 ≠ .i8 ∧ 1 < 2 ∧ 0 < 2 ∧
    ((List.range 32).length = 16 ∨ (List.range 32).length = 32) ∧
    ((∃ r, permute Arch.SSE2 Elem.i16 1 0 (List.range 32) = some r ∧
      r.length = (List.range 32).length ∧
      ∀ g, g < (List.range 32).length / (2 * Elem.i16.size) →
        el Elem.i16.size r (2 * g) = el Elem.i16.size (List.range 32) (2 * g + 1) ∧
        el Elem.i16.size r (2 * g + 1) = el Elem.i16.size (List.range 32) (2 * g + 0)) ∧
    (∀ x0 x1 x2 x3 : List Nat, x0.length = 4 → x1.length = 4 → x2.length = 4 →
      x3.length = 4 →
      permute Arch.SSE2 .i32 1 0 (x0 ++ x1 ++ x2 ++ x3) = some (x1 ++ x0 ++ x3 ++ x2) ∧
      permute Arch.SSE2 .i32 1 0 (x0 ++ x1 ++ x2 ++ x3)
        = permute4 4 1 0 3 2 (x0 ++ x1 ++ x2 ++ x3))) :=
  ⟨by decide, by decide, by decide, Or.inr (by decide),
    C12_permute2_lanes Arch.SSE2 Elem.i16 1 0 (List.range 32) (by decide) (by decide)
      (by decide) (Or.inr (by decide))⟩

/-- C13: group locality of `permute<s0,s1>`: for every pair index `g`, two input
vectors (128 or 256 bits) that agree on lanes `2g` and `2g+1` give results that
agree on lanes `2g` and `2g+1`, whatever the other lanes hold. -/
theorem C13_permute2_group_locality (arch : Arch) (T : Elem) (s0 s1 : Nat) (a b : Vec)
    (hT : T ≠ .i8) (hs0 : s0 < 2) (hs1 : s1 < 2) (hlen : a.length = 16 ∨ a.length = 32)
    (hb : b.length = a.length) (g : Nat) (hg : g < a.length / (2 * T.size))
    (h0 : el T.size a (2 * g) = el T.size b (2 * g))
    (h1 : el T.size a (2 * g + 1) = el T.size b (2 * g + 1)) :
    ∃ r r2, permute arch T s0 s1 a = some r ∧ permute arch T s0 s1 b = some r2 ∧
      el T.size r (2 * g) = el T.size r2 (2 * g) ∧
      el T.size r (2 * g + 1) = el T.size r2 (2 * g + 1) := by
  obtain ⟨r, hr, _, hl⟩ := permute_lanes arch T s0 s1 a hT hs0 hs1 hlen
  obtain ⟨r2, hr2, _, hl2⟩ := permute_lanes arch T s0 s1 b hT hs0 hs1 (by rw [hb]; exact hlen)
  have ha := hl g hg
  have hb2 := hl2 g (by rw [hb]; exact hg)
  have hsel : ∀ s, s < 2 → el T.size a (2 * g + s) = el T.size b (2 * g + s) := by
    intro s hs
    interval_cases s
    · exact h0
    · exact h1
  exact ⟨r, r2, hr, hr2, by rw [ha.1, hb2.1, hsel s0 hs0], by rw [ha.2, hb2.2, hsel s1 hs1]⟩

theorem C13_permute2_group_locality_witness :
    Elem.i32 ≠ .i8 ∧ 1 < 2 ∧ 0 < 2 ∧
    ((List.range 16).length = 16 ∨ (List.range 16).length = 32) ∧
    ((List.range 8 ++ List.replicate 8 77).length = (List.range 16).length) ∧
    0 < (List.range 16).length / (2 * Elem.i32.size) ∧
    el Elem.i32.size (List.range 16) (2 * 0)
      = el Elem.i32.size (List.range 8 ++ List.replicate 8 77) (2 * 0) ∧
    el Elem.i32.size (List.range 16) (2 * 0 + 1)
      = el Elem.i32.size (List.range 8 ++ List.replicate 8 77) (2 * 0 + 1) ∧
    ∃ r r2, permute Arch.NULL Elem.i32 1 0 (List.range 16) = some r ∧
      permute Arch.NULL Elem.i32 1 0 (List.range 8 ++ List.replicate 8 77) = some r2 ∧
      el Elem.i32.size r (2 * 0) = el Elem.i32.size r2 (2 * 0) ∧
      el Elem.i32.size r (2 * 0 + 1) = el Elem.i32.size r2 (2 * 0 + 1) :=
  ⟨by decide, by decide, by decide, Or.inl (by decide), by decide, by decide, by decide,
    by decide,
    C13_permute2_group_locality Arch.NULL Elem.i32 1 0 (List.range 16)
      (List.range 8 ++ List.replicate 8 77) (by decide) (by decide) (by decide)
      (Or.inl (by decide)) (by decide) 0 (by decide) (by decide) (by decide)⟩

/-- C14: for every vector type handled by the two-selector permute (128 or 256
bits; 16-, 32-, 64-bit integer, float32, float64) and every capability
profile, `permute<s0,s1>` is accepted if and only if `s0 < 2` and `s1 < 2`; with
a selector outside `[0, 2)` the static assertion fails and there is no result. -/
theorem C14_permute2_accepted_iff (arch : Arch) (T : Elem) (s0 s1 : Nat) (a : Vec)
    (hT : T ≠ .i8) (hlen : a.length = 16 ∨ a.length = 32) :
    ((permute arch T s0 s1 a).isSome = true ↔ (s0 < 2 ∧ s1 < 2)) ∧
    (¬ (s0 < 2 ∧ s1 < 2) → permute arch T s0 s1 a = none) := by
  refine ⟨⟨?_, ?_⟩, permute_rejected arch T s0 s1 a⟩
  · intro h
    by_contra hc
    rw [permute_rejected arch T s0 s1 a hc] at h
    simp at h
  · intro h
    rw [permute_eq arch T s0 s1 a hT h.1 h.2 hlen]
    rfl

theorem C14_permute2_accepted_iff_witness :
    Elem.f64 ≠ .i8 ∧ ((List.range 16).length = 16 ∨ (List.range 16).length = 32) ∧
    (((permute Arch.ALTIVEC Elem.f64 1 2 (List.range 16)).isSome = true ↔ (1 < 2 ∧ 2 < 2)) ∧
    (¬ (1 < 2 ∧ 2 < 2) → permute Arch.ALTIVEC Elem.f64 1 2 (List.range 16) = none)) :=
  ⟨by decide, Or.inl (by decide),
    C14_permute2_accepted_iff Arch.ALTIVEC Elem.f64 1 2 (List.range 16) (by decide)
      (Or.inl (by decide))⟩

/-- C15, as stated, fails: the selector 2 lies in `[0; 3]`, yet `permute<2,0>` on
a vector of four 32-bit lanes fails `static_assert(s0 < 2 && s1 < 2)` and has
no result. -/
theorem C15_counterexample :
    2 ≤ 3 ∧ 0 ≤ 3 ∧ permute Arch.SSE2 Elem.i32 2 0 (List.range 16) = none ∧
    permute Arch.SSE2 Elem.f32 2 0 (List.range 16) = none := by
  decide

/-- C15, amended: for 32-bit integer and 32-bit floating-point vectors of four
lanes, the two-selector `permute<s0,s1>` takes selector values in `[0; 1]`: every
`s0, s1` in `{0,1}` is accepted and gives `[a[s0], a[s1], a[s0+2], a[s1+2]]`, and
every pair with a selector of 2 or more is rejected by the static assertion. -/
theorem C15_permute2_32bit_selector_range (arch : Arch) (T : Elem) (s0 s1 : Nat) (a : Vec)
    (hT : T = .i32 ∨ T = .f32) (ha : a.length = 16) :
    (s0 < 2 → s1 < 2 → permute arch T s0 s1 a
      = some (el 4 a s0 ++ (el 4 a s1 ++ (el 4 a (s0 + 2) ++ el 4 a (s1 + 2))))) ∧
    (2 ≤ s0 ∨ 2 ≤ s1 → permute arch T s0 s1 a = none) := by
  constructor
  · intro hs0 hs1
    have hT2 : T ≠ .i8 := by rcases hT with h | h <;> subst h <;> decide
    have hsz : T.size = 4 := by rcases hT with h | h <;> subst h <;> rfl
    rw [permute_eq arch T s0 s1 a hT2 hs0 hs1 (Or.inl ha), hsz]
    simp [null.permute2, ha, List.range_succ, Nat.add_comm]
  · intro h
    exact permute_rejected arch T s0 s1 a (by omega)

theorem C15_permute2_32bit_selector_range_witness :
    (Elem.f32 = .i32 ∨ Elem.f32 = .f32) ∧ (List.range 16).length = 16 ∧
    ((1 < 2 → 0 < 2 → permute Arch.NEON Elem.f32 1 0 (List.range 16)
      = some (el 4 (List.range 16) 1 ++ (el 4 (List.range 16) 0 ++
          (el 4 (List.range 16) (1 + 2) ++ el 4 (List.range 16) (0 + 2))))) ∧
    (2 ≤ 1 ∨ 2 ≤ 0 → permute Arch.NEON Elem.f32 1 0 (List.range 16) = none)) :=
  ⟨Or.inr rfl, by decide,
    C15_permute2_32bit_selector_range Arch.NEON Elem.f32 1 0 (List.range 16) (Or.inr rfl)
      (by decide)⟩

/-- C22: backend equivalence of `permute` on a 2-lane 64-bit integer vector: for
all `s0, s1` in `{0,1}` and every `a`, the SSE2 path, which applies the
four-selector 32-bit `permute<s0*2, s0*2+1, s1*2, s1*2+1>` to the same bytes,
returns the vector of the fallback `null::permute<s0,s1>`, namely `[a[s0], a[s1]]`. -/
theorem C22_permute_int64x2_sse2_equals_fallback (s0 s1 : Nat) (a : Vec) (hs0 : s0 < 2)
    (hs1 : s1 < 2) (ha : a.length = 16) :
    permute4 4 (s0 * 2) (s0 * 2 + 1) (s1 * 2) (s1 * 2 + 1) a
      = some (null.permute2 8 s0 s1 a) ∧
    null.permute2 8 s0 s1 a = el 8 a s0 ++ el 8 a s1 ∧
    permute_basic_int64x2 Arch.SSE2 s0 s1 a
      = permute4 4 (s0 * 2) (s0 * 2 + 1) (s1 * 2) (s1 * 2 + 1) a ∧
    permute_basic_int64x2 Arch.NULL s0 s1 a = some (null.permute2 8 s0 s1 a) ∧
    permute_basic_int64x2 Arch.SSE2 s0 s1 a = permute_basic_int64x2 Arch.NULL s0 s1 a := by
  have h2 := null_permute2_two_lanes s0 s1 a ha
  have h4 := permute_sse2_int64x2 s0 s1 a ha hs0 hs1
  have hn : ¬ ¬ (s0 < 2 ∧ s1 < 2) := by omega
  refine ⟨by rw [h4, h2], h2, ?_, ?_, ?_⟩
  · simp [permute_basic_int64x2, hn, SIMDPP_USE_NULL, SIMDPP_USE_SSE2, hs0, hs1]
  · simp [permute_basic_int64x2, hn, SIMDPP_USE_NULL, hs0, hs1]
  · rw [permute_int64x2_eq Arch.SSE2 s0 s1 a ha hs0 hs1,
      permute_int64x2_eq Arch.NULL s0 s1 a ha hs0 hs1]

theorem C22_permute_int64x2_sse2_equals_fallback_witness :
    1 < 2 ∧ 0 < 2 ∧ (List.range 16).length = 16 ∧
    (permute4 4 (1 * 2) (1 * 2 + 1) (0 * 2) (0 * 2 + 1) (List.range 16)
      = some (null.permute2 8 1 0 (List.range 16)) ∧
    null.permute2 8 1 0 (List.range 16) = el 8 (List.range 16) 1 ++ el 8 (List.range 16) 0 ∧
    permute_basic_int64x2 Arch.SSE2 1 0 (List.range 16)
      = permute4 4 (1 * 2) (1 * 2 + 1) (0 * 2) (0 * 2 + 1) (List.range 16) ∧
    permute_basic_int64x2 Arch.NULL 1 0 (List.range 16)
      = some (null.permute2 8 1 0 (List.range 16)) ∧
    permute_basic_int64x2 Arch.SSE2 1 0 (List.range 16)
      = permute_basic_int64x2 Arch.NULL 1 0 (List.range 16)) :=
  ⟨by decide, by decide, by decide,
    C22_permute_int64x2_sse2_equals_fallback 1 0 (List.range 16) (by decide) (by decide)
      (by decide)⟩

/-- C28: for all `s0, s1` in `{0,1}`, the AVX2 path of `permute` on 4-lane 64-bit
vectors (integer and float64) passes the immediate
`s0 | s1<<2 | (s0+2)<<4 | (s1+2)<<6`, which fits in 8 bits, to the 4x64
cross-lane permute and returns `[a[s0], a[s1], a[s0+2], a[s1+2]]`, the result of
the generic path `permute<s0,s1,s0+2,s1+2>(a)`. -/
theorem C28_permute_64x4_avx2 (s0 s1 : Nat) (a : Vec) (hs0 : s0 < 2) (hs1 : s1 < 2)
    (ha : a.length = 32) :
    (((s0 ||| (s1 <<< 2)) ||| ((s0 + 2) <<< 4)) ||| ((s1 + 2) <<< 6)) < 256 ∧
    _mm256_permute4x64 a (((s0 ||| (s1 <<< 2)) ||| ((s0 + 2) <<< 4)) ||| ((s1 + 2) <<< 6))
      = el 8 a s0 ++ (el 8 a s1 ++ (el 8 a (s0 + 2) ++ el 8 a (s1 + 2))) ∧
    permute_basic_int64x4 Arch.AVX2 s0 s1 a
      = some (el 8 a s0 ++ (el 8 a s1 ++ (el 8 a (s0 + 2) ++ el 8 a (s1 + 2)))) ∧
    permute_float64x4 Arch.AVX2 s0 s1 a
      = some (el 8 a s0 ++ (el 8 a s1 ++ (el 8 a (s0 + 2) ++ el 8 a (s1 + 2)))) ∧
    permute4 8 s0 s1 (s0 + 2) (s1 + 2) a
      = some (el 8 a s0 ++ (el 8 a s1 ++ (el 8 a (s0 + 2) ++ el 8 a (s1 + 2)))) ∧
    permute_basic_int64x4 Arch.AVX2 s0 s1 a = permute_basic_int64x4 Arch.SSE2 s0 s1 a ∧
    permute_float64x4 Arch.AVX2 s0 s1 a = permute_float64x4 Arch.SSE2 s0 s1 a := by
  have hi := permute4x64_imm s0 s1 a hs0 hs1
  have hg : permute4 8 s0 s1 (s0 + 2) (s1 + 2) a
      = some (el 8 a s0 ++ (el 8 a s1 ++ (el 8 a (s0 + 2) ++ el 8 a (s1 + 2)))) := by
    rw [permute4_pairs 8 s0 s1 a 1 hs0 hs1 (by omega) (by omega),
      null_permute2_four_lanes s0 s1 a ha]
  refine ⟨hi.1, hi.2, permute_int64x4_eq Arch.AVX2 s0 s1 a ha hs0 hs1,
    permute_float64x4_eq Arch.AVX2 s0 s1 a ha hs0 hs1, hg, ?_, ?_⟩
  · rw [permute_int64x4_eq Arch.AVX2 s0 s1 a ha hs0 hs1,
      permute_int64x4_eq Arch.SSE2 s0 s1 a ha hs0 hs1]
  · rw [permute_float64x4_eq Arch.AVX2 s0 s1 a ha hs0 hs1,
      permute_float64x4_eq Arch.SSE2 s0 s1 a ha hs0 hs1]

theorem C28_permute_64x4_avx2_witness :
    1 < 2 ∧ 0 < 2 ∧ (List.range 32).length = 32 ∧
    ((((1 ||| (0 <<< 2)) ||| ((1 + 2) <<< 4)) ||| ((0 + 2) <<< 6)) < 256 ∧
    _mm256_permute4x64 (List.range 32)
        (((1 ||| (0 <<< 2)) ||| ((1 + 2) <<< 4)) ||| ((0 + 2) <<< 6))
      = el 8 (List.range 32) 1 ++ (el 8 (List.range 32) 0 ++
          (el 8 (List.range 32) (1 + 2) ++ el 8 (List.range 32) (0 + 2))) ∧
    permute_basic_int64x4 Arch.AVX2 1 0 (List.range 32)
      = some (el 8 (List.range 32) 1 ++ (el 8 (List.range 32) 0 ++
          (el 8 (List.range 32) (1 + 2) ++ el 8 (List.range 32) (0 + 2)))) ∧
    permute_float64x4 Arch.AVX2 1 0 (List.range 32)
      = some (el 8 (List.range 32) 1 ++ (el 8 (List.range 32) 0 ++
          (el 8 (List.range 32) (1 + 2) ++ el 8 (List.range 32) (0 + 2)))) ∧
    permute4 8 1 0 (1 + 2) (0 + 2) (List.range 32)
      = some (el 8 (List.range 32) 1 ++ (el 8 (List.range 32) 0 ++
          (el 8 (List.range 32) (1 + 2) ++ el 8 (List.range 32) (0 + 2)))) ∧
    permute_basic_int64x4 Arch.AVX2 1 0 (List.range 32)
      = permute_basic_int64x4 Arch.SSE2 1 0 (List.range 32) ∧
    permute_float64x4 Arch.AVX2 1 0 (List.range 32)
      = permute_float64x4 Arch.SSE2 1 0 (List.range 32)) :=
  ⟨by decide, by decide, by decide,
    C28_permute_64x4_avx2 1 0 (List.range 32) (by decide) (by decide) (by decide)⟩

/-- C29: for all `s0, s1` in `{0,1}`, the float64 hardware encodings give the
documented lanes: the SSE2 path `_mm_shuffle_pd(a, a, (s1<<1)|s0)` on 2 lanes
returns `[a[s0], a[s1]]`, and the AVX path
`_mm256_permute_pd(a, s0 | s1<<1 | s0<<2 | s1<<3)` on 4 lanes returns
`[a[s0], a[s1], a[2+s0], a[2+s1]]`. -/
theorem C29_permute_float64_encodings (s0 s1 : Nat) (a b : Vec) (hs0 : s0 < 2) (hs1 : s1 < 2) :
    _MM_SHUFFLE2 s1 s0 = ((s1 <<< 1) ||| s0) ∧
    _mm_shuffle_pd a a ((s1 <<< 1) ||| s0) = el 8 a s0 ++ el 8 a s1 ∧
    permute_float64x2 Arch.SSE2 s0 s1 a = some (el 8 a s0 ++ el 8 a s1) ∧
    _mm256_permute_pd b (((s0 ||| (s1 <<< 1)) ||| (s0 <<< 2)) ||| (s1 <<< 3))
      = el 8 b s0 ++ (el 8 b s1 ++ (el 8 b (2 + s0) ++ el 8 b (2 + s1))) ∧
    permute_float64x4 Arch.AVX s0 s1 b
      = some (el 8 b s0 ++ (el 8 b s1 ++ (el 8 b (2 + s0) ++ el 8 b (2 + s1)))) := by
  have hsh := shuffle_pd_imm s0 s1 a hs0 hs1
  have hpd := permute_pd_imm s0 s1 b hs0 hs1
  have hn : ¬ ¬ (s0 < 2 ∧ s1 < 2) := by omega
  refine ⟨hsh.1, ?_, ?_, hpd, ?_⟩
  · rw [← hsh.1]; exact hsh.2
  · simp only [permute_float64x2, if_neg hn, SIMDPP_USE_SSE2, if_true]
    rw [hsh.2]
  · simp only [permute_float64x4, if_neg hn, SIMDPP_USE_AVX2, SIMDPP_USE_AVX, if_true]
    rw [← hpd]
    rfl

theorem C29_permute_float64_encodings_witness :
    0 < 2 ∧ 1 < 2 ∧
    (_MM_SHUFFLE2 1 0 = ((1 <<< 1) ||| 0) ∧
    _mm_shuffle_pd (List.range 16) (List.range 16) ((1 <<< 1) ||| 0)
      = el 8 (List.range 16) 0 ++ el 8 (List.range 16) 1 ∧
    permute_float64x2 Arch.SSE2 0 1 (List.range 16)
      = some (el 8 (List.range 16) 0 ++ el 8 (List.range 16) 1) ∧
    _mm256_permute_pd (List.range 32) (((0 ||| (1 <<< 1)) ||| (0 <<< 2)) ||| (1 <<< 3))
      = el 8 (List.range 32) 0 ++ (el 8 (List.range 32) 1 ++
          (el 8 (List.range 32) (2 + 0) ++ el 8 (List.range 32) (2 + 1))) ∧
    permute_float64x4 Arch.AVX 0 1 (List.range 32)
      = some (el 8 (List.range 32) 0 ++ (el 8 (List.range 32) 1 ++
          (el 8 (List.range 32) (2 + 0) ++ el 8 (List.range 32) (2 + 1))))) :=
  ⟨by decide, by decide,
    C29_permute_float64_encodings 0 1 (List.range 16) (List.range 32) (by decide) (by decide)⟩

/-! ## Lane-wise operations on wide vectors -/

theorem marked_sized : FloatOps.marked.sized := by
  simp [FloatOps.sized, FloatOps.marked]

theorem flatMap_range_mul (g : Nat → List Nat) (n : Nat) :
    ∀ k : Nat, (List.range k).flatMap (fun s => (List.range n).flatMap (fun i => g (s * n + i)))
      = (List.range (k * n)).flatMap g := by
  intro k
  induction k with
  | zero => simp
  | succ k ih =>
    rw [List.range_succ, List.flatMap_append, ih, Nat.succ_mul, List.range_add,
      List.flatMap_append]
    simp [List.flatMap_map]

theorem map_lanes2_base (e n : Nat) (f : List Nat → List Nat → List Nat) (a b : Vec) (s : Nat)
    (he : 0 < e) (ha : (s + 1) * (n * e) ≤ a.length) :
    map_lanes2 e f (base (n * e) a s) (base (n * e) b s)
      = (List.range n).flatMap (fun i => f (el e a (s * n + i)) (el e b (s * n + i))) := by
  unfold map_lanes2
  rw [base_length (n * e) a s ha, Nat.mul_div_cancel n he]
  apply flatMap_range_congr
  intro i hi
  rw [base_eq_el, base_eq_el, el_el e n a s i hi, el_el e n b s i hi]

theorem wide_map_lanes2 (e n k : Nat) (f : List Nat → List Nat → List Nat) (a b : Vec)
    (he : 0 < e) (ha : a.length = k * (n * e)) :
    (List.range k).flatMap (fun s => map_lanes2 e f (base (n * e) a s) (base (n * e) b s))
      = map_lanes2 e f a b := by
  have h1 : (List.range k).flatMap
      (fun s => map_lanes2 e f (base (n * e) a s) (base (n * e) b s))
      = (List.range k).flatMap (fun s => (List.range n).flatMap
          (fun i => f (el e a (s * n + i)) (el e b (s * n + i)))) := by
    apply flatMap_range_congr
    intro s hs
    apply map_lanes2_base e n f a b s he
    rw [ha]
    exact Nat.mul_le_mul_right _ hs
  rw [h1, flatMap_range_mul (fun j => f (el e a j) (el e b j)) n k]
  unfold map_lanes2
  have h2 : a.length / e = k * n := by
    rw [ha, ← Nat.mul_assoc, Nat.mul_div_cancel _ he]
  rw [h2]

theorem map_lanes2_el (e : Nat) (f : List Nat → List Nat → List Nat) (a b : Vec)
    (hf : ∀ x y, (f x y).length = e) (i : Nat) (hi : i < a.length / e) :
    el e (map_lanes2 e f a b) i = f (el e a i) (el e b i) := by
  unfold map_lanes2
  exact el_flatMap_range (fun j => f (el e a j) (el e b j)) e (a.length / e)
    (fun j _ => hf _ _) i hi

theorem impl2_map_lanes2 (veclen e n k : Nat) (f : List Nat → List Nat → List Nat)
    (op : Vec → Vec → Vec) (a b : Vec) (hv : veclen = n * e) (he : 0 < e) (hn : 0 < n)
    (ha : a.length = k * veclen) (hb : b.length = a.length)
    (hop : ∀ x y, x.length = veclen → y.length = x.length → op x y = map_lanes2 e f x y) :
    SIMDPP_VEC_ARRAY_IMPL2 veclen op a b
      = (List.range k).flatMap (fun s => op (base veclen a s) (base veclen b s)) ∧
    SIMDPP_VEC_ARRAY_IMPL2 veclen op a b = map_lanes2 e f a b := by
  subst hv
  have hpos : 0 < n * e := Nat.mul_pos hn he
  have hk : vec_length (n * e) a = k := by
    unfold vec_length
    rw [ha, Nat.mul_div_cancel _ hpos]
  have h0 : SIMDPP_VEC_ARRAY_IMPL2 (n * e) op a b
      = (List.range k).flatMap (fun s => op (base (n * e) a s) (base (n * e) b s)) := by
    unfold SIMDPP_VEC_ARRAY_IMPL2
    rw [hk]
  refine ⟨h0, ?_⟩
  rw [h0, ← wide_map_lanes2 e n k f a b he ha]
  apply flatMap_range_congr
  intro s hs
  have h1 : (s + 1) * (n * e) ≤ k * (n * e) := Nat.mul_le_mul_right _ hs
  apply hop
  · exact base_length (n * e) a s (by omega)
  · rw [base_length (n * e) a s (by omega), base_length (n * e) b s (by omega)]

theorem float_base_size (arch : Arch) :
    sizeof_base_vector arch .f64 = sizeof_base_vector arch .f32 ∧
    ((SIMDPP_USE_AVX arch = false ∧ sizeof_base_vector arch .f32 = 16) ∨
     (SIMDPP_USE_AVX arch = true ∧ sizeof_base_vector arch .f32 = 32)) := by
  cases arch <;> simp [sizeof_base_vector, Elem.isFloat, SIMDPP_USE_AVX]

theorem wide_not_native (arch : Arch) (a : Vec) (k : Nat) (hk : 1 < k)
    (ha : a.length = k * sizeof_base_vector arch .f32) :
    a.length ≠ 16 ∧ ¬ (SIMDPP_USE_AVX arch = true ∧ a.length = 32) := by
  have h2 : 2 * sizeof_base_vector arch .f32 ≤ k * sizeof_base_vector arch .f32 :=
    Nat.mul_le_mul_right _ hk
  rcases (float_base_size arch).2 with ⟨h, hv⟩ | ⟨h, hv⟩
  · rw [hv] at ha h2
    refine ⟨by omega, fun hh => ?_⟩
    rw [h] at hh
    exact Bool.noConfusion hh.1
  · rw [hv] at ha h2
    exact ⟨by omega, fun hh => by omega⟩

theorem sized_add32 (F : FloatOps) (hF : F.sized)
    (f : List Nat → List Nat → List Nat) (hf : f ∈ [F.host_add32, F.sse_add32, F.neon_add32, F.altivec_add32]) :
    ∀ x y, (f x y).length = 4 := by
  obtain ⟨h1, h2, h3, h4, h5, h6, h7, h8, h9, h10, h11, h12⟩ := hF
  simp only [List.mem_cons, List.mem_singleton, List.not_mem_nil, or_false] at hf
  rcases hf with h | h | h | h <;> subst h <;> assumption

theorem add_float32_native (F : FloatOps) (arch : Arch) :
    ∃ f, f ∈ [F.host_add32, F.sse_add32, F.neon_add32, F.altivec_add32] ∧
      ∀ x y, add_float32x4 F arch x y = map_lanes2 4 f x y ∧
        add_float32_base F arch x y = map_lanes2 4 f x y := by
  cases arch <;> first
    | exact ⟨F.host_add32, by simp, fun _ _ => ⟨rfl, rfl⟩⟩
    | exact ⟨F.sse_add32, by simp, fun _ _ => ⟨rfl, rfl⟩⟩
    | exact ⟨F.neon_add32, by simp, fun _ _ => ⟨rfl, rfl⟩⟩
    | exact ⟨F.altivec_add32, by simp, fun _ _ => ⟨rfl, rfl⟩⟩

theorem add_float32_wide (F : FloatOps) (arch : Arch) (a b : Vec) (k : Nat) (hk : 1 < k)
    (ha : a.length = k * sizeof_base_vector arch .f32) (hb : b.length = a.length) :
    add_float32 F arch a b
      = (List.range k).flatMap (fun s => add_float32_base F arch
          (base (sizeof_base_vector arch .f32) a s) (base (sizeof_base_vector arch .f32) b s)) ∧
    ∃ f, f ∈ [F.host_add32, F.sse_add32, F.neon_add32, F.altivec_add32] ∧
      (∀ x y, add_float32_base F arch x y = map_lanes2 4 f x y) ∧
      add_float32 F arch a b = map_lanes2 4 f a b := by
  obtain ⟨hn1, hn2⟩ := wide_not_native arch a k hk ha
  obtain ⟨f, hf, hnat⟩ := add_float32_native F arch
  have hsz : sizeof_base_vector arch .f32 = sizeof_base_vector arch .f32 := rfl
  have hw : add_float32 F arch a b = add_float32_N F arch a b := by
    unfold add_float32
    rw [if_neg hn1, if_neg hn2]
  have hI : add_float32_N F arch a b
      = (List.range k).flatMap (fun s => add_float32_base F arch
          (base (sizeof_base_vector arch .f32) a s) (base (sizeof_base_vector arch .f32) b s)) ∧
      add_float32_N F arch a b = map_lanes2 4 f a b := by
    unfold add_float32_N
    rw [hsz]
    rcases (float_base_size arch).2 with ⟨_, hv⟩ | ⟨_, hv⟩
    · exact impl2_map_lanes2 _ 4 4 k f _ a b hv (by decide) (by decide) ha hb
        (fun x y _ _ => (hnat x y).2)
    · exact impl2_map_lanes2 _ 4 8 k f _ a b hv (by decide) (by decide) ha hb
        (fun x y _ _ => (hnat x y).2)
  rw [hw]
  exact ⟨hI.1, f, hf, fun x y => (hnat x y).2, hI.2⟩

theorem sized_add64 (F : FloatOps) (hF : F.sized)
    (f : List Nat → List Nat → List Nat) (hf : f ∈ [F.host_add64, F.sse_add64]) :
    ∀ x y, (f x y).length = 8 := by
  obtain ⟨h1, h2, h3, h4, h5, h6, h7, h8, h9, h10, h11, h12⟩ := hF
  simp only [List.mem_cons, List.mem_singleton, List.not_mem_nil, or_false] at hf
  rcases hf with h | h <;> subst h <;> assumption

theorem add_float64_native (F : FloatOps) (arch : Arch) :
    ∃ f, f ∈ [F.host_add64, F.sse_add64] ∧
      ∀ x y, add_float64x2 F arch x y = map_lanes2 8 f x y ∧
        add_float64_base F arch x y = map_lanes2 8 f x y := by
  cases arch <;> first
    | exact ⟨F.host_add64, by simp, fun _ _ => ⟨rfl, rfl⟩⟩
    | exact ⟨F.sse_add64, by simp, fun _ _ => ⟨rfl, rfl⟩⟩

theorem add_float64_wide (F : FloatOps) (arch : Arch) (a b : Vec) (k : Nat) (hk : 1 < k)
    (ha : a.length = k * sizeof_base_vector arch .f32) (hb : b.length = a.length) :
    add_float64 F arch a b
      = (List.range k).flatMap (fun s => add_float64_base F arch
          (base (sizeof_base_vector arch .f64) a s) (base (sizeof_base_vector arch .f64) b s)) ∧
    ∃ f, f ∈ [F.host_add64, F.sse_add64] ∧
      (∀ x y, add_float64_base F arch x y = map_lanes2 8 f x y) ∧
      add_float64 F arch a b = map_lanes2 8 f a b := by
  obtain ⟨hn1, hn2⟩ := wide_not_native arch a k hk ha
  obtain ⟨f, hf, hnat⟩ := add_float64_native F arch
  have hsz : sizeof_base_vector arch .f64 = sizeof_base_vector arch .f32 := (float_base_size arch).1
  have hw : add_float64 F arch a b = add_float64_N F arch a b := by
    unfold add_float64
    rw [if_neg hn1, if_neg hn2]
  have hI : add_float64_N F arch a b
      = (List.range k).flatMap (fun s => add_float64_base F arch
          (base (sizeof_base_vector arch .f64) a s) (base (sizeof_base_vector arch .f64) b s)) ∧
      add_float64_N F arch a b = map_lanes2 8 f a b := by
    unfold add_float64_N
    rw [hsz]
    rcases (float_base_size arch).2 with ⟨_, hv⟩ | ⟨_, hv⟩
    · exact impl2_map_lanes2 _ 8 2 k f _ a b hv (by decide) (by decide) ha hb
        (fun x y _ _ => (hnat x y).2)
    · exact impl2_map_lanes2 _ 8 4 k f _ a b hv (by decide) (by decide) ha hb
        (fun x y _ _ => (hnat x y).2)
  rw [hw]
  exact ⟨hI.1, f, hf, fun x y => (hnat x y).2, hI.2⟩

theorem sized_sub32 (F : FloatOps) (hF : F.sized)
    (f : List Nat → List Nat → List Nat) (hf : f ∈ [F.host_sub32, F.sse_sub32, F.neon_sub32, F.altivec_sub32]) :
    ∀ x y, (f x y).length = 4 := by
  obtain ⟨h1, h2, h3, h4, h5, h6, h7, h8, h9, h10, h11, h12⟩ := hF
  simp only [List.mem_cons, List.mem_singleton, List.not_mem_nil, or_false] at hf
  rcases hf with h | h | h | h <;> subst h <;> assumption

theorem sub_float32_native (F : FloatOps) (arch : Arch) :
    ∃ f, f ∈ [F.host_sub32, F.sse_sub32, F.neon_sub32, F.altivec_sub32] ∧
      ∀ x y, sub_float32x4 F arch x y = map_lanes2 4 f x y ∧
        sub_float32_base F arch x y = map_lanes2 4 f x y := by
  cases arch <;> first
    | exact ⟨F.host_sub32, by simp, fun _ _ => ⟨rfl, rfl⟩⟩
    | exact ⟨F.sse_sub32, by simp, fun _ _ => ⟨rfl, rfl⟩⟩
    | exact ⟨F.neon_sub32, by simp, fun _ _ => ⟨rfl, rfl⟩⟩
    | exact ⟨F.altivec_sub32, by simp, fun _ _ => ⟨rfl, rfl⟩⟩

theorem sub_float32_wide (F : FloatOps) (arch : Arch) (a b : Vec) (k : Nat) (hk : 1 < k)
    (ha : a.length = k * sizeof_base_vector arch .f32) (hb : b.length = a.length) :
    sub_float32 F arch a b
      = (List.range k).flatMap (fun s => sub_float32_base F arch
          (base (sizeof_base_vector arch .f32) a s) (base (sizeof_base_vector arch .f32) b s)) ∧
    ∃ f, f ∈ [F.host_sub32, F.sse_sub32, F.neon_sub32, F.altivec_sub32] ∧
      (∀ x y, sub_float32_base F arch x y = map_lanes2 4 f x y) ∧
      sub_float32 F arch a b = map_lanes2 4 f a b := by
  obtain ⟨hn1, hn2⟩ := wide_not_native arch a k hk ha
  obtain ⟨f, hf, hnat⟩ := sub_float32_native F arch
  have hsz : sizeof_base_vector arch .f32 = sizeof_base_vector arch .f32 := rfl
  have hw : sub_float32 F arch a b = sub_float32_N F arch a b := by
    unfold sub_float32
    rw [if_neg hn1, if_neg hn2]
  have hI : sub_float32_N F arch a b
      = (List.range k).flatMap (fun s => sub_float32_base F arch
          (base (sizeof_base_vector arch .f32) a s) (base (sizeof_base_vector arch .f32) b s)) ∧
      sub_float32_N F arch a b = map_lanes2 4 f a b := by
    unfold sub_float32_N
    rw [hsz]
    rcases (float_base_size arch).2 with ⟨_, hv⟩ | ⟨_, hv⟩
    · exact impl2_map_lanes2 _ 4 4 k f _ a b hv (by decide) (by decide) ha hb
        (fun x y _ _ => (hnat x y).2)
    · exact impl2_map_lanes2 _ 4 8 k f _ a b hv (by decide) (by decide) ha hb
        (fun x y _ _ => (hnat x y).2)
  rw [hw]
  exact ⟨hI.1, f, hf, fun x y => (hnat x y).2, hI.2⟩

theorem sized_sub64 (F : FloatOps) (hF : F.sized)
    (f : List Nat → List Nat → List Nat) (hf : f ∈ [F.host_sub64, F.sse_sub64]) :
    ∀ x y, (f x y).length = 8 := by
  obtain ⟨h1, h2, h3, h4, h5, h6, h7, h8, h9, h10, h11, h12⟩ := hF
  simp only [List.mem_cons, List.mem_singleton, List.not_mem_nil, or_false] at hf
  rcases hf with h | h <;> subst h <;> assumption

theorem sub_float64_native (F : FloatOps) (arch : Arch) :
    ∃ f, f ∈ [F.host_sub64, F.sse_sub64] ∧
      ∀ x y, sub_float64x2 F arch x y = map_lanes2 8 f x y ∧
        sub_float64_base F arch x y = map_lanes2 8 f x y := by
  cases arch <;> first
    | exact ⟨F.host_sub64, by simp, fun _ _ => ⟨rfl, rfl⟩⟩
    | exact ⟨F.sse_sub64, by simp, fun _ _ => ⟨rfl, rfl⟩⟩

theorem sub_float64_wide (F : FloatOps) (arch : Arch) (a b : Vec) (k : Nat) (hk : 1 < k)
    (ha : a.length = k * sizeof_base_vector arch .f32) (hb : b.length = a.length) :
    sub_float64 F arch a b
      = (List.range k).flatMap (fun s => sub_float64_base F arch
          (base (sizeof_base_vector arch .f64) a s) (base (sizeof_base_vector arch .f64) b s)) ∧
    ∃ f, f ∈ [F.host_sub64, F.sse_sub64] ∧
      (∀ x y, sub_float64_base F arch x y = map_lanes2 8 f x y) ∧
      sub_float64 F arch a b = map_lanes2 8 f a b := by
  obtain ⟨hn1, hn2⟩ := wide_not_native arch a k hk ha
  obtain ⟨f, hf, hnat⟩ := sub_float64_native F arch
  have hsz : sizeof_base_vector arch .f64 = sizeof_base_vector arch .f32 := (float_base_size arch).1
  have hw : sub_float64 F arch a b = sub_float64_N F arch a b := by
    unfold sub_float64
    rw [if_neg hn1, if_neg hn2]
  have hI : sub_float64_N F arch a b
      = (List.range k).flatMap (fun s => sub_float64_base F arch
          (base (sizeof_base_vector arch .f64) a s) (base (sizeof_base_vector arch .f64) b s)) ∧
      sub_float64_N F arch a b = map_lanes2 8 f a b := by
    unfold sub_float64_N
    rw [hsz]
    rcases (float_base_size arch).2 with ⟨_, hv⟩ | ⟨_, hv⟩
    · exact impl2_map_lanes2 _ 8 2 k f _ a b hv (by decide) (by decide) ha hb
        (fun x y _ _ => (hnat x y).2)
    · exact impl2_map_lanes2 _ 8 4 k f _ a b hv (by decide) (by decide) ha hb
        (fun x y _ _ => (hnat x y).2)
  rw [hw]
  exact ⟨hI.1, f, hf, fun x y => (hnat x y).2, hI.2⟩

theorem mask_lane_length (e : Nat) (c : Bool) : (mask_lane e c).length = e := by
  simp [mask_lane]

theorem zipWith_flatMap_range (op : Nat → Nat → Nat) (f g : Nat → List Nat) (c : Nat)
    (hf : ∀ i, (f i).length = c) (hg : ∀ i, (g i).length = c) :
    ∀ n : Nat, List.zipWith op ((List.range n).flatMap f) ((List.range n).flatMap g)
      = (List.range n).flatMap (fun i => List.zipWith op (f i) (g i)) := by
  intro n
  induction n with
  | zero => simp
  | succ n ih =>
    rw [List.range_succ, List.flatMap_append, List.flatMap_append, List.flatMap_append,
      List.zipWith_append, ih]
    · simp
    · rw [length_flatMap_range f c n (fun j _ => hf j),
        length_flatMap_range g c n (fun j _ => hg j)]

theorem bit_or_mask_lane (e : Nat) (c d : Bool) :
    List.zipWith (fun x y => x ||| y) (mask_lane e c) (mask_lane e d) = mask_lane e (c || d) := by
  unfold mask_lane
  rw [List.zipWith_replicate, Nat.min_self]
  cases c <;> cases d <;> rfl

theorem bit_or_isnan (e : Nat) (isn : List Nat → Bool) (a b : Vec) (hb : b.length = a.length) :
    bit_or (isnan e isn a) (isnan e isn b)
      = map_lanes2 e (fun x y => mask_lane e (isn x || isn y)) a b := by
  unfold bit_or isnan map_lanes1 map_lanes2
  rw [hb, zipWith_flatMap_range _ _ _ e (fun _ => mask_lane_length _ _)
    (fun _ => mask_lane_length _ _)]
  apply flatMap_range_congr
  intro i _
  exact bit_or_mask_lane e _ _

theorem cmp_unord (e : Nat) (isn : List Nat → Bool) (a b : Vec) :
    _mm_cmp e isn a b _CMP_UNORD_Q = map_lanes2 e (fun x y => mask_lane e (isn x || isn y)) a b := by
  simp [_mm_cmp]

theorem isnan2_float32_native (F : FloatOps) (arch : Arch) (x y : Vec)
    (hy : y.length = x.length) :
    isnan2_float32x4 F arch x y
      = map_lanes2 4 (fun u v => mask_lane 4 (F.isnan32 u || F.isnan32 v)) x y ∧
    isnan2_float32x8 F x y
      = map_lanes2 4 (fun u v => mask_lane 4 (F.isnan32 u || F.isnan32 v)) x y ∧
    isnan2_float32_base F arch x y
      = map_lanes2 4 (fun u v => mask_lane 4 (F.isnan32 u || F.isnan32 v)) x y := by
  have h1 := cmp_unord 4 F.isnan32 x y
  have h2 := bit_or_isnan 4 F.isnan32 x y hy
  cases arch <;>
    simp [isnan2_float32x4, isnan2_float32x8, isnan2_float32_base, SIMDPP_USE_NULL,
      SIMDPP_USE_AVX, SIMDPP_USE_SSE2, SIMDPP_USE_NEON, SIMDPP_USE_ALTIVEC, null.isnan2,
      _mm_cmpunord, h1, h2]

theorem isnan2_float64_native (F : FloatOps) (arch : Arch) (x y : Vec) :
    isnan2_float64x2 F arch x y
      = map_lanes2 8 (fun u v => mask_lane 8 (F.isnan64 u || F.isnan64 v)) x y ∧
    isnan2_float64x4 F x y
      = map_lanes2 8 (fun u v => mask_lane 8 (F.isnan64 u || F.isnan64 v)) x y ∧
    isnan2_float64_base F arch x y
      = map_lanes2 8 (fun u v => mask_lane 8 (F.isnan64 u || F.isnan64 v)) x y := by
  have h1 := cmp_unord 8 F.isnan64 x y
  cases arch <;>
    simp [isnan2_float64x2, isnan2_float64x4, isnan2_float64_base, SIMDPP_USE_NULL,
      SIMDPP_USE_AVX, SIMDPP_USE_SSE2, SIMDPP_USE_NEON, SIMDPP_USE_ALTIVEC, null.isnan2,
      _mm_cmpunord, h1]

theorem isnan2_float32_N_eq (F : FloatOps) (arch : Arch) (a b : Vec) (k : Nat)
    (ha : a.length = k * sizeof_base_vector arch .f32) (hb : b.length = a.length) :
    isnan2_float32_N F arch a b
      = (List.range k).flatMap (fun s => isnan2_float32_base F arch
          (base (sizeof_base_vector arch .f32) a s) (base (sizeof_base_vector arch .f32) b s)) ∧
    isnan2_float32_N F arch a b = map_lanes2 4 (fun u v => mask_lane 4 (F.isnan32 u || F.isnan32 v)) a b := by
  have hsz : sizeof_base_vector arch .f32 = sizeof_base_vector arch .f32 := rfl
  unfold isnan2_float32_N
  rw [hsz]
  rcases (float_base_size arch).2 with ⟨_, hv⟩ | ⟨_, hv⟩
  · exact impl2_map_lanes2 _ 4 4 k _ _ a b hv (by decide) (by decide) ha hb
      (fun x y _ hy => (isnan2_float32_native F arch x y hy).2.2)
  · exact impl2_map_lanes2 _ 4 8 k _ _ a b hv (by decide) (by decide) ha hb
      (fun x y _ hy => (isnan2_float32_native F arch x y hy).2.2)

theorem isnan2_float32_wide (F : FloatOps) (arch : Arch) (a b : Vec) (k : Nat) (hk : 1 < k)
    (ha : a.length = k * sizeof_base_vector arch .f32) (hb : b.length = a.length) :
    isnan2_float32 F arch a b
      = (List.range k).flatMap (fun s => isnan2_float32_base F arch
          (base (sizeof_base_vector arch .f32) a s) (base (sizeof_base_vector arch .f32) b s)) := by
  obtain ⟨hn1, hn2⟩ := wide_not_native arch a k hk ha
  unfold isnan2_float32
  rw [if_neg hn1, if_neg hn2]
  exact (isnan2_float32_N_eq F arch a b k ha hb).1

theorem isnan2_float32_eq (F : FloatOps) (arch : Arch) (a b : Vec) (hb : b.length = a.length)
    (hshape : a.length = 16 ∨ ∃ k, a.length = k * sizeof_base_vector arch .f32) :
    isnan2_float32 F arch a b = map_lanes2 4 (fun u v => mask_lane 4 (F.isnan32 u || F.isnan32 v)) a b := by
  unfold isnan2_float32
  by_cases h16 : a.length = 16
  · rw [if_pos h16]
    exact (isnan2_float32_native F arch a b hb).1
  · rw [if_neg h16]
    by_cases h32 : SIMDPP_USE_AVX arch = true ∧ a.length = 32
    · rw [if_pos h32]
      exact (isnan2_float32_native F arch a b hb).2.1
    · rw [if_neg h32]
      rcases hshape with h | ⟨k, hk⟩
      · exact absurd h h16
      · exact (isnan2_float32_N_eq F arch a b k hk hb).2

theorem isnan2_float32_lanes (F : FloatOps) (arch : Arch) (a b : Vec) (hb : b.length = a.length)
    (hshape : a.length = 16 ∨ ∃ k, a.length = k * sizeof_base_vector arch .f32)
    (i : Nat) (hi : i < a.length / 4) :
    el 4 (isnan2_float32 F arch a b) i
      = mask_lane 4 (F.isnan32 (el 4 a i) || F.isnan32 (el 4 b i)) := by
  rw [isnan2_float32_eq F arch a b hb hshape]
  exact map_lanes2_el 4 (fun u v => mask_lane 4 (F.isnan32 u || F.isnan32 v)) a b
    (fun _ _ => mask_lane_length _ _) i hi

theorem isnan2_float64_N_eq (F : FloatOps) (arch : Arch) (a b : Vec) (k : Nat)
    (ha : a.length = k * sizeof_base_vector arch .f32) (hb : b.length = a.length) :
    isnan2_float64_N F arch a b
      = (List.range k).flatMap (fun s => isnan2_float64_base F arch
          (base (sizeof_base_vector arch .f64) a s) (base (sizeof_base_vector arch .f64) b s)) ∧
    isnan2_float64_N F arch a b = map_lanes2 8 (fun u v => mask_lane 8 (F.isnan64 u || F.isnan64 v)) a b := by
  have hsz : sizeof_base_vector arch .f64 = sizeof_base_vector arch .f32 := (float_base_size arch).1
  unfold isnan2_float64_N
  rw [hsz]
  rcases (float_base_size arch).2 with ⟨_, hv⟩ | ⟨_, hv⟩
  · exact impl2_map_lanes2 _ 8 2 k _ _ a b hv (by decide) (by decide) ha hb
      (fun x y _ hy => (isnan2_float64_native F arch x y).2.2)
  · exact impl2_map_lanes2 _ 8 4 k _ _ a b hv (by decide) (by decide) ha hb
      (fun x y _ hy => (isnan2_float64_native F arch x y).2.2)

theorem isnan2_float64_wide (F : FloatOps) (arch : Arch) (a b : Vec) (k : Nat) (hk : 1 < k)
    (ha : a.length = k * sizeof_base_vector arch .f32) (hb : b.length = a.length) :
    isnan2_float64 F arch a b
      = (List.range k).flatMap (fun s => isnan2_float64_base F arch
          (base (sizeof_base_vector arch .f64) a s) (base (sizeof_base_vector arch .f64) b s)) := by
  obtain ⟨hn1, hn2⟩ := wide_not_native arch a k hk ha
  unfold isnan2_float64
  rw [if_neg hn1, if_neg hn2]
  exact (isnan2_float64_N_eq F arch a b k ha hb).1

theorem isnan2_float64_eq (F : FloatOps) (arch : Arch) (a b : Vec) (hb : b.length = a.length)
    (hshape : a.length = 16 ∨ ∃ k, a.length = k * sizeof_base_vector arch .f64) :
    isnan2_float64 F arch a b = map_lanes2 8 (fun u v => mask_lane 8 (F.isnan64 u || F.isnan64 v)) a b := by
  unfold isnan2_float64
  by_cases h16 : a.length = 16
  · rw [if_pos h16]
    exact (isnan2_float64_native F arch a b).1
  · rw [if_neg h16]
    by_cases h32 : SIMDPP_USE_AVX arch = true ∧ a.length = 32
    · rw [if_pos h32]
      exact (isnan2_float64_native F arch a b).2.1
    · rw [if_neg h32]
      rcases hshape with h | ⟨k, hk⟩
      · exact absurd h h16
      · exact (isnan2_float64_N_eq F arch a b k (by rw [hk, (float_base_size arch).1]) hb).2

theorem isnan2_float64_lanes (F : FloatOps) (arch : Arch) (a b : Vec) (hb : b.length = a.length)
    (hshape : a.length = 16 ∨ ∃ k, a.length = k * sizeof_base_vector arch .f64)
    (i : Nat) (hi : i < a.length / 8) :
    el 8 (isnan2_float64 F arch a b) i
      = mask_lane 8 (F.isnan64 (el 8 a i) || F.isnan64 (el 8 b i)) := by
  rw [isnan2_float64_eq F arch a b hb hshape]
  exact map_lanes2_el 8 (fun u v => mask_lane 8 (F.isnan64 u || F.isnan64 v)) a b
    (fun _ _ => mask_lane_length _ _) i hi


/-! ## Claims on `add`, `sub` and `isnan2` -/

/-- C18: for every capability profile and every pair of wide float32 or float64
vectors `a`, `b` made of `k > 1` base vectors (float32 and float64 base vectors
have the same byte size), `add(a, b)`, `sub(a, b)` and `isnan2(a, b)` are the
in-order concatenation of the operation on base vectors applied to each pair of
corresponding base vectors; lane `i` of `add` and `sub` is `f` applied to lanes
`i` of `a` and `b`, where `f` is the scalar operation that the base-vector
operation applies to each lane, and lane `i` of `isnan2` is the mask of
`isnan(a_i) || isnan(b_i)`.  The scalar operations are taken as given. -/
theorem C18_wide_float_ops_per_base_vector (F : FloatOps) (arch : Arch) (a b : Vec) (k : Nat)
    (hF : F.sized) (hk : 1 < k)
    (ha : a.length = k * sizeof_base_vector arch .f32) (hb : b.length = a.length) :
    (add_float32 F arch a b
        = (List.range k).flatMap (fun s => add_float32_base F arch
            (base (sizeof_base_vector arch .f32) a s)
            (base (sizeof_base_vector arch .f32) b s)) ∧
      ∃ f, f ∈ [F.host_add32, F.sse_add32, F.neon_add32, F.altivec_add32] ∧
        (∀ x y, add_float32_base F arch x y = map_lanes2 4 f x y) ∧
        ∀ i, i < a.length / 4 →
          el 4 (add_float32 F arch a b) i = f (el 4 a i) (el 4 b i)) ∧
    (add_float64 F arch a b
        = (List.range k).flatMap (fun s => add_float64_base F arch
            (base (sizeof_base_vector arch .f64) a s)
            (base (sizeof_base_vector arch .f64) b s)) ∧
      ∃ f, f ∈ [F.host_add64, F.sse_add64] ∧
        (∀ x y, add_float64_base F arch x y = map_lanes2 8 f x y) ∧
        ∀ i, i < a.length / 8 →
          el 8 (add_float64 F arch a b) i = f (el 8 a i) (el 8 b i)) ∧
    (sub_float32 F arch a b
        = (List.range k).flatMap (fun s => sub_float32_base F arch
            (base (sizeof_base_vector arch .f32) a s)
            (base (sizeof_base_vector arch .f32) b s)) ∧
      ∃ f, f ∈ [F.host_sub32, F.sse_sub32, F.neon_sub32, F.altivec_sub32] ∧
        (∀ x y, sub_float32_base F arch x y = map_lanes2 4 f x y) ∧
        ∀ i, i < a.length / 4 →
          el 4 (sub_float32 F arch a b) i = f (el 4 a i) (el 4 b i)) ∧
    (sub_float64 F arch a b
        = (List.range k).flatMap (fun s => sub_float64_base F arch
            (base (sizeof_base_vector arch .f64) a s)
            (base (sizeof_base_vector arch .f64) b s)) ∧
      ∃ f, f ∈ [F.host_sub64, F.sse_sub64] ∧
        (∀ x y, sub_float64_base F arch x y = map_lanes2 8 f x y) ∧
        ∀ i, i < a.length / 8 →
          el 8 (sub_float64 F arch a b) i = f (el 8 a i) (el 8 b i)) ∧
    (isnan2_float32 F arch a b
        = (List.range k).flatMap (fun s => isnan2_float32_base F arch
            (base (sizeof_base_vector arch .f32) a s)
            (base (sizeof_base_vector arch .f32) b s)) ∧
      ∀ i, i < a.length / 4 →
        el 4 (isnan2_float32 F arch a b) i
          = mask_lane 4 (F.isnan32 (el 4 a i) || F.isnan32 (el 4 b i))) ∧
    (isnan2_float64 F arch a b
        = (List.range k).flatMap (fun s => isnan2_float64_base F arch
            (base (sizeof_base_vector arch .f64) a s)
            (base (sizeof_base_vector arch .f64) b s)) ∧
      ∀ i, i < a.length / 8 →
        el 8 (isnan2_float64 F arch a b) i
          = mask_lane 8 (F.isnan64 (el 8 a i) || F.isnan64 (el 8 b i))) := by
  have hshape32 : a.length = 16 ∨ ∃ k, a.length = k * sizeof_base_vector arch .f32 :=
    Or.inr ⟨k, ha⟩
  have hshape64 : a.length = 16 ∨ ∃ k, a.length = k * sizeof_base_vector arch .f64 :=
    Or.inr ⟨k, by rw [ha, (float_base_size arch).1]⟩
  refine ⟨?_, ?_, ?_, ?_, ?_, ?_⟩
  · obtain ⟨h1, f, hf, hnat, hall⟩ := add_float32_wide F arch a b k hk ha hb
    refine ⟨h1, f, hf, hnat, fun i hi => ?_⟩
    rw [hall]
    exact map_lanes2_el 4 f a b (sized_add32 F hF f hf) i hi
  · obtain ⟨h1, f, hf, hnat, hall⟩ := add_float64_wide F arch a b k hk ha hb
    refine ⟨h1, f, hf, hnat, fun i hi => ?_⟩
    rw [hall]
    exact map_lanes2_el 8 f a b (sized_add64 F hF f hf) i hi
  · obtain ⟨h1, f, hf, hnat, hall⟩ := sub_float32_wide F arch a b k hk ha hb
    refine ⟨h1, f, hf, hnat, fun i hi => ?_⟩
    rw [hall]
    exact map_lanes2_el 4 f a b (sized_sub32 F hF f hf) i hi
  · obtain ⟨h1, f, hf, hnat, hall⟩ := sub_float64_wide F arch a b k hk ha hb
    refine ⟨h1, f, hf, hnat, fun i hi => ?_⟩
    rw [hall]
    exact map_lanes2_el 8 f a b (sized_sub64 F hF f hf) i hi
  · exact ⟨isnan2_float32_wide F arch a b k hk ha hb,
      fun i hi => isnan2_float32_lanes F arch a b hb hshape32 i hi⟩
  · exact ⟨isnan2_float64_wide F arch a b k hk ha hb,
      fun i hi => isnan2_float64_lanes F arch a b hb hshape64 i hi⟩

theorem C18_wide_float_ops_per_base_vector_witness :
    FloatOps.marked.sized ∧ 1 < 2 ∧
    (List.range 32).length = 2 * sizeof_base_vector Arch.NEON .f32 ∧
    (List.replicate 32 255).length = (List.range 32).length ∧
    (
    (add_float32 FloatOps.marked Arch.NEON (List.range 32) (List.replicate 32 255)
        = (List.range 2).flatMap (fun s => add_float32_base FloatOps.marked Arch.NEON
            (base (sizeof_base_vector Arch.NEON .f32) (List.range 32) s)
            (base (sizeof_base_vector Arch.NEON .f32) (List.replicate 32 255) s)) ∧
      ∃ f, f ∈ [FloatOps.marked.host_add32, FloatOps.marked.sse_add32, FloatOps.marked.neon_add32, FloatOps.marked.altivec_add32] ∧
        (∀ x y, add_float32_base FloatOps.marked Arch.NEON x y = map_lanes2 4 f x y) ∧
        ∀ i, i < (List.range 32).length / 4 →
          el 4 (add_float32 FloatOps.marked Arch.NEON (List.range 32) (List.replicate 32 255)) i = f (el 4 (List.range 32) i) (el 4 (List.replicate 32 255) i)) ∧
    (add_float64 FloatOps.marked Arch.NEON (List.range 32) (List.replicate 32 255)
        = (List.range 2).flatMap (fun s => add_float64_base FloatOps.marked Arch.NEON
            (base (sizeof_base_vector Arch.NEON .f64) (List.range 32) s)
            (base (sizeof_base_vector Arch.NEON .f64) (List.replicate 32 255) s)) ∧
      ∃ f, f ∈ [FloatOps.marked.host_add64, FloatOps.marked.sse_add64] ∧
        (∀ x y, add_float64_base FloatOps.marked Arch.NEON x y = map_lanes2 8 f x y) ∧
        ∀ i, i < (List.range 32).length / 8 →
          el 8 (add_float64 FloatOps.marked Arch.NEON (List.range 32) (List.replicate 32 255)) i = f (el 8 (List.range 32) i) (el 8 (List.replicate 32 255) i)) ∧
    (sub_float32 FloatOps.marked Arch.NEON (List.range 32) (List.replicate 32 255)
        = (List.range 2).flatMap (fun s => sub_float32_base FloatOps.marked Arch.NEON
            (base (sizeof_base_vector Arch.NEON .f32) (List.range 32) s)
            (base (sizeof_base_vector Arch.NEON .f32) (List.replicate 32 255) s)) ∧
      ∃ f, f ∈ [FloatOps.marked.host_sub32, FloatOps.marked.sse_sub32, FloatOps.marked.neon_sub32, FloatOps.marked.altivec_sub32] ∧
        (∀ x y, sub_float32_base FloatOps.marked Arch.NEON x y = map_lanes2 4 f x y) ∧
        ∀ i, i < (List.range 32).length / 4 →
          el 4 (sub_float32 FloatOps.marked Arch.NEON (List.range 32) (List.replicate 32 255)) i = f (el 4 (List.range 32) i) (el 4 (List.replicate 32 255) i)) ∧
    (sub_float64 FloatOps.marked Arch.NEON (List.range 32) (List.replicate 32 255)
        = (List.range 2).flatMap (fun s => sub_float64_base FloatOps.marked Arch.NEON
            (base (sizeof_base_vector Arch.NEON .f64) (List.range 32) s)
            (base (sizeof_base_vector Arch.NEON .f64) (List.replicate 32 255) s)) ∧
      ∃ f, f ∈ [FloatOps.marked.host_sub64, FloatOps.marked.sse_sub64] ∧
        (∀ x y, sub_float64_base FloatOps.marked Arch.NEON x y = map_lanes2 8 f x y) ∧
        ∀ i, i < (List.range 32).length / 8 →
          el 8 (sub_float64 FloatOps.marked Arch.NEON (List.range 32) (List.replicate 32 255)) i = f (el 8 (List.range 32) i) (el 8 (List.replicate 32 255) i)) ∧
    (isnan2_float32 FloatOps.marked Arch.NEON (List.range 32) (List.replicate 32 255)
        = (List.range 2).flatMap (fun s => isnan2_float32_base FloatOps.marked Arch.NEON
            (base (sizeof_base_vector Arch.NEON .f32) (List.range 32) s)
            (base (sizeof_base_vector Arch.NEON .f32) (List.replicate 32 255) s)) ∧
      ∀ i, i < (List.range 32).length / 4 →
        el 4 (isnan2_float32 FloatOps.marked Arch.NEON (List.range 32) (List.replicate 32 255)) i
          = mask_lane 4 (FloatOps.marked.isnan32 (el 4 (List.range 32) i) || FloatOps.marked.isnan32 (el 4 (List.replicate 32 255) i))) ∧
    (isnan2_float64 FloatOps.marked Arch.NEON (List.range 32) (List.replicate 32 255)
        = (List.range 2).flatMap (fun s => isnan2_float64_base FloatOps.marked Arch.NEON
            (base (sizeof_base_vector Arch.NEON .f64) (List.range 32) s)
            (base (sizeof_base_vector Arch.NEON .f64) (List.replicate 32 255) s)) ∧
      ∀ i, i < (List.range 32).length / 8 →
        el 8 (isnan2_float64 FloatOps.marked Arch.NEON (List.range 32) (List.replicate 32 255)) i
          = mask_lane 8 (FloatOps.marked.isnan64 (el 8 (List.range 32) i) || FloatOps.marked.isnan64 (el 8 (List.replicate 32 255) i)))) :=
  ⟨marked_sized, by decide, by decide, by decide,
    C18_wide_float_ops_per_base_vector FloatOps.marked Arch.NEON (List.range 32)
      (List.replicate 32 255) 2 marked_sized (by decide) (by decide) (by decide)⟩

/-- C19, as stated, fails: under the NEON profile without single-precision float
support (`SIMDPP_USE_NEON` set, `SIMDPP_USE_NEON_FLT_SP` not set) a hardware
capability is active, yet `add` and `sub` on float32x4 are computed by the
fallback `null::add` and `null::sub`, not by `vaddq_f32` and `vsubq_f32`; with
scalar operations that mark their implementation the two results differ. -/
theorem C19_counterexample :
    SIMDPP_USE_NULL Arch.NEON = false ∧ SIMDPP_USE_NEON Arch.NEON = true ∧
    add_float32x4 FloatOps.marked Arch.NEON (List.range 16) (List.range 16)
      = null.add 4 FloatOps.marked.host_add32 (List.range 16) (List.range 16) ∧
    add_float32x4 FloatOps.marked Arch.NEON (List.range 16) (List.range 16)
      ≠ vaddq_f32 FloatOps.marked (List.range 16) (List.range 16) ∧
    sub_float32x4 FloatOps.marked Arch.NEON (List.range 16) (List.range 16)
      = null.sub 4 FloatOps.marked.host_sub32 (List.range 16) (List.range 16) ∧
    sub_float32x4 FloatOps.marked Arch.NEON (List.range 16) (List.range 16)
      ≠ vsubq_f32 FloatOps.marked (List.range 16) (List.range 16) := by
  decide

/-- C19, amended: float32x4 `add` and `sub` dispatch to exactly one
implementation, chosen by the capability flags: the fallback `null::add`,
`null::sub` under the NULL profile and under NEON without
`SIMDPP_USE_NEON_FLT_SP`; `_mm_add_ps`, `_mm_sub_ps` under SSE2 (and AVX, AVX2);
`vaddq_f32`, `vsubq_f32` under NEON with `SIMDPP_USE_NEON_FLT_SP`; `vec_add`,
`vec_sub` under ALTIVEC. -/
theorem C19_float32x4_add_sub_dispatch (F : FloatOps) (arch : Arch) (a b : Vec) :
    ((SIMDPP_USE_NULL arch = true ∨
        (SIMDPP_USE_NEON arch = true ∧ SIMDPP_USE_NEON_FLT_SP arch = false)) →
      add_float32x4 F arch a b = null.add 4 F.host_add32 a b ∧
      sub_float32x4 F arch a b = null.sub 4 F.host_sub32 a b) ∧
    (SIMDPP_USE_SSE2 arch = true →
      add_float32x4 F arch a b = _mm_add_ps F a b ∧
      sub_float32x4 F arch a b = _mm_sub_ps F a b) ∧
    (SIMDPP_USE_NEON_FLT_SP arch = true →
      add_float32x4 F arch a b = vaddq_f32 F a b ∧
      sub_float32x4 F arch a b = vsubq_f32 F a b) ∧
    (SIMDPP_USE_ALTIVEC arch = true →
      add_float32x4 F arch a b = vec_add F a b ∧
      sub_float32x4 F arch a b = vec_sub F a b) := by
  cases arch <;>
    simp [add_float32x4, sub_float32x4, SIMDPP_USE_NULL, SIMDPP_USE_NEON,
      SIMDPP_USE_NEON_FLT_SP, SIMDPP_USE_SSE2, SIMDPP_USE_ALTIVEC]

/-- C20: under the NEON profiles and the ALTIVEC profile, float64x2 `add`, `sub`
and `isnan2` are computed by the fallback `null::add`, `null::sub` and
`null::isnan2`, and so return what the NULL profile returns for the same
operands. -/
theorem C20_float64x2_neon_altivec_fallback (F : FloatOps) (arch : Arch) (a b : Vec)
    (harch : SIMDPP_USE_NEON arch = true ∨ SIMDPP_USE_ALTIVEC arch = true) :
    add_float64x2 F arch a b = null.add 8 F.host_add64 a b ∧
    add_float64x2 F arch a b = add_float64x2 F Arch.NULL a b ∧
    sub_float64x2 F arch a b = null.sub 8 F.host_sub64 a b ∧
    sub_float64x2 F arch a b = sub_float64x2 F Arch.NULL a b ∧
    isnan2_float64x2 F arch a b = null.isnan2 8 F.isnan64 a b ∧
    isnan2_float64x2 F arch a b = isnan2_float64x2 F Arch.NULL a b := by
  cases arch <;>
    simp [SIMDPP_USE_NEON, SIMDPP_USE_ALTIVEC] at harch <;>
    simp [add_float64x2, sub_float64x2, isnan2_float64x2, SIMDPP_USE_NULL, SIMDPP_USE_NEON,
      SIMDPP_USE_ALTIVEC]

theorem C20_float64x2_neon_altivec_fallback_witness :
    (SIMDPP_USE_NEON Arch.NEON = true ∨ SIMDPP_USE_ALTIVEC Arch.NEON = true) ∧
    (add_float64x2 FloatOps.marked Arch.NEON (List.range 16) (List.replicate 16 255)
      = null.add 8 FloatOps.marked.host_add64 (List.range 16) (List.replicate 16 255) ∧
    add_float64x2 FloatOps.marked Arch.NEON (List.range 16) (List.replicate 16 255)
      = add_float64x2 FloatOps.marked Arch.NULL (List.range 16) (List.replicate 16 255) ∧
    sub_float64x2 FloatOps.marked Arch.NEON (List.range 16) (List.replicate 16 255)
      = null.sub 8 FloatOps.marked.host_sub64 (List.range 16) (List.replicate 16 255) ∧
    sub_float64x2 FloatOps.marked Arch.NEON (List.range 16) (List.replicate 16 255)
      = sub_float64x2 FloatOps.marked Arch.NULL (List.range 16) (List.replicate 16 255) ∧
    isnan2_float64x2 FloatOps.marked Arch.NEON (List.range 16) (List.replicate 16 255)
      = null.isnan2 8 FloatOps.marked.isnan64 (List.range 16) (List.replicate 16 255) ∧
    isnan2_float64x2 FloatOps.marked Arch.NEON (List.range 16) (List.replicate 16 255)
      = isnan2_float64x2 FloatOps.marked Arch.NULL (List.range 16) (List.replicate 16 255)) :=
  ⟨Or.inl (by decide),
    C20_float64x2_neon_altivec_fallback FloatOps.marked Arch.NEON (List.range 16)
      (List.replicate 16 255) (Or.inl (by decide))⟩

/-- C25: for every capability profile and all float32 (resp. float64) vectors
`a`, `b` of the same shape, native or wide, lane `i` of `isnan2(a, b)` is the
all-ones pattern `0xffffffff` (resp. `0xffffffffffffffff`) if `a_i` or `b_i` is a
NaN and 0 otherwise, for every lane `i`.  The NaN test on a scalar is taken as
given. -/
theorem C25_isnan2_lanes (F : FloatOps) (arch : Arch) (a b : Vec) (hb : b.length = a.length)
    (hshape : a.length = 16 ∨ ∃ k, a.length = k * sizeof_base_vector arch .f32) :
    (∀ i, i < a.length / 4 →
      el 4 (isnan2_float32 F arch a b) i
        = if (F.isnan32 (el 4 a i) || F.isnan32 (el 4 b i)) = true
          then [255, 255, 255, 255] else [0, 0, 0, 0]) ∧
    (∀ i, i < a.length / 8 →
      el 8 (isnan2_float64 F arch a b) i
        = if (F.isnan64 (el 8 a i) || F.isnan64 (el 8 b i)) = true
          then [255, 255, 255, 255, 255, 255, 255, 255] else [0, 0, 0, 0, 0, 0, 0, 0]) := by
  have hshape64 : a.length = 16 ∨ ∃ k, a.length = k * sizeof_base_vector arch .f64 := by
    rw [(float_base_size arch).1]
    exact hshape
  constructor
  · intro i hi
    rw [isnan2_float32_lanes F arch a b hb hshape i hi]
    cases (F.isnan32 (el 4 a i) || F.isnan32 (el 4 b i)) <;> rfl
  · intro i hi
    rw [isnan2_float64_lanes F arch a b hb hshape64 i hi]
    cases (F.isnan64 (el 8 a i) || F.isnan64 (el 8 b i)) <;> rfl

theorem C25_isnan2_lanes_witness :
    (List.replicate 16 255).length = (List.range 16).length ∧
    ((List.range 16).length = 16 ∨ ∃ k, (List.range 16).length = k * sizeof_base_vector Arch.NEON .f32) ∧
    (
    (∀ i, i < (List.range 16).length / 4 →
      el 4 (isnan2_float32 FloatOps.marked Arch.NEON (List.range 16) (List.replicate 16 255)) i
        = if (FloatOps.marked.isnan32 (el 4 (List.range 16) i) || FloatOps.marked.isnan32 (el 4 (List.replicate 16 255) i)) = true
          then [255, 255, 255, 255] else [0, 0, 0, 0]) ∧
    (∀ i, i < (List.range 16).length / 8 →
      el 8 (isnan2_float64 FloatOps.marked Arch.NEON (List.range 16) (List.replicate 16 255)) i
        = if (FloatOps.marked.isnan64 (el 8 (List.range 16) i) || FloatOps.marked.isnan64 (el 8 (List.replicate 16 255) i)) = true
          then [255, 255, 255, 255, 255, 255, 255, 255] else [0, 0, 0, 0, 0, 0, 0, 0])) :=
  ⟨by decide, Or.inl (by decide),
    C25_isnan2_lanes FloatOps.marked Arch.NEON (List.range 16) (List.replicate 16 255) (by decide)
      (Or.inl (by decide))⟩

/-- C26: mask invariant of `isnan2`: for every capability profile (every dispatch
path) and all float32 or float64 operands of the same shape, native or wide,
every lane of the returned mask is either 0 or the all-ones pattern of its
element width. -/
theorem C26_isnan2_mask_invariant (F : FloatOps) (arch : Arch) (a b : Vec)
    (hb : b.length = a.length)
    (hshape : a.length = 16 ∨ ∃ k, a.length = k * sizeof_base_vector arch .f32) :
    (∀ i, i < a.length / 4 →
      el 4 (isnan2_float32 F arch a b) i = List.replicate 4 0 ∨
      el 4 (isnan2_float32 F arch a b) i = List.replicate 4 255) ∧
    (∀ i, i < a.length / 8 →
      el 8 (isnan2_float64 F arch a b) i = List.replicate 8 0 ∨
      el 8 (isnan2_float64 F arch a b) i = List.replicate 8 255) := by
  have hshape64 : a.length = 16 ∨ ∃ k, a.length = k * sizeof_base_vector arch .f64 := by
    rw [(float_base_size arch).1]
    exact hshape
  constructor
  · intro i hi
    rw [isnan2_float32_lanes F arch a b hb hshape i hi]
    cases (F.isnan32 (el 4 a i) || F.isnan32 (el 4 b i))
    · exact Or.inl rfl
    · exact Or.inr rfl
  · intro i hi
    rw [isnan2_float64_lanes F arch a b hb hshape64 i hi]
    cases (F.isnan64 (el 8 a i) || F.isnan64 (el 8 b i))
    · exact Or.inl rfl
    · exact Or.inr rfl

theorem C26_isnan2_mask_invariant_witness :
    (List.replicate 64 255).length = (List.range 64).length ∧
    ((List.range 64).length = 16 ∨
      ∃ k, (List.range 64).length = k * sizeof_base_vector Arch.AVX .f32) ∧
    (
    (∀ i, i < (List.range 64).length / 4 →
      el 4 (isnan2_float32 FloatOps.marked Arch.AVX (List.range 64) (List.replicate 64 255)) i = List.replicate 4 0 ∨
      el 4 (isnan2_float32 FloatOps.marked Arch.AVX (List.range 64) (List.replicate 64 255)) i = List.replicate 4 255) ∧
    (∀ i, i < (List.range 64).length / 8 →
      el 8 (isnan2_float64 FloatOps.marked Arch.AVX (List.range 64) (List.replicate 64 255)) i = List.replicate 8 0 ∨
      el 8 (isnan2_float64 FloatOps.marked Arch.AVX (List.range 64) (List.replicate 64 255)) i = List.replicate 8 255)) :=
  ⟨by decide, Or.inr ⟨2, by decide⟩,
    C26_isnan2_mask_invariant FloatOps.marked Arch.AVX (List.range 64) (List.replicate 64 255)
      (by decide) (Or.inr ⟨2, by decide⟩)⟩

/-! ## Bitwise XOR -/

theorem el_zipWith (op : Nat → Nat → Nat) (e : Nat) (a b : Vec) (i : Nat) :
    el e (List.zipWith op a b) i = List.zipWith op (el e a i) (el e b i) := by
  unfold el
  rw [List.drop_zipWith, List.take_zipWith]

theorem bit_xor_el (e : Nat) (a b : Vec) (i : Nat) :
    el e (bit_xor a b) i = List.zipWith (fun x y => x ^^^ y) (el e a i) (el e b i) :=
  el_zipWith _ e a b i

theorem bit_xor_comm (a b : Vec) : bit_xor a b = bit_xor b a := by
  unfold bit_xor detail.insn.i_bit_xor
  simp only
  rw [List.zipWith_comm]
  congr 1
  funext x y
  exact Nat.xor_comm y x

theorem bit_xor_length (a b : Vec) (hb : b.length = a.length) :
    (bit_xor a b).length = a.length := by
  simp [bit_xor, detail.insn.i_bit_xor, hb]

theorem xor_byte_lt (x y : Nat) (hx : x < 256) (hy : y < 256) : x ^^^ y < 256 :=
  Nat.xor_lt_two_pow (show x < 2 ^ 8 from hx) (show y < 2 ^ 8 from hy)

theorem xor_split (x y X Y : Nat) (hx : x < 256) (hy : y < 256) :
    (x + 256 * X) ^^^ (y + 256 * Y) = (x ^^^ y) + 256 * (X ^^^ Y) := by
  have hxy := xor_byte_lt x y hx hy
  apply Nat.eq_of_testBit_eq
  intro j
  have e1 : x + 256 * X = 2 ^ 8 * X + x := by omega
  have e2 : y + 256 * Y = 2 ^ 8 * Y + y := by omega
  have e3 : (x ^^^ y) + 256 * (X ^^^ Y) = 2 ^ 8 * (X ^^^ Y) + (x ^^^ y) := by omega
  rw [e1, e2, e3, Nat.testBit_xor, Nat.testBit_mul_pow_two_add X hx,
    Nat.testBit_mul_pow_two_add Y hy, Nat.testBit_mul_pow_two_add _ hxy]
  by_cases h : j < 8 <;> simp [h, Nat.testBit_xor]

theorem lane_value_xor : ∀ (x y : List Nat), x.length = y.length →
    (∀ v ∈ x, v < 256) → (∀ v ∈ y, v < 256) →
    lane_value (List.zipWith (fun u v => u ^^^ v) x y) = lane_value x ^^^ lane_value y := by
  intro x
  induction x with
  | nil =>
    intro y hl _ _
    cases y with
    | nil => rfl
    | cons _ _ => simp at hl
  | cons u us ih =>
    intro y hl hx hy
    cases y with
    | nil => simp at hl
    | cons v vs =>
      simp only [List.zipWith_cons_cons, lane_value]
      rw [ih vs (by simpa using hl) (fun w hw => hx w (List.mem_cons_of_mem _ hw))
        (fun w hw => hy w (List.mem_cons_of_mem _ hw))]
      exact (xor_split u v (lane_value us) (lane_value vs)
        (hx u (List.mem_cons_self _ _)) (hy v (List.mem_cons_self _ _))).symm

theorem el_mem (e : Nat) (a : Vec) (i : Nat) (v : Nat) (hv : v ∈ el e a i) : v ∈ a := by
  unfold el at hv
  exact List.mem_of_mem_drop (List.mem_of_mem_take hv)

theorem make_const_el (conv : Scalar → List Nat) (e n : Nat) (x : Scalar)
    (hc : (conv x).length = e) (i : Nat) (hi : i < n) :
    el e (detail.make_const conv n x) i = conv x := by
  unfold detail.make_const
  exact el_flatMap_range (fun _ => conv x) e n (fun _ _ => hc) i hi

theorem make_const_length (conv : Scalar → List Nat) (e n : Nat) (x : Scalar)
    (hc : (conv x).length = e) :
    (detail.make_const conv n x).length = n * e := by
  unfold detail.make_const
  exact length_flatMap_range (fun _ => conv x) e n (fun _ _ => hc)

/-- C23: for all vectors `a`, `b` of the same size and every element size `e`
(integer or floating-point elements, native or wide vectors), lane `i` of
`bit_xor(a, b)` holds the bitwise XOR of lanes `i` of `a` and `b`, for every lane
`i`: byte by byte, and as the unsigned number that the lane's bits encode. -/
theorem C23_bit_xor_lanes (e : Nat) (a b : Vec) (hb : b.length = a.length) :
    (bit_xor a b).length = a.length ∧
    ∀ i, i < a.length / e →
      el e (bit_xor a b) i
        = List.zipWith (fun x y => x ^^^ y) (el e a i) (el e b i) ∧
      ((∀ v ∈ a, v < 256) → (∀ v ∈ b, v < 256) →
        lane_value (el e (bit_xor a b) i)
          = lane_value (el e a i) ^^^ lane_value (el e b i)) := by
  refine ⟨bit_xor_length a b hb, fun i _ => ⟨bit_xor_el e a b i, fun h1 h2 => ?_⟩⟩
  rw [bit_xor_el e a b i]
  apply lane_value_xor
  · unfold el
    simp [hb]
  · exact fun v hv => h1 v (el_mem e a i v hv)
  · exact fun v hv => h2 v (el_mem e b i v hv)

theorem C23_bit_xor_lanes_witness :
    (List.replicate 16 255).length = (List.range 16).length ∧
    (
    (bit_xor (List.range 16) (List.replicate 16 255)).length = (List.range 16).length ∧
    ∀ i, i < (List.range 16).length / 4 →
      el 4 (bit_xor (List.range 16) (List.replicate 16 255)) i
        = List.zipWith (fun x y => x ^^^ y) (el 4 (List.range 16) i) (el 4 (List.replicate 16 255) i) ∧
      ((∀ v ∈ (List.range 16), v < 256) → (∀ v ∈ (List.replicate 16 255), v < 256) →
        lane_value (el 4 (bit_xor (List.range 16) (List.replicate 16 255)) i)
          = lane_value (el 4 (List.range 16) i) ^^^ lane_value (el 4 (List.replicate 16 255) i))) :=
  ⟨by decide, C23_bit_xor_lanes 4 (List.range 16) (List.replicate 16 255) (by decide)⟩

/-- C24: the scalar-operand overloads of `bit_xor` are sugar: for every scalar `s`
of one of the six scalar types and every vector `v` of `n` lanes of `T`,
`bit_xor(s, v)` is `bit_xor(broadcast(s), v)` and `bit_xor(v, s)` is
`bit_xor(v, broadcast(s))`, where `broadcast(s)` has the shape of `v` and every
lane equal to `s` converted to the element type; both operand orders give the
same result, whose lane `i` is the converted `s` XOR lane `i` of `v`.  The
conversion of a scalar to an element is taken as given. -/
theorem C24_bit_xor_scalar_overloads (conv : Elem → Scalar → List Nat) (T : Elem) (s : Scalar)
    (v : Vec) (n : Nat) (hc : (conv T s).length = T.size) (hv : v.length = n * T.size) :
    bit_xor_scalar_vec conv T s v
      = bit_xor (detail.make_const (conv T) (v.length / T.size) s) v ∧
    bit_xor_vec_scalar conv T v s
      = bit_xor v (detail.make_const (conv T) (v.length / T.size) s) ∧
    (detail.make_const (conv T) (v.length / T.size) s).length = v.length ∧
    (∀ i, i < v.length / T.size →
      el T.size (detail.make_const (conv T) (v.length / T.size) s) i = conv T s) ∧
    bit_xor_scalar_vec conv T s v = bit_xor_vec_scalar conv T v s ∧
    (∀ i, i < v.length / T.size →
      el T.size (bit_xor_scalar_vec conv T s v) i
        = List.zipWith (fun x y => x ^^^ y) (conv T s) (el T.size v i)) := by
  have hn : v.length / T.size = n := by
    rw [hv, Nat.mul_div_cancel n (elem_size_pos T)]
  have hlen : (detail.make_const (conv T) (v.length / T.size) s).length = v.length := by
    rw [make_const_length (conv T) T.size _ s hc, hn, hv]
  have hcomm : bit_xor_scalar_vec conv T s v = bit_xor_vec_scalar conv T v s :=
    bit_xor_comm _ _
  refine ⟨rfl, rfl, hlen, fun i hi => make_const_el (conv T) T.size _ s hc i hi, hcomm,
    fun i hi => ?_⟩
  unfold bit_xor_scalar_vec
  rw [bit_xor_el, make_const_el (conv T) T.size _ s hc i hi]

theorem C24_bit_xor_scalar_overloads_witness :
    (sample_conv Elem.i32 (Scalar.int32_t (-2))).length = Elem.i32.size ∧
    (List.range 16).length = 4 * Elem.i32.size ∧
    (
    bit_xor_scalar_vec sample_conv Elem.i32 (Scalar.int32_t (-2)) (List.range 16)
      = bit_xor (detail.make_const (sample_conv Elem.i32) ((List.range 16).length / Elem.i32.size) (Scalar.int32_t (-2))) (List.range 16) ∧
    bit_xor_vec_scalar sample_conv Elem.i32 (List.range 16) (Scalar.int32_t (-2))
      = bit_xor (List.range 16) (detail.make_const (sample_conv Elem.i32) ((List.range 16).length / Elem.i32.size) (Scalar.int32_t (-2))) ∧
    (detail.make_const (sample_conv Elem.i32) ((List.range 16).length / Elem.i32.size) (Scalar.int32_t (-2))).length = (List.range 16).length ∧
    (∀ i, i < (List.range 16).length / Elem.i32.size →
      el Elem.i32.size (detail.make_const (sample_conv Elem.i32) ((List.range 16).length / Elem.i32.size) (Scalar.int32_t (-2))) i = sample_conv Elem.i32 (Scalar.int32_t (-2))) ∧
    bit_xor_scalar_vec sample_conv Elem.i32 (Scalar.int32_t (-2)) (List.range 16) = bit_xor_vec_scalar sample_conv Elem.i32 (List.range 16) (Scalar.int32_t (-2)) ∧
    (∀ i, i < (List.range 16).length / Elem.i32.size →
      el Elem.i32.size (bit_xor_scalar_vec sample_conv Elem.i32 (Scalar.int32_t (-2)) (List.range 16)) i
        = List.zipWith (fun x y => x ^^^ y) (sample_conv Elem.i32 (Scalar.int32_t (-2))) (el Elem.i32.size (List.range 16) i))) :=
  ⟨by decide, by decide,
    C24_bit_xor_scalar_overloads sample_conv Elem.i32 (Scalar.int32_t (-2)) (List.range 16) 4
      (by decide) (by decide)⟩

/-! ## Index maps, compositions and invariants -/

/-- C31: for `K` in `{2,3}` and vectors of `N` lanes (native or wide, every element
type and capability profile), the destination index map `(i, j) -> i*K + j` of
`store_packedK` sends `[0,N) x [0,K)` into `[0, K*N)`, every destination element
`d < K*N` is `i*K + j` for exactly one pair `(i, j)`, after the store element `d`
of the target region holds lane `i` of source vector `j` of that pair, and no
byte outside the `K*N` elements of the region is changed. -/
theorem C31_store_packed_index_bijection (arch : Arch) (T : Elem) (m : Mem) (p : Nat)
    (a b c : Vec) (hb : b.length = a.length) (hc : c.length = a.length) (hp : p % 16 = 0)
    (hshape : a.length = 16 ∨ ∃ k, a.length = k * sizeof_base_vector arch T) :
    (∀ i j, i < a.length / T.size → j < 2 → i * 2 + j < 2 * (a.length / T.size)) ∧
    (∀ d, d < 2 * (a.length / T.size) →
      ∃ i j, i < a.length / T.size ∧ j < 2 ∧ d = i * 2 + j ∧
        (∀ i2 j2, j2 < 2 → d = i2 * 2 + j2 → i2 = i ∧ j2 = j) ∧
        readBytes (store_packed2 arch T m p a b) (p + d * T.size) T.size
          = el T.size ([a, b].getD j []) i) ∧
    (∀ x, x < p ∨ p + 2 * (a.length / T.size) * T.size ≤ x →
      store_packed2 arch T m p a b x = m x) ∧
    (∀ i j, i < a.length / T.size → j < 3 → i * 3 + j < 3 * (a.length / T.size)) ∧
    (∀ d, d < 3 * (a.length / T.size) →
      ∃ i j, i < a.length / T.size ∧ j < 3 ∧ d = i * 3 + j ∧
        (∀ i2 j2, j2 < 3 → d = i2 * 3 + j2 → i2 = i ∧ j2 = j) ∧
        readBytes (store_packed3 arch T m p a b c) (p + d * T.size) T.size
          = el T.size ([a, b, c].getD j []) i) ∧
    (∀ x, x < p ∨ p + 3 * (a.length / T.size) * T.size ≤ x →
      store_packed3 arch T m p a b c x = m x) := by
  have h2 := store_packed2_layout arch T m p a b hb hp hshape
  have h3 := store_packed3_layout arch T m p a b c hb hc hp hshape
  have hd := shape_div arch T a hshape
  refine ⟨fun i j hi hj => by omega, fun d hd => ?_, fun x hx => ?_,
    fun i j hi hj => by omega, fun d hd => ?_, fun x hx => ?_⟩
  · have hj : d % 2 < 2 := Nat.mod_lt d (by decide)
    have hd2 : d = d / 2 * 2 + d % 2 := (Nat.div_add_mod' d 2).symm
    refine ⟨d / 2, d % 2, by omega, hj, hd2, fun i2 j2 hj2 he => by omega, ?_⟩
    have hl := h2 (d / 2) (by omega)
    generalize d / 2 = i at hd2 hl
    generalize d % 2 = j at hj hd2
    subst hd2
    interval_cases j
    · exact hl.1
    · exact hl.2
  · obtain ⟨r, hr, hlen, _⟩ := store_packed2_region arch T m p a b hb hp hshape
    rw [hr]
    apply write_outside
    rw [hlen]
    rw [Nat.mul_assoc, hd] at hx
    exact hx
  · have hj : d % 3 < 3 := Nat.mod_lt d (by decide)
    have hd3 : d = d / 3 * 3 + d % 3 := (Nat.div_add_mod' d 3).symm
    refine ⟨d / 3, d % 3, by omega, hj, hd3, fun i2 j2 hj2 he => by omega, ?_⟩
    have hl := h3 (d / 3) (by omega)
    generalize d / 3 = i at hd3 hl
    generalize d % 3 = j at hj hd3
    subst hd3
    interval_cases j
    · exact hl.1
    · exact hl.2.1
    · exact hl.2.2
  · obtain ⟨r, hr, hlen, _⟩ := store_packed3_region arch T m p a b c hb hc hp hshape
    rw [hr]
    apply write_outside
    rw [hlen]
    rw [Nat.mul_assoc, hd] at hx
    exact hx

theorem C31_store_packed_index_bijection_witness :
    (List.replicate 32 7).length = (List.range 32).length ∧
    (List.replicate 32 9).length = (List.range 32).length ∧ 64 % 16 = 0 ∧
    ((List.range 32).length = 16 ∨
      ∃ k, (List.range 32).length = k * sizeof_base_vector Arch.SSE2 Elem.i16) ∧
    (
    (∀ i j, i < (List.range 32).length / Elem.i16.size → j < 2 → i * 2 + j < 2 * ((List.range 32).length / Elem.i16.size)) ∧
    (∀ d, d < 2 * ((List.range 32).length / Elem.i16.size) →
      ∃ i j, i < (List.range 32).length / Elem.i16.size ∧ j < 2 ∧ d = i * 2 + j ∧
        (∀ i2 j2, j2 < 2 → d = i2 * 2 + j2 → i2 = i ∧ j2 = j) ∧
        readBytes (store_packed2 Arch.SSE2 Elem.i16 (fun _ => 0) 64 (List.range 32) (List.replicate 32 7)) (64 + d * Elem.i16.size) Elem.i16.size
          = el Elem.i16.size ([(List.range 32), (List.replicate 32 7)].getD j []) i) ∧
    (∀ x, x < 64 ∨ 64 + 2 * ((List.range 32).length / Elem.i16.size) * Elem.i16.size ≤ x →
      store_packed2 Arch.SSE2 Elem.i16 (fun _ => 0) 64 (List.range 32) (List.replicate 32 7) x = (fun _ => 0) x) ∧
    (∀ i j, i < (List.range 32).length / Elem.i16.size → j < 3 → i * 3 + j < 3 * ((List.range 32).length / Elem.i16.size)) ∧
    (∀ d, d < 3 * ((List.range 32).length / Elem.i16.size) →
      ∃ i j, i < (List.range 32).length / Elem.i16.size ∧ j < 3 ∧ d = i * 3 + j ∧
        (∀ i2 j2, j2 < 3 → d = i2 * 3 + j2 → i2 = i ∧ j2 = j) ∧
        readBytes (store_packed3 Arch.SSE2 Elem.i16 (fun _ => 0) 64 (List.range 32) (List.replicate 32 7) (List.replicate 32 9)) (64 + d * Elem.i16.size) Elem.i16.size
          = el Elem.i16.size ([(List.range 32), (List.replicate 32 7), (List.replicate 32 9)].getD j []) i) ∧
    (∀ x, x < 64 ∨ 64 + 3 * ((List.range 32).length / Elem.i16.size) * Elem.i16.size ≤ x →
      store_packed3 Arch.SSE2 Elem.i16 (fun _ => 0) 64 (List.range 32) (List.replicate 32 7) (List.replicate 32 9) x = (fun _ => 0) x)) :=
  ⟨by decide, by decide, by decide, Or.inr ⟨2, by decide⟩,
    C31_store_packed_index_bijection Arch.SSE2 Elem.i16 (fun _ => 0) 64 (List.range 32)
      (List.replicate 32 7) (List.replicate 32 9) (by decide) (by decide) (by decide)
      (Or.inr ⟨2, by decide⟩)⟩

theorem unsigned_mul_wrap (s e : Nat) (he : e = 2 ∨ e = 4 ∨ e = 8) :
    unsigned_mul (s + 2 ^ 32 / e) e = unsigned_mul s e := by
  unfold unsigned_mul
  rcases he with h | h | h <;> subst h <;> omega

/-- C32: for 16-, 32- and 64-bit elements (integer, and the float types that
forward to them), element size `e`, `move_r<s>` forwards the byte shift
`s*e mod 2^32` to the 8-bit `move_r`, whose range check sees only that product:
for every shift `s` such that `s + 2^32/e` is an `unsigned` value, `move_r<s>` and
`move_r<s + 2^32/e>` are accepted or rejected alike and return the same vector;
on 16-bit lanes shift `2^31` behaves as shift 0 and returns `a`. -/
theorem C32_move_r_shift_wraps (arch : Arch) (T : Elem) (s : Nat) (r0 a : Vec)
    (hT : T ≠ .i8) (hs : s + 2 ^ 32 / T.size < 2 ^ 32) :
    move_r arch T s r0 a = move_r_8 arch (s * T.size % 2 ^ 32) r0 a ∧
    move_r arch T (s + 2 ^ 32 / T.size) r0 a = move_r arch T s r0 a ∧
    ((move_r arch T (s + 2 ^ 32 / T.size) r0 a).isSome
      = (move_r arch T s r0 a).isSome) ∧
    move_r arch .i16 (2 ^ 31) r0 a = move_r arch .i16 0 r0 a ∧
    move_r arch .i16 (2 ^ 31) r0 a = some a := by
  have hfwd : ∀ n, move_r arch T n r0 a = move_r_8 arch (unsigned_mul n T.size) r0 a := by
    intro n
    cases T
    · exact absurd rfl hT
    all_goals rfl
  have he : T.size = 2 ∨ T.size = 4 ∨ T.size = 8 := by
    cases T
    · exact absurd rfl hT
    all_goals simp [Elem.size]
  have hw : move_r arch T (s + 2 ^ 32 / T.size) r0 a = move_r arch T s r0 a := by
    rw [hfwd, hfwd, unsigned_mul_wrap s T.size he]
  have h31 : unsigned_mul (2 ^ 31) 2 = 0 := by decide
  have h0 : unsigned_mul 0 2 = 0 := by decide
  have h16 : ∀ n, move_r arch .i16 n r0 a = move_r_8 arch (unsigned_mul n 2) r0 a :=
    fun _ => rfl
  refine ⟨hfwd s, hw, by rw [hw], ?_, ?_⟩
  · rw [h16, h16, h31, h0]
  · rw [h16, h31]
    exact move_r_8_zero_shift arch r0 a

theorem C32_move_r_shift_wraps_witness :
    Elem.i32 ≠ .i8 ∧ 3 + 2 ^ 32 / Elem.i32.size < 2 ^ 32 ∧
    (
    move_r Arch.NEON Elem.i32 3 (zero 16) (List.range 16) = move_r_8 Arch.NEON (3 * Elem.i32.size % 2 ^ 32) (zero 16) (List.range 16) ∧
    move_r Arch.NEON Elem.i32 (3 + 2 ^ 32 / Elem.i32.size) (zero 16) (List.range 16) = move_r Arch.NEON Elem.i32 3 (zero 16) (List.range 16) ∧
    ((move_r Arch.NEON Elem.i32 (3 + 2 ^ 32 / Elem.i32.size) (zero 16) (List.range 16)).isSome
      = (move_r Arch.NEON Elem.i32 3 (zero 16) (List.range 16)).isSome) ∧
    move_r Arch.NEON .i16 (2 ^ 31) (zero 16) (List.range 16) = move_r Arch.NEON .i16 0 (zero 16) (List.range 16) ∧
    move_r Arch.NEON .i16 (2 ^ 31) (zero 16) (List.range 16) = some (List.range 16)) :=
  ⟨by decide, by decide,
    C32_move_r_shift_wraps Arch.NEON Elem.i32 3 (zero 16) (List.range 16) (by decide)
      (by decide)⟩

theorem shifted_shifted (s t : Nat) (a : Vec) (ha : a.length = 16) :
    (List.replicate s 0 ++ (List.replicate t 0 ++ a).take 16).take 16
      = (List.replicate (s + t) 0 ++ a).take 16 := by
  apply ext_getD
  · rw [shifted_length s _ (shifted_length t a ha), shifted_length (s + t) a ha]
  · intro j hj
    rw [shifted_length s _ (shifted_length t a ha)] at hj
    rw [shifted_getD s _ j hj, shifted_getD (s + t) a j hj]
    by_cases h1 : j < s
    · rw [if_pos h1, if_pos (by omega)]
    · rw [if_neg h1, shifted_getD t a (j - s) (by omega)]
      by_cases h2 : j - s < t
      · rw [if_pos h2, if_pos (by omega)]
      · rw [if_neg h2, if_neg (by omega)]
        congr 1
        omega

/-- C33: `move_r` composes additively: for every 16-lane 8-bit vector `a`, every
capability profile and all shifts `s`, `t` with `s + t <= 16`,
`move_r<s>(move_r<t>(a)) == move_r<s+t>(a)`, whatever the initial content of
the fallback's local result in each of the three calls. -/
theorem C33_move_r_composes (arch : Arch) (s t : Nat) (r0 r1 r2 a : Vec) (hst : s + t ≤ 16)
    (ha : a.length = 16) (hr0 : r0.length = 16) (hr1 : r1.length = 16) (hr2 : r2.length = 16) :
    (move_r arch .i8 t r0 a).bind (fun x => move_r arch .i8 s r1 x)
      = move_r arch .i8 (s + t) r2 a ∧
    move_r arch .i8 (s + t) r2 a = some ((List.replicate (s + t) 0 ++ a).take 16) := by
  have h8 : ∀ n r x, x.length = 16 → r.length = 16 → n ≤ 16 →
      move_r arch .i8 n r x = some ((List.replicate n 0 ++ x).take 16) := by
    intro n r x hx hr hn
    simp only [move_r, move_r_8, hx, if_true]
    exact move_r_gint8x16_eq arch n r x hn hx hr
  rw [h8 t r0 a ha hr0 (by omega), h8 (s + t) r2 a ha hr2 hst, Option.some_bind,
    h8 s r1 _ (shifted_length t a ha) hr1 (by omega), shifted_shifted s t a ha]
  exact ⟨rfl, rfl⟩

theorem C33_move_r_composes_witness :
    3 + 5 ≤ 16 ∧ (List.range 16).length = 16 ∧ (zero 16).length = 16 ∧
    (List.replicate 16 7).length = 16 ∧ (List.replicate 16 9).length = 16 ∧
    ((move_r Arch.NULL .i8 5 (zero 16) (List.range 16)).bind
        (fun x => move_r Arch.NULL .i8 3 (List.replicate 16 7) x)
      = move_r Arch.NULL .i8 (3 + 5) (List.replicate 16 9) (List.range 16) ∧
    move_r Arch.NULL .i8 (3 + 5) (List.replicate 16 9) (List.range 16)
      = some ((List.replicate (3 + 5) 0 ++ List.range 16).take 16)) :=
  ⟨by decide, by decide, by decide, by decide, by decide,
    C33_move_r_composes Arch.NULL 3 5 (zero 16) (List.replicate 16 7) (List.replicate 16 9)
      (List.range 16) (by decide) (by decide) (by decide) (by decide) (by decide)⟩

theorem move_r_null_loops_trace (shift : Nat) (r0 a : Vec) :
    move_r_null_loops shift r0 a
      = (move_r_null_assigned shift).foldl
          (fun r i => r.set i (if i < shift then 0 else a.getD (i - shift) 0)) r0 := by
  unfold move_r_null_loops move_r_null_assigned
  rw [List.foldl_append]
  have h1 : (List.range shift).foldl
      (fun r i => r.set i (if i < shift then 0 else a.getD (i - shift) 0)) r0
      = (List.range shift).foldl (fun r i => r.set i 0) r0 := by
    apply List.foldl_ext
    intro r i hi
    rw [if_pos (List.mem_range.mp hi)]
  rw [h1]
  apply List.foldl_ext
  intro r i hi
  have h2 : shift ≤ i := by simpa using (List.mem_filter.mp hi).2
  rw [if_neg (by omega)]

theorem move_r_null_assigned_eq (shift : Nat) (hs : shift ≤ 16) :
    move_r_null_assigned shift = List.range 16 := by
  interval_cases shift <;> rfl

/-- C34: on a 16-lane 8-bit vector the early returns of `move_r` are shortcuts:
the two loops of the fallback path, run at shift 0 and at shift 16, give `a` and
the zero vector, the values of the early returns; and for every
`0 <= shift <= 16` the two loops assign the lanes `0, 1, ..., 15` in this order,
each lane exactly once, so that the result does not depend on the initial
content of the local result. -/
theorem C34_move_r_early_returns_are_shortcuts (arch : Arch) (r0 a : Vec)
    (ha : a.length = 16) (hr : r0.length = 16) :
    move_r_null_loops 0 r0 a = a ∧
    move_r_gint8x16 arch 0 r0 a = some (move_r_null_loops 0 r0 a) ∧
    move_r_null_loops 16 r0 a = zero 16 ∧
    move_r_gint8x16 arch 16 r0 a = some (move_r_null_loops 16 r0 a) ∧
    ∀ shift, shift ≤ 16 →
      move_r_null_loops shift r0 a
        = (move_r_null_assigned shift).foldl
            (fun r i => r.set i (if i < shift then 0 else a.getD (i - shift) 0)) r0 ∧
      move_r_null_assigned shift = List.range 16 ∧
      (∀ i, i < 16 → (move_r_null_assigned shift).count i = 1) ∧
      (∀ i, i ∈ move_r_null_assigned shift → i < 16) ∧
      (∀ r1 : Vec, r1.length = 16 →
        move_r_null_loops shift r1 a = move_r_null_loops shift r0 a) := by
  have e0 : move_r_null_loops 0 r0 a = a := by
    rw [move_r_null_loops_eq 0 r0 a ha hr]
    simp [← ha]
  have e16 : move_r_null_loops 16 r0 a = zero 16 := by
    rw [move_r_null_loops_eq 16 r0 a ha hr]
    simp [zero]
  refine ⟨e0, ?_, e16, ?_, ?_⟩
  · rw [e0]
    simp [move_r_gint8x16]
  · rw [e16]
    simp [move_r_gint8x16]
  · intro shift hs
    have hl := move_r_null_assigned_eq shift hs
    refine ⟨move_r_null_loops_trace shift r0 a, hl, ?_, ?_, ?_⟩
    · intro i hi
      rw [hl]
      exact List.count_eq_one_of_mem (List.nodup_range 16) (List.mem_range.mpr hi)
    · intro i hi
      rw [hl] at hi
      exact List.mem_range.mp hi
    · intro r1 hr1
      rw [move_r_null_loops_eq shift r1 a ha hr1, move_r_null_loops_eq shift r0 a ha hr]

theorem C34_move_r_early_returns_are_shortcuts_witness :
    (List.range 16).length = 16 ∧ (List.replicate 16 7).length = 16 ∧
    (move_r_null_loops 0 (List.replicate 16 7) (List.range 16) = List.range 16 ∧
    move_r_gint8x16 Arch.NULL 0 (List.replicate 16 7) (List.range 16)
      = some (move_r_null_loops 0 (List.replicate 16 7) (List.range 16)) ∧
    move_r_null_loops 16 (List.replicate 16 7) (List.range 16) = zero 16 ∧
    move_r_gint8x16 Arch.NULL 16 (List.replicate 16 7) (List.range 16)
      = some (move_r_null_loops 16 (List.replicate 16 7) (List.range 16)) ∧
    ∀ shift, shift ≤ 16 →
      move_r_null_loops shift (List.replicate 16 7) (List.range 16)
        = (move_r_null_assigned shift).foldl
            (fun r i => r.set i (if i < shift then 0 else (List.range 16).getD (i - shift) 0))
            (List.replicate 16 7) ∧
      move_r_null_assigned shift = List.range 16 ∧
      (∀ i, i < 16 → (move_r_null_assigned shift).count i = 1) ∧
      (∀ i, i ∈ move_r_null_assigned shift → i < 16) ∧
      (∀ r1 : Vec, r1.length = 16 →
        move_r_null_loops shift r1 (List.range 16)
          = move_r_null_loops shift (List.replicate 16 7) (List.range 16))) :=
  ⟨by decide, by decide,
    C34_move_r_early_returns_are_shortcuts Arch.NULL (List.replicate 16 7) (List.range 16)
      (by decide) (by decide)⟩

theorem ext_el (e n : Nat) (x y : Vec) (hx : x.length = n * e) (hy : y.length = n * e)
    (h : ∀ i, i < n → el e x i = el e y i) : x = y := by
  have h1 := flatMap_el_range e x n
  have h2 := flatMap_el_range e y n
  rw [← hx, List.take_length] at h1
  rw [← hy, List.take_length] at h2
  rw [← h1, ← h2]
  exact flatMap_range_congr _ _ n h

theorem null_permute2_comp (e s0 s1 t0 t1 : Nat) (a : Vec) (n : Nat)
    (ha : a.length = n * (2 * e)) (he : 0 < e)
    (hs0 : s0 < 2) (hs1 : s1 < 2) (ht0 : t0 < 2) (ht1 : t1 < 2) :
    null.permute2 e s0 s1 (null.permute2 e t0 t1 a)
      = null.permute2 e (if s0 = 0 then t0 else t1) (if s1 = 0 then t0 else t1) a := by
  obtain ⟨hl1, hp1⟩ := null_permute2_lanes e t0 t1 a n ha he ht0 ht1
  obtain ⟨hl2, hp2⟩ := null_permute2_lanes e s0 s1 (null.permute2 e t0 t1 a) n
    (by rw [hl1, ha]) he hs0 hs1
  have hu0 : (if s0 = 0 then t0 else t1) < 2 := by split_ifs <;> assumption
  have hu1 : (if s1 = 0 then t0 else t1) < 2 := by split_ifs <;> assumption
  obtain ⟨hl3, hp3⟩ := null_permute2_lanes e _ _ a n ha he hu0 hu1
  have hsel : ∀ g s, g < n → s < 2 →
      el e (null.permute2 e t0 t1 a) (2 * g + s) = el e a (2 * g + if s = 0 then t0 else t1) := by
    intro g s hg hs
    interval_cases s
    · exact (hp1 g hg).1
    · exact (hp1 g hg).2
  apply ext_el e (n * 2)
  · rw [hl2, hl1, ha]; ring
  · rw [hl3, ha]; ring
  · intro i hi
    have hg : i / 2 < n := by omega
    have hi2 : i = 2 * (i / 2) + i % 2 := (Nat.div_add_mod i 2).symm
    have hr : i % 2 < 2 := Nat.mod_lt i (by decide)
    generalize i / 2 = g at hg hi2
    generalize i % 2 = r at hr hi2
    subst hi2
    interval_cases r
    · rw [Nat.add_zero, (hp2 g hg).1, (hp3 g hg).1, hsel g s0 hg hs0]
    · rw [(hp2 g hg).2, (hp3 g hg).2, hsel g s1 hg hs1]

theorem null_permute2_id (e : Nat) (a : Vec) (n : Nat) (ha : a.length = n * (2 * e))
    (he : 0 < e) : null.permute2 e 0 1 a = a := by
  obtain ⟨hl, hp⟩ := null_permute2_lanes e 0 1 a n ha he (by decide) (by decide)
  apply ext_el e (n * 2)
  · rw [hl, ha]; ring
  · rw [ha]; ring
  · intro i hi
    have hg : i / 2 < n := by omega
    have hi2 : i = 2 * (i / 2) + i % 2 := (Nat.div_add_mod i 2).symm
    have hr : i % 2 < 2 := Nat.mod_lt i (by decide)
    generalize i / 2 = g at hg hi2
    generalize i % 2 = r at hr hi2
    subst hi2
    interval_cases r
    · exact (hp g hg).1
    · exact (hp g hg).2

/-- C35: two-selector permutes compose by selector substitution: for all
`s0, s1, t0, t1` in `{0,1}`, every 128- or 256-bit vector `a` of 16-, 32- or 64-bit
integer, float32 or float64 elements and every capability profile,
`permute<s0,s1>(permute<t0,t1>(a)) == permute<t_s0, t_s1>(a)`, and this permute
is accepted; `permute<0,1>` is the identity and `permute<1,0>` applied twice
returns `a`. -/
theorem C35_permute2_composes (arch : Arch) (T : Elem) (s0 s1 t0 t1 : Nat) (a : Vec)
    (hT : T ≠ .i8) (hs0 : s0 < 2) (hs1 : s1 < 2) (ht0 : t0 < 2) (ht1 : t1 < 2)
    (hlen : a.length = 16 ∨ a.length = 32) :
    (permute arch T t0 t1 a).bind (fun b => permute arch T s0 s1 b)
      = permute arch T (if s0 = 0 then t0 else t1) (if s1 = 0 then t0 else t1) a ∧
    (permute arch T (if s0 = 0 then t0 else t1) (if s1 = 0 then t0 else t1)
      a).isSome = true ∧
    permute arch T 0 1 a = some a ∧
    (permute arch T 1 0 a).bind (fun b => permute arch T 1 0 b) = some a := by
  have hcnt := permute_pairs_count T a hT hlen
  have he := elem_size_pos T
  have hu0 : (if s0 = 0 then t0 else t1) < 2 := by split_ifs <;> assumption
  have hu1 : (if s1 = 0 then t0 else t1) < 2 := by split_ifs <;> assumption
  have hpl : ∀ u0 u1, u0 < 2 → u1 < 2 →
      (null.permute2 T.size u0 u1 a).length = 16 ∨ (null.permute2 T.size u0 u1 a).length = 32 := by
    intro u0 u1 h0 h1
    rw [(null_permute2_lanes T.size u0 u1 a _ hcnt he h0 h1).1]
    exact hlen
  have hcomp : ∀ u0 u1 v0 v1, u0 < 2 → u1 < 2 → v0 < 2 → v1 < 2 →
      (permute arch T v0 v1 a).bind (fun b => permute arch T u0 u1 b)
        = some (null.permute2 T.size u0 u1 (null.permute2 T.size v0 v1 a)) := by
    intro u0 u1 v0 v1 h0 h1 h2 h3
    rw [permute_eq arch T v0 v1 a hT h2 h3 hlen, Option.some_bind,
      permute_eq arch T u0 u1 _ hT h0 h1 (hpl v0 v1 h2 h3)]
  have hid := null_permute2_id T.size a _ hcnt he
  refine ⟨?_, ?_, ?_, ?_⟩
  · rw [hcomp s0 s1 t0 t1 hs0 hs1 ht0 ht1, permute_eq arch T _ _ a hT hu0 hu1 hlen,
      null_permute2_comp T.size s0 s1 t0 t1 a _ hcnt he hs0 hs1 ht0 ht1]
  · rw [permute_eq arch T _ _ a hT hu0 hu1 hlen]
    rfl
  · rw [permute_eq arch T 0 1 a hT (by decide) (by decide) hlen, hid]
  · rw [hcomp 1 0 1 0 (by decide) (by decide) (by decide) (by decide),
      null_permute2_comp T.size 1 0 1 0 a _ hcnt he (by decide) (by decide) (by decide)
        (by decide)]
    exact congrArg some hid

theorem C35_permute2_composes_witness :
    Elem.i32 ≠ .i8 ∧ 1 < 2 ∧ 1 < 2 ∧ 1 < 2 ∧ 0 < 2 ∧
    ((List.range 32).length = 16 ∨ (List.range 32).length = 32) ∧
    (
    (permute Arch.AVX2 Elem.i32 1 0 (List.range 32)).bind (fun b => permute Arch.AVX2 Elem.i32 1 1 b)
      = permute Arch.AVX2 Elem.i32 (if 1 = 0 then 1 else 0) (if 1 = 0 then 1 else 0) (List.range 32) ∧
    (permute Arch.AVX2 Elem.i32 (if 1 = 0 then 1 else 0) (if 1 = 0 then 1 else 0)
      (List.range 32)).isSome = true ∧
    permute Arch.AVX2 Elem.i32 0 1 (List.range 32) = some (List.range 32) ∧
    (permute Arch.AVX2 Elem.i32 1 0 (List.range 32)).bind (fun b => permute Arch.AVX2 Elem.i32 1 0 b) = some (List.range 32)) :=
  ⟨by decide, by decide, by decide, by decide, by decide, Or.inr (by decide),
    C35_permute2_composes Arch.AVX2 Elem.i32 1 1 1 0 (List.range 32) (by decide) (by decide)
      (by decide) (by decide) (by decide) (Or.inr (by decide))⟩

theorem zipWith_xor_zero : ∀ (c : List Nat) (e : Nat), c.length = e →
    List.zipWith (fun x y => x ^^^ y) c (List.replicate e 0) = c := by
  intro c
  induction c with
  | nil => intro e _; simp
  | cons x xs ih =>
    intro e he
    cases e with
    | zero => simp at he
    | succ e =>
      rw [List.replicate_succ, List.zipWith_cons_cons, ih e (by simpa using he)]
      simp

theorem zipWith_xor_ones : ∀ (c : List Nat) (e : Nat), c.length = e →
    List.zipWith (fun x y => x ^^^ y) c (List.replicate e 255) = c.map (fun x => x ^^^ 255) := by
  intro c
  induction c with
  | nil => intro e _; simp
  | cons x xs ih =>
    intro e he
    cases e with
    | zero => simp at he
    | succ e =>
      rw [List.replicate_succ, List.zipWith_cons_cons, ih e (by simpa using he)]
      simp

theorem xor_mask_lanes (e : Nat) (x y : List Nat)
    (hx : x = List.replicate e 0 ∨ x = List.replicate e 255)
    (hy : y = List.replicate e 0 ∨ y = List.replicate e 255) :
    List.zipWith (fun u v => u ^^^ v) x y = List.replicate e 0 ∨
    List.zipWith (fun u v => u ^^^ v) x y = List.replicate e 255 := by
  rcases hx with h | h <;> rcases hy with h2 | h2 <;> subst h <;> subst h2 <;>
    rw [List.zipWith_replicate, Nat.min_self]
  · exact Or.inl rfl
  · exact Or.inr rfl
  · exact Or.inr rfl
  · exact Or.inl rfl

/-- C36: `bit_xor` preserves the mask invariant: for mask vectors `m1`, `m2` of `n`
lanes of `T` (every lane 0 or all-ones), every lane of `bit_xor(m1, m2)` is again
0 or all-ones.  The scalar overloads broadcast the scalar into a vector of the
non-mask type and XOR it with the mask, and the result is a general vector: its
lane is the converted scalar where the mask lane is 0 and the complement of the
converted scalar where the mask lane is all-ones. -/
theorem C36_bit_xor_mask_invariant (T : Elem) (m1 m2 : Vec) (n : Nat)
    (h1 : m1.length = n * T.size) (h2 : m2.length = n * T.size)
    (hm1 : ∀ i, i < n →
      el T.size m1 i = List.replicate T.size 0 ∨ el T.size m1 i = List.replicate T.size 255)
    (hm2 : ∀ i, i < n →
      el T.size m2 i = List.replicate T.size 0 ∨ el T.size m2 i = List.replicate T.size 255) :
    (bit_xor m1 m2).length = n * T.size ∧
    (∀ i, i < n →
      el T.size (bit_xor m1 m2) i = List.replicate T.size 0 ∨
      el T.size (bit_xor m1 m2) i = List.replicate T.size 255) ∧
    (∀ (conv : Elem → Scalar → List Nat) (s : Scalar), (conv T s).length = T.size →
      bit_xor_scalar_vec conv T s m1
        = bit_xor (detail.make_const (conv T) (m1.length / T.size) s) m1 ∧
      ∀ i, i < n →
        (el T.size m1 i = List.replicate T.size 0 →
          el T.size (bit_xor_scalar_vec conv T s m1) i = conv T s ∧
          el T.size (bit_xor_vec_scalar conv T m1 s) i = conv T s) ∧
        (el T.size m1 i = List.replicate T.size 255 →
          el T.size (bit_xor_scalar_vec conv T s m1) i
            = (conv T s).map (fun x => x ^^^ 255) ∧
          el T.size (bit_xor_vec_scalar conv T m1 s) i
            = (conv T s).map (fun x => x ^^^ 255))) := by
  have hn : m1.length / T.size = n := by
    rw [h1, Nat.mul_div_cancel n (elem_size_pos T)]
  refine ⟨?_, ?_, ?_⟩
  · rw [bit_xor_length m1 m2 (by rw [h1, h2]), h1]
  · intro i hi
    rw [bit_xor_el]
    exact xor_mask_lanes T.size _ _ (hm1 i hi) (hm2 i hi)
  · intro conv s hc
    refine ⟨rfl, fun i hi => ?_⟩
    have hcomm : bit_xor_vec_scalar conv T m1 s = bit_xor_scalar_vec conv T s m1 :=
      bit_xor_comm _ _
    have hlane : el T.size (bit_xor_scalar_vec conv T s m1) i
        = List.zipWith (fun x y => x ^^^ y) (conv T s) (el T.size m1 i) := by
      unfold bit_xor_scalar_vec
      rw [bit_xor_el, make_const_el (conv T) T.size _ s hc i (by rw [hn]; exact hi)]
    rw [hcomm, hlane]
    constructor
    · intro h0
      rw [h0, zipWith_xor_zero _ _ hc]
      exact ⟨rfl, rfl⟩
    · intro h0
      rw [h0, zipWith_xor_ones _ _ hc]
      exact ⟨rfl, rfl⟩

theorem mask_sample_lanes (m : Vec)
    (hm : m = (List.replicate 8 255 ++ List.replicate 8 0) ∨
      m = (List.replicate 4 255 ++ List.replicate 12 0)) :
    ∀ i, i < 4 →
      el Elem.i32.size m i = List.replicate Elem.i32.size 0 ∨
      el Elem.i32.size m i = List.replicate Elem.i32.size 255 := by
  intro i hi
  rcases hm with h | h <;> subst h <;> interval_cases i <;> decide

theorem C36_bit_xor_mask_invariant_witness :
    (List.replicate 8 255 ++ List.replicate 8 0).length = 4 * Elem.i32.size ∧
    (List.replicate 4 255 ++ List.replicate 12 0).length = 4 * Elem.i32.size ∧
    (∀ i, i < 4 →
      el Elem.i32.size (List.replicate 8 255 ++ List.replicate 8 0) i
        = List.replicate Elem.i32.size 0 ∨
      el Elem.i32.size (List.replicate 8 255 ++ List.replicate 8 0) i
        = List.replicate Elem.i32.size 255) ∧
    (∀ i, i < 4 →
      el Elem.i32.size (List.replicate 4 255 ++ List.replicate 12 0) i
        = List.replicate Elem.i32.size 0 ∨
      el Elem.i32.size (List.replicate 4 255 ++ List.replicate 12 0) i
        = List.replicate Elem.i32.size 255) ∧
    (
    (bit_xor (List.replicate 8 255 ++ List.replicate 8 0) (List.replicate 4 255 ++ List.replicate 12 0)).length = 4 * Elem.i32.size ∧
    (∀ i, i < 4 →
      el Elem.i32.size (bit_xor (List.replicate 8 255 ++ List.replicate 8 0) (List.replicate 4 255 ++ List.replicate 12 0)) i = List.replicate Elem.i32.size 0 ∨
      el Elem.i32.size (bit_xor (List.replicate 8 255 ++ List.replicate 8 0) (List.replicate 4 255 ++ List.replicate 12 0)) i = List.replicate Elem.i32.size 255) ∧
    (∀ (conv : Elem → Scalar → List Nat) (s : Scalar), (conv Elem.i32 s).length = Elem.i32.size →
      bit_xor_scalar_vec conv Elem.i32 s (List.replicate 8 255 ++ List.replicate 8 0)
        = bit_xor (detail.make_const (conv Elem.i32) ((List.replicate 8 255 ++ List.replicate 8 0).length / Elem.i32.size) s) (List.replicate 8 255 ++ List.replicate 8 0) ∧
      ∀ i, i < 4 →
        (el Elem.i32.size (List.replicate 8 255 ++ List.replicate 8 0) i = List.replicate Elem.i32.size 0 →
          el Elem.i32.size (bit_xor_scalar_vec conv Elem.i32 s (List.replicate 8 255 ++ List.replicate 8 0)) i = conv Elem.i32 s ∧
          el Elem.i32.size (bit_xor_vec_scalar conv Elem.i32 (List.replicate 8 255 ++ List.replicate 8 0) s) i = conv Elem.i32 s) ∧
        (el Elem.i32.size (List.replicate 8 255 ++ List.replicate 8 0) i = List.replicate Elem.i32.size 255 →
          el Elem.i32.size (bit_xor_scalar_vec conv Elem.i32 s (List.replicate 8 255 ++ List.replicate 8 0)) i
            = (conv Elem.i32 s).map (fun x => x ^^^ 255) ∧
          el Elem.i32.size (bit_xor_vec_scalar conv Elem.i32 (List.replicate 8 255 ++ List.replicate 8 0) s) i
            = (conv Elem.i32 s).map (fun x => x ^^^ 255)))) :=
  ⟨by decide, by decide, mask_sample_lanes _ (Or.inl rfl), mask_sample_lanes _ (Or.inr rfl),
    C36_bit_xor_mask_invariant Elem.i32 (List.replicate 8 255 ++ List.replicate 8 0)
      (List.replicate 4 255 ++ List.replicate 12 0) 4 (by decide) (by decide)
      (mask_sample_lanes _ (Or.inl rfl)) (mask_sample_lanes _ (Or.inr rfl))⟩

end simdpp
